import Mathlib

/-!
# HeadUnit: the touch correlator and the presentation pipeline

A shallow embedding of `EwBspTouchInit` and `EwBspTouchGetEvents` of
`TargetSpecific/ew_bsp_touch.c`, and of `DrmGetFb`, `DrmEglInit`,
`DrmEglSwapBuffers` and `GfxSystemInit` of
`Application/Source/gfx_system_drm.c` (introduced before their definitions).

* C `int` values are `Int`; `/` on `int` is `Int.tdiv` (truncation towards
  zero).  The products of the coordinate transform are reduced to the range
  of a 32-bit `int` by `wrapInt`, the two's complement wrap the compiled
  program performs; the other `int` operations (`TouchAreaWidth - TouchX` of
  a valid sample, `XPos - DELTA_TOUCH`, `XPos + DELTA_TOUCH`) are taken exact.
* `unsigned long` tick values are `Nat`; the one arithmetic operation on them,
  `touch->Ticks + DELTA_TIME`, wraps modulo `ULONG_MODULUS` (a 64-bit
  `unsigned long`, as on LP64 Linux).
* The C arrays `TouchData`, `TouchEvent`, `TouchX`, `TouchY`, `TouchId` and
  `identified` are functions on the index; only indices below
  `NO_OF_FINGERS` are ever read or written.
* The raw-sample table (written by `TouchEventThread`) and the value returned
  by `EwGetTicks` are inputs of each poll.
-/

namespace HeadUnit

/-! ## Constants -/

/-- The constant `#define NO_OF_FINGERS 10`. -/
abbrev NO_OF_FINGERS : Nat := 10
/-- The constant `#define DELTA_TOUCH 16`. -/
abbrev DELTA_TOUCH : Int := 16
/-- The constant `#define DELTA_TIME 500`. -/
abbrev DELTA_TIME : Nat := 500
/-- The constant `#define EW_BSP_TOUCH_IDLE 0`. -/
abbrev EW_BSP_TOUCH_IDLE : Nat := 0
/-- The constant `#define EW_BSP_TOUCH_DOWN 1`. -/
abbrev EW_BSP_TOUCH_DOWN : Nat := 1
/-- The constant `#define EW_BSP_TOUCH_MOVE 2`. -/
abbrev EW_BSP_TOUCH_MOVE : Nat := 2
/-- The constant `#define EW_BSP_TOUCH_UP 3`. -/
abbrev EW_BSP_TOUCH_UP : Nat := 3
/-- The constant `#define EW_BSP_TOUCH_HOLD 4`. -/
abbrev EW_BSP_TOUCH_HOLD : Nat := 4
/-- One more than the largest `unsigned long`. -/
abbrev ULONG_MODULUS : Nat := 2 ^ 64

/-! ## Data -/

/-- The struct `XTouchData`: internal touch information of one finger. -/
structure XTouchData where
  XPos : Int
  YPos : Int
  Ticks : Nat
  TouchId : Int
  State : Nat
deriving DecidableEq, Repr

/-- The struct `XTouchEvent` of `ew_bsp_touch.h`. -/
structure XTouchEvent where
  XPos : Int
  YPos : Int
  Finger : Int
  State : Int
deriving DecidableEq, Repr

/-- The globals set by `EwBspTouchInit`, and the build-time value `EW_ROTATION`. -/
structure TouchConfig where
  GuiSizeWidth : Int
  GuiSizeHeight : Int
  TouchAreaWidth : Int
  TouchAreaHeight : Int
  EW_ROTATION : Nat
deriving DecidableEq, Repr

/-- The arrays `TouchX`, `TouchY`, `TouchId` written by the reader thread. -/
structure RawTouch where
  TouchX : Nat → Int
  TouchY : Nat → Int
  TouchId : Nat → Int

/-- The static arrays `TouchData` and `TouchEvent`. -/
structure TouchState where
  TouchData : Nat → XTouchData
  TouchEvent : Nat → XTouchEvent

/-- What `memset( TouchData, 0, sizeof( TouchData ))` leaves in every slot. -/
def zeroTouchData : XTouchData :=
  { XPos := 0, YPos := 0, Ticks := 0, TouchId := 0, State := 0 }

/-- The state after `EwBspTouchInit`: `TouchData` cleared, `TouchEvent` still
zero-initialised static storage. -/
def initialState : TouchState :=
  { TouchData := fun _ => zeroTouchData
    TouchEvent := fun _ => { XPos := 0, YPos := 0, Finger := 0, State := 0 } }

/-- The function `EwBspTouchInit`: stores the four sizes and clears `TouchData`. -/
def EwBspTouchInit (rotation : Nat) (aGuiWidth aGuiHeight aTouchWidth aTouchHeight : Int) :
    TouchConfig × TouchState :=
  ({ GuiSizeWidth := aGuiWidth, GuiSizeHeight := aGuiHeight,
     TouchAreaWidth := aTouchWidth, TouchAreaHeight := aTouchHeight,
     EW_ROTATION := rotation }, initialState)

/-! ## The sample loop of `EwBspTouchGetEvents` -/

/-- The condition of the `continue` at the head of the sample loop. -/
def skipSample (cfg : TouchConfig) (raw : RawTouch) (t : Nat) : Prop :=
  raw.TouchId t < 0 ∨
  raw.TouchX t ≤ 0 ∨ raw.TouchX t > cfg.TouchAreaWidth ∨
  raw.TouchY t ≤ 0 ∨ raw.TouchY t > cfg.TouchAreaHeight

instance (cfg : TouchConfig) (raw : RawTouch) (t : Nat) : Decidable (skipSample cfg raw t) :=
  inferInstanceAs (Decidable (raw.TouchId t < 0 ∨
    raw.TouchX t ≤ 0 ∨ raw.TouchX t > cfg.TouchAreaWidth ∨
    raw.TouchY t ≤ 0 ∨ raw.TouchY t > cfg.TouchAreaHeight))

/-- The value of an `int` expression whose exact value is `z`: `z` reduced to
the range `-2^31 ... 2^31 - 1` of a 32-bit `int` (two's complement wrap). -/
def wrapInt (z : Int) : Int :=
  (z + 2147483648) % 4294967296 - 2147483648

/-- The `x` computed for raw sample `t` under the `EW_ROTATION` branches; the
product is an `int`. -/
def uiX (cfg : TouchConfig) (raw : RawTouch) (t : Nat) : Int :=
  if cfg.EW_ROTATION = 90 then
    (wrapInt (raw.TouchY t * cfg.GuiSizeWidth)).tdiv cfg.TouchAreaHeight
  else if cfg.EW_ROTATION = 270 then
    (wrapInt ((cfg.TouchAreaHeight - raw.TouchY t) * cfg.GuiSizeWidth)).tdiv cfg.TouchAreaHeight
  else if cfg.EW_ROTATION = 180 then
    (wrapInt ((cfg.TouchAreaWidth - raw.TouchX t) * cfg.GuiSizeWidth)).tdiv cfg.TouchAreaWidth
  else
    (wrapInt (raw.TouchX t * cfg.GuiSizeWidth)).tdiv cfg.TouchAreaWidth

/-- The `y` computed for raw sample `t` under the `EW_ROTATION` branches; the
product is an `int`. -/
def uiY (cfg : TouchConfig) (raw : RawTouch) (t : Nat) : Int :=
  if cfg.EW_ROTATION = 90 then
    (wrapInt ((cfg.TouchAreaWidth - raw.TouchX t) * cfg.GuiSizeHeight)).tdiv cfg.TouchAreaWidth
  else if cfg.EW_ROTATION = 270 then
    (wrapInt (raw.TouchX t * cfg.GuiSizeHeight)).tdiv cfg.TouchAreaWidth
  else if cfg.EW_ROTATION = 180 then
    (wrapInt ((cfg.TouchAreaHeight - raw.TouchY t) * cfg.GuiSizeHeight)).tdiv
      cfg.TouchAreaHeight
  else
    (wrapInt (raw.TouchY t * cfg.GuiSizeHeight)).tdiv cfg.TouchAreaHeight

/-- The first test of the finger loop: the finger is already active with this id. -/
def activeMatch (touch : XTouchData) (id : Int) : Prop :=
  touch.State ≠ EW_BSP_TOUCH_IDLE ∧ touch.TouchId = id

instance (touch : XTouchData) (id : Int) : Decidable (activeMatch touch id) :=
  inferInstanceAs (Decidable (touch.State ≠ EW_BSP_TOUCH_IDLE ∧ touch.TouchId = id))

/-- The second test of the finger loop: an idle finger used within the recent
time span with the touch position in its vicinity. -/
def debounceMatch (touch : XTouchData) (ticks : Nat) (x y : Int) : Prop :=
  touch.State = EW_BSP_TOUCH_IDLE ∧ ticks < (touch.Ticks + DELTA_TIME) % ULONG_MODULUS ∧
  x > touch.XPos - DELTA_TOUCH ∧ x < touch.XPos + DELTA_TOUCH ∧
  y > touch.YPos - DELTA_TOUCH ∧ y < touch.YPos + DELTA_TOUCH

instance (touch : XTouchData) (ticks : Nat) (x y : Int) :
    Decidable (debounceMatch touch ticks x y) :=
  inferInstanceAs (Decidable (
    touch.State = EW_BSP_TOUCH_IDLE ∧ ticks < (touch.Ticks + DELTA_TIME) % ULONG_MODULUS ∧
    x > touch.XPos - DELTA_TOUCH ∧ x < touch.XPos + DELTA_TOUCH ∧
    y > touch.YPos - DELTA_TOUCH ∧ y < touch.YPos + DELTA_TOUCH))

/-- The finger loop `for ( finger = -1, f = 0; f < NO_OF_FINGERS; f++ )`, run
for `n` more iterations from index `f` with the current value of `finger`. -/
def fingerLoop (td : Nat → XTouchData) (id : Int) (ticks : Nat) (x y : Int) :
    Nat → Nat → Int → Int
  | 0, _, finger => finger
  | n + 1, f, finger =>
    if activeMatch (td f) id then (f : Int)
    else
      let finger1 := if debounceMatch (td f) ticks x y then (f : Int) else finger
      let finger2 :=
        if (td f).State = EW_BSP_TOUCH_IDLE ∧ finger1 = -1 then (f : Int) else finger1
      fingerLoop td id ticks x y n (f + 1) finger2

/-- The value of `finger` after the finger loop. -/
def findFinger (td : Nat → XTouchData) (id : Int) (ticks : Nat) (x y : Int) : Int :=
  fingerLoop td id ticks x y NO_OF_FINGERS 0 (-1)

/-- The state written to the found finger: start of a cycle, move or hold. -/
def nextState (touch : XTouchData) (x y : Int) : Nat :=
  if touch.State = EW_BSP_TOUCH_IDLE then EW_BSP_TOUCH_DOWN
  else if touch.XPos ≠ x ∨ touch.YPos ≠ y then EW_BSP_TOUCH_MOVE
  else EW_BSP_TOUCH_HOLD

/-- The `if ( finger >= 0 )` block: mark the finger identified and store the
touch parameters. -/
def assignFinger (finger : Int) (id : Int) (ticks : Nat) (x y : Int)
    (s : (Nat → XTouchData) × (Nat → Bool)) : (Nat → XTouchData) × (Nat → Bool) :=
  if finger ≥ 0 then
    (Function.update s.1 finger.toNat
        { XPos := x, YPos := y, Ticks := ticks, TouchId := id,
          State := nextState (s.1 finger.toNat) x y },
     Function.update s.2 finger.toNat true)
  else s

/-- One iteration of the sample loop, for raw sample `t`, on the pair
(`TouchData`, `identified`). -/
def sampleBody (cfg : TouchConfig) (raw : RawTouch) (ticks : Nat) (t : Nat)
    (s : (Nat → XTouchData) × (Nat → Bool)) : (Nat → XTouchData) × (Nat → Bool) :=
  if skipSample cfg raw t then s
  else
    assignFinger (findFinger s.1 (raw.TouchId t) ticks (uiX cfg raw t) (uiY cfg raw t))
      (raw.TouchId t) ticks (uiX cfg raw t) (uiY cfg raw t) s

/-- The sample loop after its iterations `t = 0, ..., n - 1`. -/
def sampleLoop (cfg : TouchConfig) (raw : RawTouch) (ticks : Nat)
    (s : (Nat → XTouchData) × (Nat → Bool)) : Nat → (Nat → XTouchData) × (Nat → Bool)
  | 0 => s
  | n + 1 => sampleBody cfg raw ticks n (sampleLoop cfg raw ticks s n)

/-! ## The event loop of `EwBspTouchGetEvents` -/

/-- The triple (`TouchData`, `TouchEvent`, `noOfEvents`) of the event loop. -/
abbrev EmitState := (Nat → XTouchData) × (Nat → XTouchEvent) × Nat

/-- One iteration of the event loop, for finger `f`. -/
def emitBody (identified : Nat → Bool) (f : Nat) (s : EmitState) : EmitState :=
  let touch := s.1 f
  if identified f = true ∧ touch.State = EW_BSP_TOUCH_DOWN then
    (s.1,
     Function.update s.2.1 s.2.2
       { XPos := touch.XPos, YPos := touch.YPos, Finger := f, State := EW_BSP_TOUCH_DOWN },
     s.2.2 + 1)
  else if identified f = true ∧ touch.State = EW_BSP_TOUCH_MOVE then
    (s.1,
     Function.update s.2.1 s.2.2
       { XPos := touch.XPos, YPos := touch.YPos, Finger := f, State := EW_BSP_TOUCH_MOVE },
     s.2.2 + 1)
  else if ¬ identified f = true ∧ touch.State ≠ EW_BSP_TOUCH_IDLE then
    (Function.update s.1 f { touch with State := EW_BSP_TOUCH_IDLE },
     Function.update s.2.1 s.2.2
       { XPos := touch.XPos, YPos := touch.YPos, Finger := f, State := EW_BSP_TOUCH_UP },
     s.2.2 + 1)
  else s

/-- The event loop after its iterations `f = 0, ..., n - 1`. -/
def emitLoop (identified : Nat → Bool) (s : EmitState) : Nat → EmitState
  | 0 => s
  | n + 1 => emitBody identified n (emitLoop identified s n)

/-- The function `EwBspTouchGetEvents`: one poll.  Returns the new static state and the
returned count `noOfEvents`; the returned array is `TouchEvent`. -/
def EwBspTouchGetEvents (cfg : TouchConfig) (raw : RawTouch) (ticks : Nat)
    (st : TouchState) : TouchState × Nat :=
  let s1 := sampleLoop cfg raw ticks (st.TouchData, fun _ => false) NO_OF_FINGERS
  let s2 := emitLoop s1.2 (s1.1, st.TouchEvent, 0) NO_OF_FINGERS
  ({ TouchData := s2.1, TouchEvent := s2.2.1 }, s2.2.2)

/-- The events a caller reads: the first `noOfEvents` entries of `TouchEvent`. -/
def returnedEvents (r : TouchState × Nat) : List XTouchEvent :=
  (List.range r.2).map r.1.TouchEvent

/-! ## Inputs and states for evaluation -/

/-- A raw table given by a list of `(id, X, Y)`; entries past the list are
what the reader thread's clearing loop stores: `(-1, 0, 0)`. -/
def rawOfList (l : List (Int × Int × Int)) : RawTouch :=
  { TouchX := fun t => (l.getD t (-1, 0, 0)).2.1
    TouchY := fun t => (l.getD t (-1, 0, 0)).2.2
    TouchId := fun t => (l.getD t (-1, 0, 0)).1 }

/-- An 800 x 480 UI on an 800 x 480 touch area, rotation 0 (the values of `ewconfig.h`). -/
def cfg800 : TouchConfig :=
  { GuiSizeWidth := 800, GuiSizeHeight := 480, TouchAreaWidth := 800, TouchAreaHeight := 480,
    EW_ROTATION := 0 }

/-! ## Slot-wise views of a poll -/

/-- The event the event loop writes for finger `f`, if any, as a function of
`identified` and of `TouchData` before the loop. -/
def eventOf (identified : Nat → Bool) (td : Nat → XTouchData) (f : Nat) : Option XTouchEvent :=
  if identified f = true ∧ (td f).State = EW_BSP_TOUCH_DOWN then
    some { XPos := (td f).XPos, YPos := (td f).YPos, Finger := f, State := EW_BSP_TOUCH_DOWN }
  else if identified f = true ∧ (td f).State = EW_BSP_TOUCH_MOVE then
    some { XPos := (td f).XPos, YPos := (td f).YPos, Finger := f, State := EW_BSP_TOUCH_MOVE }
  else if ¬ identified f = true ∧ (td f).State ≠ EW_BSP_TOUCH_IDLE then
    some { XPos := (td f).XPos, YPos := (td f).YPos, Finger := f, State := EW_BSP_TOUCH_UP }
  else none

/-- The content of slot `f` after the event loop has passed it. -/
def releaseOf (identified : Nat → Bool) (td : Nat → XTouchData) (f : Nat) : XTouchData :=
  if ¬ identified f = true ∧ (td f).State ≠ EW_BSP_TOUCH_IDLE then
    { td f with State := EW_BSP_TOUCH_IDLE }
  else td f

/-- The entries of `TouchEvent` below `noOfEvents`, in order. -/
def writtenEvents (s : EmitState) : List XTouchEvent :=
  (List.range s.2.2).map s.2.1

/-- The pair (`TouchData`, `identified`) at the moment raw sample `t` of a
poll started in state `st` is processed. -/
def beforeSample (cfg : TouchConfig) (raw : RawTouch) (ticks : Nat) (st : TouchState)
    (t : Nat) : (Nat → XTouchData) × (Nat → Bool) :=
  sampleLoop cfg raw ticks (st.TouchData, fun _ => false) t

/-- The finger the sample loop finds for raw sample `t` on the pair `s`:
`-1` when the sample is skipped or no finger is found. -/
def fingerOf (cfg : TouchConfig) (raw : RawTouch) (ticks : Nat) (t : Nat)
    (s : (Nat → XTouchData) × (Nat → Bool)) : Int :=
  if skipSample cfg raw t then -1
  else findFinger s.1 (raw.TouchId t) ticks (uiX cfg raw t) (uiY cfg raw t)

/-- The finger raw sample `t` is assigned to in a poll started in state `st`. -/
def assignedFinger (cfg : TouchConfig) (raw : RawTouch) (ticks : Nat) (st : TouchState)
    (t : Nat) : Int :=
  fingerOf cfg raw ticks t (beforeSample cfg raw ticks st t)

/-- The record the sample loop stores for raw sample `t` in a slot holding `old`. -/
def storedTouch (cfg : TouchConfig) (raw : RawTouch) (ticks : Nat) (t : Nat)
    (old : XTouchData) : XTouchData :=
  { XPos := uiX cfg raw t, YPos := uiY cfg raw t, Ticks := ticks, TouchId := raw.TouchId t,
    State := nextState old (uiX cfg raw t) (uiY cfg raw t) }

/-- The events of a list that carry finger index `f`. -/
def eventsOfFinger (f : Nat) (l : List XTouchEvent) : List XTouchEvent :=
  l.filter (fun e => decide (e.Finger = (f : Int)))

/-- The raw table with entry `t` replaced by the cleared entry `(-1, 0, 0)`. -/
def clearSample (raw : RawTouch) (t : Nat) : RawTouch :=
  { TouchX := Function.update raw.TouchX t 0
    TouchY := Function.update raw.TouchY t 0
    TouchId := Function.update raw.TouchId t (-1) }

/-! ## Conditions in the words of the specification -/

/-- The validity condition in the words of the specification: the touch id is
non-negative and the coordinates lie in `(0, W] x (0, H]`. -/
def validSample (cfg : TouchConfig) (id X Y : Int) : Prop :=
  id ≥ 0 ∧ (0 < X ∧ X ≤ cfg.TouchAreaWidth) ∧ (0 < Y ∧ Y ≤ cfg.TouchAreaHeight)

instance (cfg : TouchConfig) (id X Y : Int) : Decidable (validSample cfg id X Y) :=
  inferInstanceAs (Decidable
    (id ≥ 0 ∧ (0 < X ∧ X ≤ cfg.TouchAreaWidth) ∧ (0 < Y ∧ Y ≤ cfg.TouchAreaHeight)))

/-! ## Runs of polls and touch cycles -/

/-- The events returned by a sequence of polls, each given by its raw table
and its tick value, in the order they are returned. -/
def runEvents (cfg : TouchConfig) : List (RawTouch × Nat) → TouchState → List XTouchEvent
  | [], _ => []
  | p :: ps, st =>
    returnedEvents (EwBspTouchGetEvents cfg p.1 p.2 st) ++
      runEvents cfg ps (EwBspTouchGetEvents cfg p.1 p.2 st).1

/-- The state after a sequence of polls. -/
def runState (cfg : TouchConfig) : List (RawTouch × Nat) → TouchState → TouchState
  | [], st => st
  | p :: ps, st => runState cfg ps (EwBspTouchGetEvents cfg p.1 p.2 st).1

/-- One step of the touch-cycle acceptor: `inCycle` tells whether a Down
without a later Up has been seen; `none` rejects the event kind. -/
def cycleStep (inCycle : Bool) (kind : Int) : Option Bool :=
  if kind = EW_BSP_TOUCH_DOWN then (if inCycle then none else some true)
  else if kind = EW_BSP_TOUCH_MOVE then (if inCycle then some true else none)
  else if kind = EW_BSP_TOUCH_UP then (if inCycle then some false else none)
  else none

/-- A sequence of event kinds forms touch cycles Down, Move*, Up (the last
cycle possibly unfinished), read from a position inside a cycle or not. -/
def touchCycles : Bool → List Int → Bool
  | _, [] => true
  | inCycle, k :: ks =>
    match cycleStep inCycle k with
    | some b => touchCycles b ks
    | none => false

/-- The kinds of the events a run returns for finger `f`, in order. -/
def fingerKinds (cfg : TouchConfig) (polls : List (RawTouch × Nat)) (st : TouchState)
    (f : Nat) : List Int :=
  (eventsOfFinger f (runEvents cfg polls st)).map (fun e => e.State)

/-- The valid samples of a raw table carry pairwise distinct touch ids. -/
def distinctIds (cfg : TouchConfig) (raw : RawTouch) : Prop :=
  ∀ t1, t1 < NO_OF_FINGERS → ∀ t2, t2 < NO_OF_FINGERS →
    ¬ skipSample cfg raw t1 → ¬ skipSample cfg raw t2 →
    raw.TouchId t1 = raw.TouchId t2 → t1 = t2

instance (cfg : TouchConfig) (raw : RawTouch) : Decidable (distinctIds cfg raw) :=
  inferInstanceAs (Decidable (∀ t1, t1 < NO_OF_FINGERS → ∀ t2, t2 < NO_OF_FINGERS →
    ¬ skipSample cfg raw t1 → ¬ skipSample cfg raw t2 →
    raw.TouchId t1 = raw.TouchId t2 → t1 = t2))

/-- Whether finger `f` is inside a touch cycle in state `st`: its slot is non-Idle. -/
def inCycle (st : TouchState) (f : Nat) : Bool :=
  decide ((st.TouchData f).State ≠ EW_BSP_TOUCH_IDLE)

/-- The raw table holds exactly one valid sample, at index `a`. -/
def singleSample (cfg : TouchConfig) (raw : RawTouch) (a : Nat) : Prop :=
  a < NO_OF_FINGERS ∧ ¬ skipSample cfg raw a ∧
  ∀ t, t < NO_OF_FINGERS → t ≠ a → skipSample cfg raw t

instance (cfg : TouchConfig) (raw : RawTouch) (a : Nat) : Decidable (singleSample cfg raw a) :=
  inferInstanceAs (Decidable (a < NO_OF_FINGERS ∧ ¬ skipSample cfg raw a ∧
    ∀ t, t < NO_OF_FINGERS → t ≠ a → skipSample cfg raw t))

/-- The raw table holds no valid sample. -/
def noSample (cfg : TouchConfig) (raw : RawTouch) : Prop :=
  ∀ t, t < NO_OF_FINGERS → skipSample cfg raw t

instance (cfg : TouchConfig) (raw : RawTouch) : Decidable (noSample cfg raw) :=
  inferInstanceAs (Decidable (∀ t, t < NO_OF_FINGERS → skipSample cfg raw t))

/-- No finger is pressed: every finger slot is Idle. -/
def allIdle (st : TouchState) : Prop :=
  ∀ k, k < NO_OF_FINGERS → (st.TouchData k).State = EW_BSP_TOUCH_IDLE

instance (st : TouchState) : Decidable (allIdle st) :=
  inferInstanceAs (Decidable (∀ k, k < NO_OF_FINGERS →
    (st.TouchData k).State = EW_BSP_TOUCH_IDLE))

/-- Exactly finger `f` is pressed, with touch id `id`. -/
def onlyFinger (st : TouchState) (f : Nat) (id : Int) : Prop :=
  f < NO_OF_FINGERS ∧ activeMatch (st.TouchData f) id ∧
  ∀ k, k < NO_OF_FINGERS → k ≠ f → (st.TouchData k).State = EW_BSP_TOUCH_IDLE

/-- The state after a single finger was pressed (poll `touch`), moved (polls
`moves`) and released (poll `release`, then polls `idles`). -/
def afterRelease (cfg : TouchConfig) (touch release : RawTouch × Nat)
    (moves idles : List (RawTouch × Nat)) : TouchState :=
  runState cfg (touch :: (moves ++ release :: idles)) initialState

/-- A state given by the list of its first finger slots; the other slots are cleared. -/
def stateOfList (l : List XTouchData) : TouchState :=
  { TouchData := fun k => l.getD k zeroTouchData
    TouchEvent := initialState.TouchEvent }

/-- Slot 0 is Idle, last seen at (100, 100) at tick 100; slot 3 is Down with touch id 7. -/
def stateIdleAndActive : TouchState :=
  stateOfList
    [{ XPos := 100, YPos := 100, Ticks := 100, TouchId := 4, State := EW_BSP_TOUCH_IDLE },
     zeroTouchData, zeroTouchData,
     { XPos := 300, YPos := 300, Ticks := 150, TouchId := 7, State := EW_BSP_TOUCH_DOWN }]

/-- Slot 0 is in state Move with touch id 1; the other slots are cleared. -/
def stateOneMoving : TouchState :=
  stateOfList
    [{ XPos := 50, YPos := 50, Ticks := 900, TouchId := 1, State := EW_BSP_TOUCH_MOVE }]

/-- All ten slots are Down, slot `k` with touch id `k`. -/
def stateFull : TouchState :=
  { TouchData := fun k =>
      { XPos := 10 * (k : Int) + 10, YPos := 10, Ticks := 0, TouchId := (k : Int),
        State := EW_BSP_TOUCH_DOWN }
    TouchEvent := initialState.TouchEvent }

/-! ## The raw table of a reader thread that never started -/

/-- The raw table as static storage leaves it when `TouchEventThread` returns
before its clearing loop: `X = 0`, `Y = 0`, `id = 0` in every entry. -/
def zeroRawTouch : RawTouch :=
  { TouchX := fun _ => 0, TouchY := fun _ => 0, TouchId := fun _ => 0 }

/-! ## Determinism and the coordinate transform -/

/-- Two raw tables hold the same ten samples. -/
def sameTable (r r' : RawTouch) : Prop :=
  ∀ t, t < NO_OF_FINGERS →
    r.TouchId t = r'.TouchId t ∧ r.TouchX t = r'.TouchX t ∧ r.TouchY t = r'.TouchY t

instance (r r' : RawTouch) : Decidable (sameTable r r') :=
  inferInstanceAs (Decidable (∀ t, t < NO_OF_FINGERS →
    r.TouchId t = r'.TouchId t ∧ r.TouchX t = r'.TouchX t ∧ r.TouchY t = r'.TouchY t))

/-- An 800 x 480 UI on a 480 x 800 touch area, rotation 90. -/
def cfgRot90 : TouchConfig :=
  { GuiSizeWidth := 800, GuiSizeHeight := 480, TouchAreaWidth := 480, TouchAreaHeight := 800,
    EW_ROTATION := 90 }

/-- The coordinate transform in the words of the specification, for rotation
`rot`, UI size `GW x GH`, touch area `TW x TH` and raw point `(X, Y)`, with
truncating division. -/
def specTransform (rot : Nat) (GW GH TW TH X Y : Int) : Int × Int :=
  if rot = 0 then ((X * GW).tdiv TW, (Y * GH).tdiv TH)
  else if rot = 90 then ((Y * GW).tdiv TH, ((TW - X) * GH).tdiv TW)
  else if rot = 180 then (((TW - X) * GW).tdiv TW, ((TH - Y) * GH).tdiv TH)
  else (((TH - Y) * GW).tdiv TH, (X * GH).tdiv TW)

/-! ## The presentation pipeline of `Application/Source/gfx_system_drm.c`

Buffer objects (`struct gbm_bo*`) are numbered by `Nat`; the pointer
`GbmBuffer` is an `Option`, `none` for `NULL`.  The libraries libgbm and
libdrm are the environment: what their calls return is an input of each
function, and the calls made are recorded in order.  The surface is modelled
by the list of buffers locked from it and not released. -/

/-- The calls to libgbm and libdrm that the module makes. -/
inductive DrmCall where
  | lockFrontBuffer (bo : Nat)
  | releaseBuffer (bo : Nat)
  | addFB2 (bo : Nat) (ret : Int) (fbId : Nat)
  | pageFlip (fbId : Nat) (ret : Int)
  | select (ret : Int)
  | handleEvent (flipDone : Bool)
deriving DecidableEq, Repr

/-- The static `GbmBuffer`, the user data of the buffer objects (the cached
framebuffer id, 0 for none), the buffers locked from `GbmSurface` and not
released, and the calls made so far. -/
structure DrmState where
  GbmBuffer : Option Nat
  userData : Nat → Nat
  locked : List Nat
  calls : List DrmCall

/-- One return of `select` in the wait loop: its return value, whether
`DrmFd` is set in `fds`, and whether `drmHandleEvent` then dispatches the
page-flip event to `DrmFbFlipCallback`. -/
structure SelectResult where
  ret : Int
  drmReadable : Bool
  flipHandled : Bool
deriving DecidableEq, Repr

/-- What the environment answers during one call of `DrmEglSwapBuffers`: the
buffer returned by `gbm_surface_lock_front_buffer` (not `NULL`), the return
value and framebuffer id of `drmModeAddFB2`, the return value of
`drmModePageFlip`, and the successive returns of `select`. -/
structure SwapEnv where
  next_bo : Nat
  addRet : Int
  addFbId : Nat
  flipRet : Int
  selects : List SelectResult

/-- The function `DrmGetFb`: the cached framebuffer id of the buffer, or a
new one from `drmModeAddFB2`, cached in the user data; 0 if that call fails. -/
def DrmGetFb (addRet : Int) (addFbId : Nat) (aGbmBuffer : Nat) (s : DrmState) :
    Nat × DrmState :=
  if s.userData aGbmBuffer ≠ 0 then (s.userData aGbmBuffer, s)
  else if addRet ≠ 0 then
    (0, { s with calls := s.calls ++ [DrmCall.addFB2 aGbmBuffer addRet addFbId] })
  else
    (addFbId,
     { s with
       userData := Function.update s.userData aGbmBuffer addFbId
       calls := s.calls ++ [DrmCall.addFB2 aGbmBuffer addRet addFbId] })

/-- The loop `while ( waiting_for_flip )` with the callback
`DrmFbFlipCallback`: the value of `waiting_for_flip` and the calls made when
the loop is left, `none` when the returns of `select` run out while the loop
still waits. -/
def waitLoop : List SelectResult → Int → List DrmCall → Option (Int × List DrmCall)
  | [], waiting_for_flip, calls =>
    if waiting_for_flip = 0 then some (waiting_for_flip, calls) else none
  | r :: rs, waiting_for_flip, calls =>
    if waiting_for_flip = 0 then some (waiting_for_flip, calls)
    else if r.ret ≤ 0 then some (waiting_for_flip, calls ++ [DrmCall.select r.ret])
    else if r.drmReadable = true then
      waitLoop rs (if r.flipHandled = true then 0 else waiting_for_flip)
        (calls ++ [DrmCall.select r.ret, DrmCall.handleEvent r.flipHandled])
    else waitLoop rs waiting_for_flip (calls ++ [DrmCall.select r.ret])

/-- The state after `next_bo = gbm_surface_lock_front_buffer( GbmSurface )`. -/
def afterLock (env : SwapEnv) (s : DrmState) : DrmState :=
  { s with
    locked := env.next_bo :: s.locked
    calls := s.calls ++ [DrmCall.lockFrontBuffer env.next_bo] }

/-- The lines after the wait loop: release the last buffer, if any, and make
`next_bo` the pinned one. -/
def releaseAndPin (next_bo : Nat) (s : DrmState) : DrmState :=
  match s.GbmBuffer with
  | some old =>
    { s with
      GbmBuffer := some next_bo
      locked := s.locked.erase old
      calls := s.calls ++ [DrmCall.releaseBuffer old] }
  | none => { s with GbmBuffer := some next_bo }

/-- The function `DrmEglSwapBuffers`; `none` when the wait loop never ends
on the given returns of `select`.  The call of `eglSwapBuffers` acts on none
of the modelled variables and is left out. -/
def DrmEglSwapBuffers (env : SwapEnv) (s : DrmState) : Option DrmState :=
  let r := DrmGetFb env.addRet env.addFbId env.next_bo (afterLock env s)
  if r.1 = 0 then some r.2
  else
    let s2 : DrmState :=
      { r.2 with calls := r.2.calls ++ [DrmCall.pageFlip r.1 env.flipRet] }
    if env.flipRet ≠ 0 then some s2
    else
      match waitLoop env.selects 1 s2.calls with
      | none => none
      | some w => some (releaseAndPin env.next_bo { s2 with calls := w.2 })

/-- The framebuffer id `DrmEglSwapBuffers` obtains for the newly locked buffer. -/
def swapHandle (env : SwapEnv) (s : DrmState) : Nat :=
  (DrmGetFb env.addRet env.addFbId env.next_bo (afterLock env s)).1

/-- The wait loop sees the flip confirmation: no `select` returns a value
`<= 0` before `drmHandleEvent` dispatches the page-flip event. -/
def flipConfirmed : List SelectResult → Bool
  | [] => false
  | r :: rs =>
    if r.ret ≤ 0 then false
    else if r.drmReadable = true ∧ r.flipHandled = true then true
    else flipConfirmed rs

/-- The wait ends without confirmation: a `select` returns a value `<= 0`
before any page-flip event is dispatched. -/
def waitInterrupted : List SelectResult → Bool
  | [] => false
  | r :: rs =>
    if r.ret ≤ 0 then true
    else if r.drmReadable = true ∧ r.flipHandled = true then false
    else waitInterrupted rs

/-- A state with one pinned buffer, number 1, locked, without cached framebuffer id. -/
def drmPinnedOne : DrmState :=
  { GbmBuffer := some 1, userData := fun _ => 0, locked := [1], calls := [] }

/-- The state after a successful handle acquisition and the call of `drmModePageFlip`. -/
def submitted (env : SwapEnv) (s : DrmState) : DrmState :=
  { (DrmGetFb env.addRet env.addFbId env.next_bo (afterLock env s)).2 with
    calls := (DrmGetFb env.addRet env.addFbId env.next_bo (afterLock env s)).2.calls ++
      [DrmCall.pageFlip (swapHandle env s) env.flipRet] }

/-- The environment of a confirmed swap: buffer 2 is locked, gets
framebuffer id 42, the flip is submitted, and after a wake-up for the other
descriptor and an event that is not the flip, the flip event is dispatched. -/
def envConfirmed : SwapEnv :=
  { next_bo := 2, addRet := 0, addFbId := 42, flipRet := 0
    selects := [{ ret := 1, drmReadable := false, flipHandled := false },
                { ret := 1, drmReadable := true, flipHandled := false },
                { ret := 1, drmReadable := true, flipHandled := true }] }

/-- The environment of an interrupted wait: as `envConfirmed`, but the first
`select` returns `-1`. -/
def envInterrupted : SwapEnv :=
  { next_bo := 2, addRet := 0, addFbId := 42, flipRet := 0
    selects := [{ ret := -1, drmReadable := false, flipHandled := false }] }

/-- The environment in which `drmModeAddFB2` fails for the locked buffer 2. -/
def envAddFails : SwapEnv :=
  { next_bo := 2, addRet := -1, addFbId := 0, flipRet := 0, selects := [] }

/-- The environment in which `drmModePageFlip` fails (`-EBUSY`). -/
def envFlipFails : SwapEnv :=
  { next_bo := 2, addRet := 0, addFbId := 42, flipRet := -16, selects := [] }

/-! ## Distinct identities -/

/-- No two non-Idle finger slots carry the same touch id. -/
def distinctSlots (td : Nat → XTouchData) : Prop :=
  ∀ a, a < NO_OF_FINGERS → ∀ b, b < NO_OF_FINGERS → a ≠ b →
    (td a).State ≠ EW_BSP_TOUCH_IDLE → (td b).State ≠ EW_BSP_TOUCH_IDLE →
    (td a).TouchId ≠ (td b).TouchId

/-! ## Division with an explicit failure -/

/-- The C division on `int` as the machine executes it: no result for a zero divisor. -/
def cdiv (a b : Int) : Option Int :=
  if b = 0 then none else some (a.tdiv b)

/-- The UI position of raw sample `t` as in `uiX` and `uiY`, with every
division executed by `cdiv`: `none` if one of them divides by zero. -/
def uiPosChecked (cfg : TouchConfig) (raw : RawTouch) (t : Nat) : Option (Int × Int) :=
  if cfg.EW_ROTATION = 90 then
    (cdiv (wrapInt (raw.TouchY t * cfg.GuiSizeWidth)) cfg.TouchAreaHeight).bind fun x =>
      (cdiv (wrapInt ((cfg.TouchAreaWidth - raw.TouchX t) * cfg.GuiSizeHeight))
        cfg.TouchAreaWidth).map fun y => (x, y)
  else if cfg.EW_ROTATION = 270 then
    (cdiv (wrapInt ((cfg.TouchAreaHeight - raw.TouchY t) * cfg.GuiSizeWidth))
      cfg.TouchAreaHeight).bind fun x =>
        (cdiv (wrapInt (raw.TouchX t * cfg.GuiSizeHeight)) cfg.TouchAreaWidth).map
          fun y => (x, y)
  else if cfg.EW_ROTATION = 180 then
    (cdiv (wrapInt ((cfg.TouchAreaWidth - raw.TouchX t) * cfg.GuiSizeWidth))
      cfg.TouchAreaWidth).bind fun x =>
        (cdiv (wrapInt ((cfg.TouchAreaHeight - raw.TouchY t) * cfg.GuiSizeHeight))
          cfg.TouchAreaHeight).map fun y => (x, y)
  else
    (cdiv (wrapInt (raw.TouchX t * cfg.GuiSizeWidth)) cfg.TouchAreaWidth).bind fun x =>
      (cdiv (wrapInt (raw.TouchY t * cfg.GuiSizeHeight)) cfg.TouchAreaHeight).map
        fun y => (x, y)

/-- One iteration of the sample loop with the divisions executed by `cdiv`:
the position is computed only past the `continue`. -/
def sampleBodyChecked (cfg : TouchConfig) (raw : RawTouch) (ticks : Nat) (t : Nat)
    (s : (Nat → XTouchData) × (Nat → Bool)) : Option ((Nat → XTouchData) × (Nat → Bool)) :=
  if skipSample cfg raw t then some s
  else
    (uiPosChecked cfg raw t).map fun p =>
      assignFinger (findFinger s.1 (raw.TouchId t) ticks p.1 p.2) (raw.TouchId t) ticks
        p.1 p.2 s

/-- The sample loop with the divisions executed by `cdiv`. -/
def sampleLoopChecked (cfg : TouchConfig) (raw : RawTouch) (ticks : Nat)
    (s : (Nat → XTouchData) × (Nat → Bool)) :
    Nat → Option ((Nat → XTouchData) × (Nat → Bool))
  | 0 => some s
  | n + 1 => (sampleLoopChecked cfg raw ticks s n).bind (sampleBodyChecked cfg raw ticks n)

/-! ## Sequences of calls into the presentation pipeline -/

/-- A sequence of calls of `DrmGetFb`, each given by the buffer object and by
the return value and framebuffer id `drmModeAddFB2` answers if it is called. -/
def runGetFb : List (Nat × Int × Nat) → DrmState → DrmState
  | [], s => s
  | c :: cs, s => runGetFb cs (DrmGetFb c.2.1 c.2.2 c.1 s).2

/-- The native framebuffer handles created for buffer `bo` in a trace: the
ids of the calls of `drmModeAddFB2` for `bo` that returned 0 with a non-zero id. -/
def createdFor (bo : Nat) : List DrmCall → List Nat
  | [] => []
  | DrmCall.addFB2 b ret fb :: cs =>
    if b = bo ∧ ret = 0 ∧ fb ≠ 0 then fb :: createdFor bo cs else createdFor bo cs
  | _ :: cs => createdFor bo cs

/-- The state before `DrmEglInit`: no pinned buffer, no cached framebuffer
id, no locked buffer, no call made. -/
def drmInitial : DrmState :=
  { GbmBuffer := none, userData := fun _ => 0, locked := [], calls := [] }

/-- A sequence of calls of `DrmEglSwapBuffers`, each with the answers of its
environment; `none` when one of the calls never returns. -/
def runSwaps : List SwapEnv → DrmState → Option DrmState
  | [], s => some s
  | env :: envs, s => (DrmEglSwapBuffers env s).bind (runSwaps envs)

/-- Reading a trace of calls with a checker: the checker state after the
trace, `none` when the checker rejects a call. -/
def runCheck {σ : Type} (step : σ → DrmCall → Option σ) : σ → List DrmCall → Option σ
  | p, [] => some p
  | p, c :: cs => (step p c).bind fun q => runCheck step q cs

/-- The checker of the swap ordering.  Its state tells whether a submitted
page flip waits for its confirmation; a page flip submitted (return value 0)
in that state is rejected; a dispatched page-flip event clears the state. -/
def flipStep (pending : Bool) : DrmCall → Option Bool
  | DrmCall.pageFlip _ ret =>
    if ret = 0 then (if pending = true then none else some true) else some pending
  | DrmCall.handleEvent true => some false
  | _ => some pending

/-- The trace submits every page flip only after the confirmation of the
page flips submitted before; the result tells whether a flip is still pending. -/
def flipsOrdered (pending : Bool) (calls : List DrmCall) : Option Bool :=
  runCheck flipStep pending calls

/-- Where a swap stands: no flip submitted since the last release, a flip
submitted and not confirmed, a flip submitted and confirmed. -/
inductive FlipPhase where
  | idle
  | pending
  | confirmed
deriving DecidableEq, Repr

/-- The checker of the releases: a buffer is released only after a page flip
was submitted and its confirmation dispatched, and each confirmed flip pays
for one release. -/
def releaseStep (ph : FlipPhase) : DrmCall → Option FlipPhase
  | DrmCall.pageFlip _ ret => if ret = 0 then some FlipPhase.pending else some ph
  | DrmCall.handleEvent true =>
    if ph = FlipPhase.pending then some FlipPhase.confirmed else some ph
  | DrmCall.releaseBuffer _ => if ph = FlipPhase.confirmed then some FlipPhase.idle else none
  | _ => some ph

/-- Every release of the trace comes after the confirmation of a page flip
submitted after the release before it. -/
def releasesConfirmed (ph : FlipPhase) (calls : List DrmCall) : Option FlipPhase :=
  runCheck releaseStep ph calls

/-- The buffers released in a trace, in order. -/
def releasedBuffers : List DrmCall → List Nat
  | [] => []
  | DrmCall.releaseBuffer b :: cs => b :: releasedBuffers cs
  | _ :: cs => releasedBuffers cs

/-- The calls that neither submit a flip, nor confirm one, nor release a buffer. -/
def quietCall : DrmCall → Bool
  | DrmCall.lockFrontBuffer _ => true
  | DrmCall.addFB2 _ _ _ => true
  | DrmCall.select _ => true
  | DrmCall.handleEvent false => true
  | _ => false

/-- The environment of a swap that succeeds and is confirmed: `drmModeAddFB2`
succeeds with a non-zero id if it is called, the submission succeeds, and the
wait sees the confirmation. -/
def confirmedEnv (env : SwapEnv) : Prop :=
  env.addRet = 0 ∧ env.addFbId ≠ 0 ∧ env.flipRet = 0 ∧ flipConfirmed env.selects = true

instance (env : SwapEnv) : Decidable (confirmedEnv env) :=
  inferInstanceAs (Decidable
    (env.addRet = 0 ∧ env.addFbId ≠ 0 ∧ env.flipRet = 0 ∧ flipConfirmed env.selects = true))

/-- The environment of a second swap after the one of `envInterrupted`:
buffer 3 is locked, gets framebuffer id 43, the flip is submitted and its
event dispatched at the first `select`. -/
def envSecond : SwapEnv :=
  { next_bo := 3, addRet := 0, addFbId := 43, flipRet := 0
    selects := [{ ret := 1, drmReadable := true, flipHandled := true }] }

/-- What the environment answers at the end of `DrmEglInit`: the buffer
returned by `gbm_surface_lock_front_buffer`, the return value and framebuffer
id of `drmModeAddFB2`, and the return value of `drmModeSetCrtc`. -/
structure InitEnv where
  first_bo : Nat
  addRet : Int
  addFbId : Nat
  setCrtcRet : Int

/-- The function `DrmEglInit` from its call of `eglSwapBuffers` on, that is
on the path on which the EGL setup before did not return 0: lock the front
buffer into `GbmBuffer`, get its framebuffer id, set the mode.  Returns the
return value and the state; `drmModeSetCrtc` is not recorded in the trace. -/
def DrmEglInit (env : InitEnv) (s : DrmState) : Int × DrmState :=
  let s1 : DrmState :=
    { s with
      GbmBuffer := some env.first_bo
      locked := env.first_bo :: s.locked
      calls := s.calls ++ [DrmCall.lockFrontBuffer env.first_bo] }
  let r := DrmGetFb env.addRet env.addFbId env.first_bo s1
  if r.1 = 0 then (0, r.2)
  else if env.setCrtcRet ≠ 0 then (0, r.2)
  else (1, r.2)

/-- A successful initialisation: buffer 1 gets framebuffer id 41. -/
def initEnvOk : InitEnv :=
  { first_bo := 1, addRet := 0, addFbId := 41, setCrtcRet := 0 }

/-- A confirmed swap that locks buffer 1 again, as a surface with two buffers
does at every second swap. -/
def envBackToOne : SwapEnv :=
  { next_bo := 1, addRet := 0, addFbId := 44, flipRet := 0
    selects := [{ ret := 1, drmReadable := true, flipHandled := true }] }

/-- Slots 0 and 2 are Idle, last seen at (100, 100) at tick 100 and at
(110, 100) at tick 150; the other slots are cleared. -/
def stateTwoIdle : TouchState :=
  stateOfList
    [{ XPos := 100, YPos := 100, Ticks := 100, TouchId := 4, State := EW_BSP_TOUCH_IDLE },
     zeroTouchData,
     { XPos := 110, YPos := 100, Ticks := 150, TouchId := 5, State := EW_BSP_TOUCH_IDLE }]

/-! ## Display setup: `GfxSystemInit` -/

/-- What `drmModeGetConnector` returns for one connector, as far as
`GfxSystemInit` reads it: whether `connection` is `DRM_MODE_CONNECTED`, for
each mode whether its `type` has the bit `DRM_MODE_TYPE_PREFERRED`, and
`encoder_id`. -/
structure ConnectorInfo where
  connected : Bool
  modes : List Bool
  encoder_id : Nat
  deriving DecidableEq

/-- What `drmModeGetEncoder` returns for one encoder: `encoder_id` and `crtc_id`. -/
structure EncoderInfo where
  encoder_id : Nat
  crtc_id : Nat
  deriving DecidableEq

/-- The resource list of `drmModeGetResources` together with what the
lookups return: per connector index the answer of `drmModeGetConnector`
(`none` for `NULL`), per encoder index the answer of `drmModeGetEncoder`,
which the code dereferences without a test.  `count_connectors`,
`count_modes` and `count_encoders` are the lengths of the lists; they are
values of type `int`, so the counter `i`, an `unsigned int`, does not wrap. -/
structure DrmResources where
  connectors : List (Option ConnectorInfo)
  encoders : List EncoderInfo
  deriving DecidableEq

/-- The variables `GfxSystemInit` writes: the statics `DrmMode` (as the pair
of connector index and mode index the pointer refers to, `none` for `NULL`),
`DrmConnector` (as connector index, `none` for `NULL`) and `DrmCrtcId`, the
local `drmCrtcId`, and the connector indices `drmModeGetConnector` was called
for, in order. -/
structure GfxState where
  DrmMode : Option (Nat × Nat)
  DrmConnector : Option Nat
  DrmCrtcId : Nat
  drmCrtcId : Nat
  examined : List Nat
  deriving DecidableEq

/-- The statics at program start and the local `drmCrtcId = 0`. -/
def gfxInitial : GfxState :=
  { DrmMode := none, DrmConnector := none, DrmCrtcId := 0, drmCrtcId := 0, examined := [] }

/-- The mode loop `for ( i = 0; i < connector->count_modes; i++ )` on the
modes from index `i` on: the value of `i` after the loop, and the index of
the preferred mode at which it left by `break`, if any. -/
def modeLoop : List Bool → Nat → Nat × Option Nat
  | [], i => (i, none)
  | p :: ms, i => if p = true then (i, some i) else modeLoop ms (i + 1)

/-- The encoder loop `for ( i = 0; i < resources->count_encoders; i++ )` on
the encoders from index `i` on: the value of `i` after the loop, and the
`crtc_id` of the encoder at which it left by `break`, if any. -/
def encoderLoop : List EncoderInfo → Nat → Nat → Nat × Option Nat
  | [], _, i => (i, none)
  | e :: es, id, i =>
    if e.encoder_id = id then (i, some e.crtc_id) else encoderLoop es id (i + 1)

/-- The body of the connector loop at counter value `i`: the value of `i`
when the body ends (by `continue` or at its end), and the variables.  The
mode loop and the encoder loop count with the same `i`. -/
def connectorBody (res : DrmResources) (i : Nat) (st : GfxState) : Nat × GfxState :=
  let st0 : GfxState := { st with examined := st.examined ++ [i] }
  match res.connectors.getD i none with
  | none => (i, st0)
  | some c =>
    if c.connected = false then (i, st0)
    else
      let m := modeLoop c.modes 0
      let st1 : GfxState :=
        match m.2 with
        | some k => { st0 with DrmMode := some (i, k) }
        | none => st0
      if st1.DrmMode = none then (m.1, st1)
      else
        let e := encoderLoop res.encoders c.encoder_id 0
        let st2 : GfxState :=
          match e.2 with
          | some crtc => { st1 with drmCrtcId := crtc }
          | none => st1
        if st2.drmCrtcId ≠ 0 then
          (e.1, { st2 with DrmConnector := some i, DrmCrtcId := st2.drmCrtcId })
        else (e.1, st2)

/-- The connector loop `for ( i = 0; i < resources->count_connectors; i++ )`
from counter value `i` on, with `fuel` bounding the number of tests of the
loop condition: `none` when the loop has not ended within it. -/
def connectorLoop (res : DrmResources) : Nat → Nat → GfxState → Option GfxState
  | 0, _, _ => none
  | fuel + 1, i, st =>
    if i < res.connectors.length then
      connectorLoop res fuel ((connectorBody res i st).1 + 1) (connectorBody res i st).2
    else some st

/-- The counter and the variables after at most `n` runs of the body of the
connector loop, each followed by `i++`. -/
def connectorRun (res : DrmResources) : Nat → Nat → GfxState → Nat × GfxState
  | 0, i, st => (i, st)
  | n + 1, i, st =>
    if i < res.connectors.length then
      connectorRun res n ((connectorBody res i st).1 + 1) (connectorBody res i st).2
    else (i, st)

/-- The function `GfxSystemInit` with the answers of `open` (the descriptor)
and of `drmModeGetResources` (`none` for `NULL`): the return value and the
variables, `none` when the connector loop has not ended within `fuel`. -/
def GfxSystemInit (fd : Int) (resources : Option DrmResources) (fuel : Nat) :
    Option (Int × GfxState) :=
  if fd < 0 then some (0, gfxInitial)
  else
    match resources with
    | none => some (0, gfxInitial)
    | some res =>
      (connectorLoop res fuel 0 gfxInitial).map
        (fun st => (if st.DrmMode ≠ none then 1 else 0, st))

/-- One connected connector with a preferred mode, whose encoder has no CRTC
attached (`crtc_id = 0`). -/
def resNoCrtc : DrmResources :=
  { connectors := [some { connected := true, modes := [true], encoder_id := 7 }]
    encoders := [{ encoder_id := 7, crtc_id := 0 }] }

/-- One connected connector with a preferred mode, and an encoder list that
does not hold the encoder of the connector. -/
def resNoEncoder : DrmResources :=
  { connectors := [some { connected := true, modes := [false, true], encoder_id := 7 }]
    encoders := [{ encoder_id := 8, crtc_id := 5 }] }

/-- Two connectors: the first is not connected, the second is connected, its
first mode is the preferred one, and its encoder, the first of the list, has
CRTC 5. -/
def resSecondConnected : DrmResources :=
  { connectors := [some { connected := false, modes := [], encoder_id := 0 },
                   some { connected := true, modes := [true], encoder_id := 7 }]
    encoders := [{ encoder_id := 7, crtc_id := 5 }] }

/-! ## The range of `int` -/

/-- The exact value `z` lies in the range of a 32-bit `int`. -/
def inIntRange (z : Int) : Prop :=
  -2147483648 ≤ z ∧ z ≤ 2147483647

instance (z : Int) : Decidable (inIntRange z) :=
  inferInstanceAs (Decidable (-2147483648 ≤ z ∧ z ≤ 2147483647))

/-- The two products that the `EW_ROTATION` branch taken forms for raw sample
`t` lie in the range of `int`: no multiplication of the transform overflows. -/
def noOverflow (cfg : TouchConfig) (raw : RawTouch) (t : Nat) : Prop :=
  if cfg.EW_ROTATION = 90 then
    inIntRange (raw.TouchY t * cfg.GuiSizeWidth) ∧
    inIntRange ((cfg.TouchAreaWidth - raw.TouchX t) * cfg.GuiSizeHeight)
  else if cfg.EW_ROTATION = 270 then
    inIntRange ((cfg.TouchAreaHeight - raw.TouchY t) * cfg.GuiSizeWidth) ∧
    inIntRange (raw.TouchX t * cfg.GuiSizeHeight)
  else if cfg.EW_ROTATION = 180 then
    inIntRange ((cfg.TouchAreaWidth - raw.TouchX t) * cfg.GuiSizeWidth) ∧
    inIntRange ((cfg.TouchAreaHeight - raw.TouchY t) * cfg.GuiSizeHeight)
  else
    inIntRange (raw.TouchX t * cfg.GuiSizeWidth) ∧
    inIntRange (raw.TouchY t * cfg.GuiSizeHeight)

instance (cfg : TouchConfig) (raw : RawTouch) (t : Nat) : Decidable (noOverflow cfg raw t) :=
  inferInstanceAs (Decidable (
    if cfg.EW_ROTATION = 90 then
      inIntRange (raw.TouchY t * cfg.GuiSizeWidth) ∧
      inIntRange ((cfg.TouchAreaWidth - raw.TouchX t) * cfg.GuiSizeHeight)
    else if cfg.EW_ROTATION = 270 then
      inIntRange ((cfg.TouchAreaHeight - raw.TouchY t) * cfg.GuiSizeWidth) ∧
      inIntRange (raw.TouchX t * cfg.GuiSizeHeight)
    else if cfg.EW_ROTATION = 180 then
      inIntRange ((cfg.TouchAreaWidth - raw.TouchX t) * cfg.GuiSizeWidth) ∧
      inIntRange ((cfg.TouchAreaHeight - raw.TouchY t) * cfg.GuiSizeHeight)
    else
      inIntRange (raw.TouchX t * cfg.GuiSizeWidth) ∧
      inIntRange (raw.TouchY t * cfg.GuiSizeHeight)))

/-- The 800 x 480 UI on a touch area 4000000 wide and 480 high, rotation 0. -/
def cfgWide : TouchConfig :=
  { GuiSizeWidth := 800, GuiSizeHeight := 480, TouchAreaWidth := 4000000, TouchAreaHeight := 480,
    EW_ROTATION := 0 }

/-- Equal UI and touch sizes, 50000 x 50000, rotation 0. -/
def cfgSquare : TouchConfig :=
  { GuiSizeWidth := 50000, GuiSizeHeight := 50000, TouchAreaWidth := 50000,
    TouchAreaHeight := 50000, EW_ROTATION := 0 }

/-! ## The tick values of two runs -/

/-- The time test of the debounce condition, `ticks < touch->Ticks + DELTA_TIME`
on `unsigned long`, for a slot last written at tick `slotTicks`. -/
def recentlyUsed (ticks slotTicks : Nat) : Prop :=
  ticks < (slotTicks + DELTA_TIME) % ULONG_MODULUS

instance (ticks slotTicks : Nat) : Decidable (recentlyUsed ticks slotTicks) :=
  inferInstanceAs (Decidable (ticks < (slotTicks + DELTA_TIME) % ULONG_MODULUS))

/-- The tick values of two runs, given poll by poll as pairs, give the same
outcome of every time test: each poll against the start and every poll
before it, whose pairs of tick values are collected in `hist`. -/
def sameTimeTests : List (Nat × Nat) → List (Nat × Nat) → Prop
  | _, [] => True
  | hist, c :: rest =>
    (∀ p, p ∈ hist → (recentlyUsed c.1 p.1 ↔ recentlyUsed c.2 p.2)) ∧
    sameTimeTests (c :: hist) rest

/-- The decision procedure of `sameTimeTests`. -/
def decSameTimeTests : (hist l : List (Nat × Nat)) → Decidable (sameTimeTests hist l)
  | _, [] => isTrue trivial
  | hist, c :: rest =>
    have : Decidable (sameTimeTests (c :: hist) rest) := decSameTimeTests (c :: hist) rest
    inferInstanceAs (Decidable
      ((∀ p, p ∈ hist → (recentlyUsed c.1 p.1 ↔ recentlyUsed c.2 p.2)) ∧
        sameTimeTests (c :: hist) rest))

instance (hist l : List (Nat × Nat)) : Decidable (sameTimeTests hist l) :=
  decSameTimeTests hist l

/-- Two slot records agree in everything but the tick value. -/
def sameSlot (d d' : XTouchData) : Prop :=
  d.XPos = d'.XPos ∧ d.YPos = d'.YPos ∧ d.TouchId = d'.TouchId ∧ d.State = d'.State

/-- The slot records of two runs during the polls with tick values `c.1` and
`c.2`: they agree but for the tick values, which are those of the start or of
one earlier poll, or those of the present poll in a slot that is not Idle. -/
def slotAlike (hist : List (Nat × Nat)) (c : Nat × Nat) (d d' : XTouchData) : Prop :=
  sameSlot d d' ∧
  ((d.Ticks, d'.Ticks) ∈ hist ∨
    (d.State ≠ EW_BSP_TOUCH_IDLE ∧ d.Ticks = c.1 ∧ d'.Ticks = c.2))

/-! # Theorems -/

/-! ## The event loop, slot by slot -/

theorem map_range_update {α : Type} (ev : Nat → α) (c : Nat) (e : α) :
    (List.range (c + 1)).map (Function.update ev c e) = (List.range c).map ev ++ [e] := by
  rw [List.range_succ, List.map_append]
  congr 1
  · apply List.map_congr_left
    intro i hi
    have : i ≠ c := Nat.ne_of_lt (List.mem_range.mp hi)
    simp [Function.update, this]
  · simp

theorem filterMap_single {α β : Type} (g : α → Option β) (a : α) :
    List.filterMap g [a] = (g a).toList := by
  rcases h : g a with _ | b <;> simp [List.filterMap_cons, h, Option.toList]

theorem emitBody_events (identified : Nat → Bool) (f : Nat) (s : EmitState) :
    writtenEvents (emitBody identified f s) =
      writtenEvents s ++ (eventOf identified s.1 f).toList := by
  unfold emitBody eventOf writtenEvents
  dsimp only
  split_ifs <;> simp [map_range_update]

theorem emitBody_data (identified : Nat → Bool) (f : Nat) (s : EmitState) :
    (emitBody identified f s).1 = Function.update s.1 f (releaseOf identified s.1 f) := by
  unfold emitBody releaseOf
  dsimp only
  split_ifs <;> simp_all

/-- The `TouchData` array after `n` iterations of the event loop. -/
theorem emitLoop_data (identified : Nat → Bool) (s : EmitState) (n g : Nat) :
    (emitLoop identified s n).1 g = if g < n then releaseOf identified s.1 g else s.1 g := by
  induction n with
  | zero => simp [emitLoop]
  | succ n ih =>
    rw [emitLoop, emitBody_data]
    by_cases hg : g = n
    · subst hg
      have hn : (emitLoop identified s g).1 g = s.1 g := by
        have := ih; simpa using this
      simp [Function.update, releaseOf, hn]
    · have h1 : (g < n + 1) = (g < n) := by
        apply propext; constructor <;> intro h <;> omega
      simp only [Function.update, hg, dite_false, h1, eq_rec_constant]
      exact ih

/-- The events written by `n` iterations of the event loop. -/
theorem emitLoop_events (identified : Nat → Bool) (s : EmitState) (n : Nat) :
    writtenEvents (emitLoop identified s n) =
      writtenEvents s ++ (List.range n).filterMap (eventOf identified s.1) := by
  induction n with
  | zero => simp [emitLoop]
  | succ n ih =>
    rw [emitLoop, emitBody_events, ih, List.range_succ, List.filterMap_append,
      List.append_assoc]
    congr 2
    have hn : (emitLoop identified s n).1 n = s.1 n := by
      have := emitLoop_data identified s n n; simpa using this
    have he : eventOf identified (emitLoop identified s n).1 n = eventOf identified s.1 n := by
      unfold eventOf; rw [hn]
    rw [he, filterMap_single]

/-! ## The finger loop -/

theorem fingerLoop_succ (td : Nat → XTouchData) (id : Int) (ticks : Nat) (x y : Int)
    (n f : Nat) (finger : Int) :
    fingerLoop td id ticks x y (n + 1) f finger =
      if activeMatch (td f) id then (f : Int)
      else fingerLoop td id ticks x y n (f + 1)
        (if (td f).State = EW_BSP_TOUCH_IDLE ∧
            (if debounceMatch (td f) ticks x y then (f : Int) else finger) = -1
          then (f : Int)
          else (if debounceMatch (td f) ticks x y then (f : Int) else finger)) := rfl

/-- The finger loop returns its start value or an index it has visited, and a
visited index it returns is an active match or an idle slot. -/
theorem fingerLoop_cases (td : Nat → XTouchData) (id : Int) (ticks : Nat) (x y : Int) :
    ∀ (n f : Nat) (finger : Int),
      fingerLoop td id ticks x y n f finger = finger ∨
      ∃ g : Nat, f ≤ g ∧ g < f + n ∧ fingerLoop td id ticks x y n f finger = (g : Int) ∧
        (activeMatch (td g) id ∨ (td g).State = EW_BSP_TOUCH_IDLE) := by
  intro n
  induction n with
  | zero => intro f finger; left; rfl
  | succ n ih =>
    intro f finger
    rw [fingerLoop_succ]
    by_cases ha : activeMatch (td f) id
    · right
      exact ⟨f, le_refl f, by omega, by rw [if_pos ha], Or.inl ha⟩
    · rw [if_neg ha]
      rcases ih (f + 1) (if (td f).State = EW_BSP_TOUCH_IDLE ∧
            (if debounceMatch (td f) ticks x y then (f : Int) else finger) = -1
          then (f : Int)
          else (if debounceMatch (td f) ticks x y then (f : Int) else finger)) with h | h
      · rw [h]
        by_cases hd : debounceMatch (td f) ticks x y
        · right
          refine ⟨f, le_refl f, by omega, ?_, Or.inr hd.1⟩
          simp [hd]
        · simp only [hd, if_false]
          by_cases hi : (td f).State = EW_BSP_TOUCH_IDLE ∧ finger = -1
          · right
            exact ⟨f, le_refl f, by omega, by rw [if_pos hi], Or.inr hi.1⟩
          · left; rw [if_neg hi]
      · obtain ⟨g, hg1, hg2, hg3, hg4⟩ := h
        right
        exact ⟨g, by omega, by omega, hg3, hg4⟩

/-- The finger found is `-1` or a finger index that is an active match or idle. -/
theorem findFinger_cases (td : Nat → XTouchData) (id : Int) (ticks : Nat) (x y : Int) :
    findFinger td id ticks x y = -1 ∨
    ∃ g : Nat, g < NO_OF_FINGERS ∧ findFinger td id ticks x y = (g : Int) ∧
      (activeMatch (td g) id ∨ (td g).State = EW_BSP_TOUCH_IDLE) := by
  unfold findFinger
  rcases fingerLoop_cases td id ticks x y NO_OF_FINGERS 0 (-1) with h | ⟨g, _, hg2, hg3, hg4⟩
  · left; exact h
  · right; exact ⟨g, by omega, hg3, hg4⟩

/-- With no active match and no idle slot among the visited indices the
finger loop leaves `finger` as it was. -/
theorem fingerLoop_none (td : Nat → XTouchData) (id : Int) (ticks : Nat) (x y : Int) :
    ∀ (n f : Nat) (finger : Int),
      (∀ k, f ≤ k → k < f + n → ¬ activeMatch (td k) id ∧ (td k).State ≠ EW_BSP_TOUCH_IDLE) →
      fingerLoop td id ticks x y n f finger = finger := by
  intro n
  induction n with
  | zero => intro f finger _; rfl
  | succ n ih =>
    intro f finger h
    have hf := h f (le_refl f) (by omega)
    have hd : ¬ debounceMatch (td f) ticks x y := fun hd => hf.2 hd.1
    rw [fingerLoop_succ, if_neg hf.1, ih (f + 1) _ (fun k hk1 hk2 => h k (by omega) (by omega))]
    simp [hd, hf.2]

/-- Once `finger` is set, indices with neither an active match nor a debounce
match leave it as it is. -/
theorem fingerLoop_keep (td : Nat → XTouchData) (id : Int) (ticks : Nat) (x y : Int) :
    ∀ (n f : Nat) (finger : Int), finger ≠ -1 →
      (∀ k, f ≤ k → k < f + n → ¬ activeMatch (td k) id ∧ ¬ debounceMatch (td k) ticks x y) →
      fingerLoop td id ticks x y n f finger = finger := by
  intro n
  induction n with
  | zero => intro f finger _ _; rfl
  | succ n ih =>
    intro f finger hne h
    have hf := h f (le_refl f) (by omega)
    rw [fingerLoop_succ, if_neg hf.1]
    simp only [hf.2, if_false, hne, and_false]
    exact ih (f + 1) finger hne (fun k hk1 hk2 => h k (by omega) (by omega))

/-- The first active match among the visited indices ends the finger loop. -/
theorem fingerLoop_active (td : Nat → XTouchData) (id : Int) (ticks : Nat) (x y : Int) :
    ∀ (n f : Nat) (finger : Int) (g : Nat), f ≤ g → g < f + n →
      activeMatch (td g) id → (∀ k, f ≤ k → k < g → ¬ activeMatch (td k) id) →
      fingerLoop td id ticks x y n f finger = (g : Int) := by
  intro n
  induction n with
  | zero => intro f finger g h1 h2; omega
  | succ n ih =>
    intro f finger g h1 h2 ha hmin
    rw [fingerLoop_succ]
    by_cases hfg : f = g
    · subst hfg; rw [if_pos ha]
    · rw [if_neg (hmin f (le_refl f) (by omega))]
      exact ih (f + 1) _ g (by omega) (by omega) ha (fun k hk1 hk2 => hmin k (by omega) hk2)

/-- With no active match among the visited indices, the last debounce match wins. -/
theorem fingerLoop_debounce (td : Nat → XTouchData) (id : Int) (ticks : Nat) (x y : Int) :
    ∀ (n f : Nat) (finger : Int) (g : Nat), f ≤ g → g < f + n →
      (∀ k, f ≤ k → k < f + n → ¬ activeMatch (td k) id) →
      debounceMatch (td g) ticks x y →
      (∀ k, g < k → k < f + n → ¬ debounceMatch (td k) ticks x y) →
      fingerLoop td id ticks x y n f finger = (g : Int) := by
  intro n
  induction n with
  | zero => intro f finger g h1 h2; omega
  | succ n ih =>
    intro f finger g h1 h2 hna hd hlast
    rw [fingerLoop_succ, if_neg (hna f (le_refl f) (by omega))]
    by_cases hfg : f = g
    · subst hfg
      have hne : (f : Int) ≠ -1 := by omega
      simp only [hd, if_true, hne, and_false, if_false]
      exact fingerLoop_keep td id ticks x y n (f + 1) f hne
        (fun k hk1 hk2 => ⟨hna k (by omega) (by omega), hlast k (by omega) (by omega)⟩)
    · exact ih (f + 1) _ g (by omega) (by omega)
        (fun k hk1 hk2 => hna k (by omega) (by omega)) hd
        (fun k hk1 hk2 => hlast k hk1 (by omega))

/-- With no active match and no debounce match among the visited indices, an
unset `finger` becomes the first idle index. -/
theorem fingerLoop_firstFree (td : Nat → XTouchData) (id : Int) (ticks : Nat) (x y : Int) :
    ∀ (n f : Nat) (g : Nat), f ≤ g → g < f + n →
      (∀ k, f ≤ k → k < f + n → ¬ activeMatch (td k) id ∧ ¬ debounceMatch (td k) ticks x y) →
      (td g).State = EW_BSP_TOUCH_IDLE →
      (∀ k, f ≤ k → k < g → (td k).State ≠ EW_BSP_TOUCH_IDLE) →
      fingerLoop td id ticks x y n f (-1) = (g : Int) := by
  intro n
  induction n with
  | zero => intro f g h1 h2; omega
  | succ n ih =>
    intro f g h1 h2 hno hidle hmin
    have hf := hno f (le_refl f) (by omega)
    rw [fingerLoop_succ, if_neg hf.1]
    simp only [hf.2, if_false, and_true]
    by_cases hfg : f = g
    · subst hfg
      have hne : (f : Int) ≠ -1 := by omega
      rw [if_pos hidle]
      exact fingerLoop_keep td id ticks x y n (f + 1) f hne
        (fun k hk1 hk2 => hno k (by omega) (by omega))
    · rw [if_neg (hmin f (le_refl f) (by omega))]
      exact ih (f + 1) g (by omega) (by omega)
        (fun k hk1 hk2 => hno k (by omega) (by omega)) hidle
        (fun k hk1 hk2 => hmin k (by omega) hk2)

/-! ## The sample loop, sample by sample -/

theorem sampleBody_eq (cfg : TouchConfig) (raw : RawTouch) (ticks : Nat) (t : Nat)
    (s : (Nat → XTouchData) × (Nat → Bool)) :
    sampleBody cfg raw ticks t s =
      assignFinger (fingerOf cfg raw ticks t s) (raw.TouchId t) ticks
        (uiX cfg raw t) (uiY cfg raw t) s := by
  unfold sampleBody fingerOf
  by_cases h : skipSample cfg raw t
  · simp [h, assignFinger]
  · simp [h]

theorem fingerOf_cases (cfg : TouchConfig) (raw : RawTouch) (ticks : Nat) (t : Nat)
    (s : (Nat → XTouchData) × (Nat → Bool)) :
    fingerOf cfg raw ticks t s = -1 ∨
    ∃ g : Nat, g < NO_OF_FINGERS ∧ fingerOf cfg raw ticks t s = (g : Int) ∧
      ¬ skipSample cfg raw t ∧
      (activeMatch (s.1 g) (raw.TouchId t) ∨ (s.1 g).State = EW_BSP_TOUCH_IDLE) := by
  unfold fingerOf
  by_cases h : skipSample cfg raw t
  · left; simp [h]
  · rw [if_neg h]
    rcases findFinger_cases s.1 (raw.TouchId t) ticks (uiX cfg raw t) (uiY cfg raw t) with
      h1 | ⟨g, hg1, hg2, hg3⟩
    · left; exact h1
    · right; exact ⟨g, hg1, hg2, h, hg3⟩

/-- A sample changes no slot other than the finger found for it. -/
theorem sampleBody_other (cfg : TouchConfig) (raw : RawTouch) (ticks : Nat) (t : Nat)
    (s : (Nat → XTouchData) × (Nat → Bool)) (g : Nat)
    (h : fingerOf cfg raw ticks t s ≠ (g : Int)) :
    (sampleBody cfg raw ticks t s).1 g = s.1 g ∧ (sampleBody cfg raw ticks t s).2 g = s.2 g := by
  rw [sampleBody_eq]
  unfold assignFinger
  by_cases hf : fingerOf cfg raw ticks t s ≥ 0
  · have hne : g ≠ (fingerOf cfg raw ticks t s).toNat := by
      intro hg; apply h; rw [hg]; exact (Int.toNat_of_nonneg hf).symm
    simp [hf, Function.update, hne]
  · simp [hf]

/-- The finger found for a sample is marked identified and stores the sample. -/
theorem sampleBody_self (cfg : TouchConfig) (raw : RawTouch) (ticks : Nat) (t : Nat)
    (s : (Nat → XTouchData) × (Nat → Bool)) (g : Nat)
    (h : fingerOf cfg raw ticks t s = (g : Int)) :
    (sampleBody cfg raw ticks t s).1 g = storedTouch cfg raw ticks t (s.1 g) ∧
    (sampleBody cfg raw ticks t s).2 g = true := by
  rw [sampleBody_eq, h]
  unfold assignFinger storedTouch
  simp [Function.update]

/-- A finger once identified stays identified during the sample loop. -/
theorem sampleBody_identified (cfg : TouchConfig) (raw : RawTouch) (ticks : Nat) (t : Nat)
    (s : (Nat → XTouchData) × (Nat → Bool)) (g : Nat) (h : s.2 g = true) :
    (sampleBody cfg raw ticks t s).2 g = true := by
  by_cases hf : fingerOf cfg raw ticks t s = (g : Int)
  · exact (sampleBody_self cfg raw ticks t s g hf).2
  · rw [(sampleBody_other cfg raw ticks t s g hf).2]; exact h

theorem beforeSample_succ (cfg : TouchConfig) (raw : RawTouch) (ticks : Nat) (st : TouchState)
    (t : Nat) :
    beforeSample cfg raw ticks st (t + 1) =
      sampleBody cfg raw ticks t (beforeSample cfg raw ticks st t) := rfl

/-- A finger no sample below `n` is assigned to is untouched by the first `n`
iterations of the sample loop. -/
theorem beforeSample_untouched (cfg : TouchConfig) (raw : RawTouch) (ticks : Nat)
    (st : TouchState) (f : Nat) (n : Nat)
    (h : ∀ t, t < n → assignedFinger cfg raw ticks st t ≠ (f : Int)) :
    (beforeSample cfg raw ticks st n).1 f = st.TouchData f ∧
    (beforeSample cfg raw ticks st n).2 f = false := by
  induction n with
  | zero => exact ⟨rfl, rfl⟩
  | succ n ih =>
    have ih1 := ih (fun t ht => h t (by omega))
    have hn := sampleBody_other cfg raw ticks n (beforeSample cfg raw ticks st n) f
      (h n (by omega))
    rw [beforeSample_succ, hn.1, hn.2]
    exact ih1

/-- A finger assigned sample `t0` and no other sample below `n` holds, after
the first `n` iterations, what sample `t0` stored over the slot content of
the poll's start. -/
theorem beforeSample_once (cfg : TouchConfig) (raw : RawTouch) (ticks : Nat)
    (st : TouchState) (f t0 : Nat) (n : Nat) (hn : t0 < n)
    (h0 : assignedFinger cfg raw ticks st t0 = (f : Int))
    (h : ∀ t, t < n → t ≠ t0 → assignedFinger cfg raw ticks st t ≠ (f : Int)) :
    (beforeSample cfg raw ticks st n).1 f = storedTouch cfg raw ticks t0 (st.TouchData f) ∧
    (beforeSample cfg raw ticks st n).2 f = true := by
  induction n with
  | zero => omega
  | succ n ih =>
    rw [beforeSample_succ]
    by_cases hn0 : n = t0
    · subst hn0
      have hu := beforeSample_untouched cfg raw ticks st f n
        (fun t ht => h t (by omega) (by omega))
      have hs := sampleBody_self cfg raw ticks n (beforeSample cfg raw ticks st n) f h0
      rw [hs.1, hs.2, hu.1]
      exact ⟨rfl, rfl⟩
    · have ih1 := ih (by omega) (fun t ht hne => h t (by omega) hne)
      have ho := sampleBody_other cfg raw ticks n (beforeSample cfg raw ticks st n) f
        (h n (by omega) hn0)
      rw [ho.1, ho.2]
      exact ih1

/-! ## One poll, slot by slot -/

/-- The events returned by a poll are the events of the slots, in slot order. -/
theorem poll_events (cfg : TouchConfig) (raw : RawTouch) (ticks : Nat) (st : TouchState) :
    returnedEvents (EwBspTouchGetEvents cfg raw ticks st) =
      (List.range NO_OF_FINGERS).filterMap
        (eventOf (beforeSample cfg raw ticks st NO_OF_FINGERS).2
          (beforeSample cfg raw ticks st NO_OF_FINGERS).1) := by
  have h := emitLoop_events (beforeSample cfg raw ticks st NO_OF_FINGERS).2
    ((beforeSample cfg raw ticks st NO_OF_FINGERS).1, st.TouchEvent, 0) NO_OF_FINGERS
  simpa [writtenEvents] using h

/-- The finger slots after a poll. -/
theorem poll_data (cfg : TouchConfig) (raw : RawTouch) (ticks : Nat) (st : TouchState)
    (g : Nat) (hg : g < NO_OF_FINGERS) :
    (EwBspTouchGetEvents cfg raw ticks st).1.TouchData g =
      releaseOf (beforeSample cfg raw ticks st NO_OF_FINGERS).2
        (beforeSample cfg raw ticks st NO_OF_FINGERS).1 g := by
  have h := emitLoop_data (beforeSample cfg raw ticks st NO_OF_FINGERS).2
    ((beforeSample cfg raw ticks st NO_OF_FINGERS).1, st.TouchEvent, 0) NO_OF_FINGERS g
  rw [if_pos hg] at h
  exact h

theorem eventOf_finger (identified : Nat → Bool) (td : Nat → XTouchData) (g : Nat)
    (e : XTouchEvent) (h : eventOf identified td g = some e) : e.Finger = (g : Int) := by
  unfold eventOf at h
  split_ifs at h <;> simp at h <;> rw [← h]

theorem eventsOfFinger_slots (identified : Nat → Bool) (td : Nat → XTouchData) (f n : Nat) :
    eventsOfFinger f ((List.range n).filterMap (eventOf identified td)) =
      if f < n then (eventOf identified td f).toList else [] := by
  induction n with
  | zero => simp [eventsOfFinger]
  | succ n ih =>
    unfold eventsOfFinger at ih ⊢
    rw [List.range_succ, List.filterMap_append, List.filter_append, ih, filterMap_single]
    by_cases hfn : f = n
    · subst hfn
      have h1 : ¬ f < f := lt_irrefl f
      rw [if_neg h1, if_pos (Nat.lt_succ_self f), List.nil_append]
      rcases he : eventOf identified td f with _ | e
      · simp [Option.toList]
      · simp [Option.toList, eventOf_finger identified td f e he]
    · have h2 : List.filter (fun e => decide (e.Finger = (f : Int)))
          (eventOf identified td n).toList = [] := by
        rcases he : eventOf identified td n with _ | e
        · simp [Option.toList]
        · have := eventOf_finger identified td n e he
          have hne : e.Finger ≠ (f : Int) := by rw [this]; omega
          simp [Option.toList, hne]
      rw [h2, List.append_nil]
      by_cases hlt : f < n
      · rw [if_pos hlt, if_pos (by omega)]
      · rw [if_neg hlt, if_neg (by omega)]

/-- The events a poll returns for finger `f`. -/
theorem poll_eventsOfFinger (cfg : TouchConfig) (raw : RawTouch) (ticks : Nat)
    (st : TouchState) (f : Nat) :
    eventsOfFinger f (returnedEvents (EwBspTouchGetEvents cfg raw ticks st)) =
      if f < NO_OF_FINGERS then
        (eventOf (beforeSample cfg raw ticks st NO_OF_FINGERS).2
          (beforeSample cfg raw ticks st NO_OF_FINGERS).1 f).toList
      else [] := by
  rw [poll_events, eventsOfFinger_slots]

/-! ## Claims about the assignment of one sample -/

/-- C2 (identity continuity): when a valid raw sample is processed and some
non-Idle finger slot carries the sample's touch id, the sample is assigned to
such a slot, the first one carrying the id (the only one when the ids of the
non-Idle slots are distinct): the slot is marked identified and stores the
sample, every other slot is left as it is.  Nothing is assumed about the Idle
slots, so this also holds when an Idle slot of lower index satisfies the
debounce condition or is the first free slot. -/
theorem identity_continuity (cfg : TouchConfig) (raw : RawTouch) (ticks : Nat) (t : Nat)
    (s : (Nat → XTouchData) × (Nat → Bool))
    (hv : ¬ skipSample cfg raw t)
    (h : ∃ f, f < NO_OF_FINGERS ∧ activeMatch (s.1 f) (raw.TouchId t)) :
    ∃ g, g < NO_OF_FINGERS ∧ activeMatch (s.1 g) (raw.TouchId t) ∧
      (∀ k, k < g → ¬ activeMatch (s.1 k) (raw.TouchId t)) ∧
      findFinger s.1 (raw.TouchId t) ticks (uiX cfg raw t) (uiY cfg raw t) = (g : Int) ∧
      (sampleBody cfg raw ticks t s).1 g = storedTouch cfg raw ticks t (s.1 g) ∧
      (sampleBody cfg raw ticks t s).2 g = true ∧
      ∀ k, k ≠ g → (sampleBody cfg raw ticks t s).1 k = s.1 k ∧
        (sampleBody cfg raw ticks t s).2 k = s.2 k := by
  classical
  have hex : ∃ f, activeMatch (s.1 f) (raw.TouchId t) := by
    obtain ⟨f, _, hf⟩ := h; exact ⟨f, hf⟩
  have hlt : Nat.find hex < NO_OF_FINGERS := by
    obtain ⟨f, hf1, hf2⟩ := h
    exact lt_of_le_of_lt (Nat.find_min' hex hf2) hf1
  have hfind : findFinger s.1 (raw.TouchId t) ticks (uiX cfg raw t) (uiY cfg raw t) =
      ((Nat.find hex : Nat) : Int) :=
    fingerLoop_active s.1 (raw.TouchId t) ticks (uiX cfg raw t) (uiY cfg raw t)
      NO_OF_FINGERS 0 (-1) (Nat.find hex) (Nat.zero_le _) (by omega) (Nat.find_spec hex)
      (fun k _ hk => Nat.find_min hex hk)
  have hfo : fingerOf cfg raw ticks t s = ((Nat.find hex : Nat) : Int) := by
    unfold fingerOf; rw [if_neg hv]; exact hfind
  refine ⟨Nat.find hex, hlt, Nat.find_spec hex, fun k hk => Nat.find_min hex hk, hfind,
    (sampleBody_self cfg raw ticks t s _ hfo).1, (sampleBody_self cfg raw ticks t s _ hfo).2, ?_⟩
  intro k hk
  apply sampleBody_other
  rw [hfo]
  omega

/-- C5 (first-free assignment): when a valid raw sample is processed, no
non-Idle slot carries its touch id and no Idle slot satisfies the debounce
condition, the sample is assigned to the Idle slot of lowest index, which
becomes Down and stores the sample's UI position, its touch id and the poll's
tick value. -/
theorem first_free_assignment (cfg : TouchConfig) (raw : RawTouch) (ticks : Nat) (t : Nat)
    (s : (Nat → XTouchData) × (Nat → Bool)) (g : Nat)
    (hv : ¬ skipSample cfg raw t)
    (hactive : ∀ k, k < NO_OF_FINGERS → ¬ activeMatch (s.1 k) (raw.TouchId t))
    (hdebounce : ∀ k, k < NO_OF_FINGERS →
      ¬ debounceMatch (s.1 k) ticks (uiX cfg raw t) (uiY cfg raw t))
    (hg : g < NO_OF_FINGERS) (hidle : (s.1 g).State = EW_BSP_TOUCH_IDLE)
    (hlowest : ∀ k, k < g → (s.1 k).State ≠ EW_BSP_TOUCH_IDLE) :
    findFinger s.1 (raw.TouchId t) ticks (uiX cfg raw t) (uiY cfg raw t) = (g : Int) ∧
    (sampleBody cfg raw ticks t s).1 g =
      { XPos := uiX cfg raw t, YPos := uiY cfg raw t, Ticks := ticks,
        TouchId := raw.TouchId t, State := EW_BSP_TOUCH_DOWN } ∧
    (sampleBody cfg raw ticks t s).2 g = true := by
  have hfind : findFinger s.1 (raw.TouchId t) ticks (uiX cfg raw t) (uiY cfg raw t) = (g : Int) :=
    fingerLoop_firstFree s.1 (raw.TouchId t) ticks (uiX cfg raw t) (uiY cfg raw t)
      NO_OF_FINGERS 0 g (Nat.zero_le _) (by omega)
      (fun k _ hk => ⟨hactive k (by omega), hdebounce k (by omega)⟩) hidle
      (fun k _ hk => hlowest k hk)
  have hfo : fingerOf cfg raw ticks t s = (g : Int) := by
    unfold fingerOf; rw [if_neg hv]; exact hfind
  have hs := sampleBody_self cfg raw ticks t s g hfo
  refine ⟨hfind, ?_, hs.2⟩
  rw [hs.1]
  simp [storedTouch, nextState, hidle]

theorem sampleBody_congr (cfg : TouchConfig) (raw raw' : RawTouch) (ticks : Nat) (t : Nat)
    (s : (Nat → XTouchData) × (Nat → Bool))
    (h1 : raw.TouchId t = raw'.TouchId t) (h2 : raw.TouchX t = raw'.TouchX t)
    (h3 : raw.TouchY t = raw'.TouchY t) :
    sampleBody cfg raw ticks t s = sampleBody cfg raw' ticks t s := by
  unfold sampleBody skipSample uiX uiY
  simp only [h1, h2, h3]

theorem sampleBody_skip (cfg : TouchConfig) (raw : RawTouch) (ticks : Nat) (t : Nat)
    (s : (Nat → XTouchData) × (Nat → Bool)) (h : skipSample cfg raw t) :
    sampleBody cfg raw ticks t s = s := by
  unfold sampleBody; rw [if_pos h]

/-- Two raw tables whose samples act alike, one by one, on the states the
first table's poll runs through drive the sample loop to the same result. -/
theorem beforeSample_congr (cfg : TouchConfig) (raw raw' : RawTouch) (ticks : Nat)
    (st : TouchState) (n : Nat)
    (h : ∀ t, t < n →
      sampleBody cfg raw ticks t (beforeSample cfg raw ticks st t) =
      sampleBody cfg raw' ticks t (beforeSample cfg raw ticks st t)) :
    beforeSample cfg raw ticks st n = beforeSample cfg raw' ticks st n := by
  induction n with
  | zero => rfl
  | succ n ih =>
    rw [beforeSample_succ, beforeSample_succ, h n (by omega),
      ih (fun t ht => h t (by omega))]

theorem poll_congr (cfg : TouchConfig) (raw raw' : RawTouch) (ticks : Nat) (st : TouchState)
    (h : beforeSample cfg raw ticks st NO_OF_FINGERS =
      beforeSample cfg raw' ticks st NO_OF_FINGERS) :
    EwBspTouchGetEvents cfg raw ticks st = EwBspTouchGetEvents cfg raw' ticks st := by
  unfold beforeSample at h
  unfold EwBspTouchGetEvents
  rw [h]

theorem skipSample_clearSample (cfg : TouchConfig) (raw : RawTouch) (t : Nat) :
    skipSample cfg (clearSample raw t) t := by
  left; simp [clearSample]

/-- C6 (capacity exhaustion): a valid raw sample processed while all 10
finger slots are non-Idle and none of them carries the sample's touch id finds
no finger and leaves `TouchData` and `identified` as they were; and a poll in
which this happens at sample `t` ends in the same state and returns the same
events as the poll on the table without that sample. -/
theorem capacity_exhaustion (cfg : TouchConfig) (raw : RawTouch) (ticks : Nat) (t : Nat)
    (s : (Nat → XTouchData) × (Nat → Bool))
    (hv : ¬ skipSample cfg raw t)
    (hfull : ∀ k, k < NO_OF_FINGERS →
      (s.1 k).State ≠ EW_BSP_TOUCH_IDLE ∧ (s.1 k).TouchId ≠ raw.TouchId t) :
    findFinger s.1 (raw.TouchId t) ticks (uiX cfg raw t) (uiY cfg raw t) = -1 ∧
    sampleBody cfg raw ticks t s = s ∧
    ∀ st, t < NO_OF_FINGERS → beforeSample cfg raw ticks st t = s →
      EwBspTouchGetEvents cfg raw ticks st =
        EwBspTouchGetEvents cfg (clearSample raw t) ticks st := by
  have hfind : findFinger s.1 (raw.TouchId t) ticks (uiX cfg raw t) (uiY cfg raw t) = -1 :=
    fingerLoop_none s.1 (raw.TouchId t) ticks (uiX cfg raw t) (uiY cfg raw t)
      NO_OF_FINGERS 0 (-1)
      (fun k _ hk => ⟨fun ha => (hfull k (by omega)).2 ha.2, (hfull k (by omega)).1⟩)
  have hbody : sampleBody cfg raw ticks t s = s := by
    unfold sampleBody
    rw [if_neg hv, hfind]
    simp [assignFinger]
  refine ⟨hfind, hbody, ?_⟩
  intro st _ hst
  apply poll_congr
  apply beforeSample_congr
  intro u _
  by_cases hu : u = t
  · subst hu
    rw [hst, hbody, sampleBody_skip cfg (clearSample raw u) ticks u s
      (skipSample_clearSample cfg raw u)]
  · apply sampleBody_congr <;> simp [clearSample, Function.update, hu]

theorem skipSample_iff (cfg : TouchConfig) (raw : RawTouch) (t : Nat) :
    ¬ skipSample cfg raw t ↔
      validSample cfg (raw.TouchId t) (raw.TouchX t) (raw.TouchY t) := by
  unfold skipSample validSample
  constructor
  · intro h
    refine ⟨?_, ⟨?_, ?_⟩, ⟨?_, ?_⟩⟩ <;> by_contra hc <;> apply h <;> omega
  · rintro ⟨h1, ⟨h2, h3⟩, ⟨h4, h5⟩⟩ h
    omega

/-- C7 (validity filter): the sample loop goes past its `continue` for a raw
sample `(id, X, Y)` if and only if `id >= 0`, `0 < X <= TouchAreaWidth` and
`0 < Y <= TouchAreaHeight`; an invalid sample leaves `TouchData` and
`identified` as they are; and two raw tables that differ only in entries that
are invalid in both give the same state and the same returned events. -/
theorem validity_filter (cfg : TouchConfig) (raw raw' : RawTouch) (ticks : Nat)
    (st : TouchState)
    (h : ∀ t, t < NO_OF_FINGERS →
      (raw.TouchId t = raw'.TouchId t ∧ raw.TouchX t = raw'.TouchX t ∧
        raw.TouchY t = raw'.TouchY t) ∨
      (¬ validSample cfg (raw.TouchId t) (raw.TouchX t) (raw.TouchY t) ∧
        ¬ validSample cfg (raw'.TouchId t) (raw'.TouchX t) (raw'.TouchY t))) :
    (∀ t, ¬ skipSample cfg raw t ↔
      validSample cfg (raw.TouchId t) (raw.TouchX t) (raw.TouchY t)) ∧
    (∀ t s, ¬ validSample cfg (raw.TouchId t) (raw.TouchX t) (raw.TouchY t) →
      sampleBody cfg raw ticks t s = s) ∧
    EwBspTouchGetEvents cfg raw ticks st = EwBspTouchGetEvents cfg raw' ticks st ∧
    returnedEvents (EwBspTouchGetEvents cfg raw ticks st) =
      returnedEvents (EwBspTouchGetEvents cfg raw' ticks st) := by
  have hskip : ∀ (r : RawTouch) (t : Nat),
      ¬ validSample cfg (r.TouchId t) (r.TouchX t) (r.TouchY t) → skipSample cfg r t := by
    intro r t hn
    by_contra hc
    exact hn ((skipSample_iff cfg r t).mp hc)
  have hpoll : EwBspTouchGetEvents cfg raw ticks st = EwBspTouchGetEvents cfg raw' ticks st := by
    apply poll_congr
    apply beforeSample_congr
    intro t ht
    rcases h t ht with ⟨h1, h2, h3⟩ | ⟨h1, h2⟩
    · exact sampleBody_congr cfg raw raw' ticks t _ h1 h2 h3
    · rw [sampleBody_skip cfg raw ticks t _ (hskip raw t h1),
        sampleBody_skip cfg raw' ticks t _ (hskip raw' t h2)]
  refine ⟨fun t => skipSample_iff cfg raw t, ?_, hpoll, by rw [hpoll]⟩
  intro t s hn
  exact sampleBody_skip cfg raw ticks t s (hskip raw t hn)

/-! ## Claims about one poll -/

theorem assignedFinger_lt (cfg : TouchConfig) (raw : RawTouch) (ticks : Nat) (st : TouchState)
    (t f : Nat) (h : assignedFinger cfg raw ticks st t = (f : Int)) :
    f < NO_OF_FINGERS ∧ ¬ skipSample cfg raw t := by
  unfold assignedFinger at h
  rcases fingerOf_cases cfg raw ticks t (beforeSample cfg raw ticks st t) with h1 | ⟨g, hg1, hg2, hg3, _⟩
  · rw [h] at h1; omega
  · rw [h] at hg2
    have : f = g := by omega
    subst this
    exact ⟨hg1, hg3⟩

/-- C8 (release): a finger slot that is non-Idle before a poll and is
assigned no sample during it gets exactly one event in that poll, of kind Up,
carrying the slot's stored position, and is Idle afterwards with its position,
touch id and tick value unchanged. -/
theorem release_emits_up (cfg : TouchConfig) (raw : RawTouch) (ticks : Nat) (st : TouchState)
    (f : Nat) (hf : f < NO_OF_FINGERS)
    (hactive : (st.TouchData f).State ≠ EW_BSP_TOUCH_IDLE)
    (hnone : ∀ t, t < NO_OF_FINGERS → assignedFinger cfg raw ticks st t ≠ (f : Int)) :
    eventsOfFinger f (returnedEvents (EwBspTouchGetEvents cfg raw ticks st)) =
      [{ XPos := (st.TouchData f).XPos, YPos := (st.TouchData f).YPos, Finger := f,
         State := EW_BSP_TOUCH_UP }] ∧
    (EwBspTouchGetEvents cfg raw ticks st).1.TouchData f =
      { XPos := (st.TouchData f).XPos, YPos := (st.TouchData f).YPos,
        Ticks := (st.TouchData f).Ticks, TouchId := (st.TouchData f).TouchId,
        State := EW_BSP_TOUCH_IDLE } := by
  have hu := beforeSample_untouched cfg raw ticks st f NO_OF_FINGERS hnone
  constructor
  · rw [poll_eventsOfFinger, if_pos hf]
    unfold eventOf
    rw [hu.1, hu.2]
    simp [hactive, Option.toList]
  · rw [poll_data cfg raw ticks st f hf]
    unfold releaseOf
    rw [hu.1, hu.2]
    simp [hactive]

/-- C10 (hold is silent): a finger slot that is non-Idle before a poll and is
assigned exactly one sample in it, whose UI position equals the slot's stored
position, ends the poll in state Hold, and the poll returns no event for that
finger. -/
theorem hold_is_silent (cfg : TouchConfig) (raw : RawTouch) (ticks : Nat) (st : TouchState)
    (f t0 : Nat) (ht0 : t0 < NO_OF_FINGERS)
    (hactive : (st.TouchData f).State ≠ EW_BSP_TOUCH_IDLE)
    (hassigned : assignedFinger cfg raw ticks st t0 = (f : Int))
    (honly : ∀ t, t < NO_OF_FINGERS → t ≠ t0 → assignedFinger cfg raw ticks st t ≠ (f : Int))
    (hx : uiX cfg raw t0 = (st.TouchData f).XPos)
    (hy : uiY cfg raw t0 = (st.TouchData f).YPos) :
    ((EwBspTouchGetEvents cfg raw ticks st).1.TouchData f).State = EW_BSP_TOUCH_HOLD ∧
    eventsOfFinger f (returnedEvents (EwBspTouchGetEvents cfg raw ticks st)) = [] := by
  have hf : f < NO_OF_FINGERS := (assignedFinger_lt cfg raw ticks st t0 f hassigned).1
  have ho := beforeSample_once cfg raw ticks st f t0 NO_OF_FINGERS ht0 hassigned honly
  have hst : (storedTouch cfg raw ticks t0 (st.TouchData f)).State = EW_BSP_TOUCH_HOLD := by
    simp [storedTouch, nextState, hactive, hx, hy]
  constructor
  · rw [poll_data cfg raw ticks st f hf]
    unfold releaseOf
    rw [ho.1, ho.2]
    simp [hst]
  · rw [poll_eventsOfFinger, if_pos hf]
    unfold eventOf
    rw [ho.1, ho.2, hst]
    simp [Option.toList]

theorem eventOf_state (identified : Nat → Bool) (td : Nat → XTouchData) (g : Nat)
    (e : XTouchEvent) (h : eventOf identified td g = some e) :
    e.State = EW_BSP_TOUCH_DOWN ∨ e.State = EW_BSP_TOUCH_MOVE ∨ e.State = EW_BSP_TOUCH_UP := by
  unfold eventOf at h
  split_ifs at h <;> simp at h <;> rw [← h] <;> simp

/-- C9 (emission order): the count a poll returns is the number of entries
of `TouchEvent` it hands to the caller, these are exactly the events the
event loop wrote, one per writing iteration in slot order, the count is at
most 10, the `Finger` fields of the returned events are strictly increasing
and lie in 0..9, and every returned `State` is Down, Move or Up. -/
theorem emission_order (cfg : TouchConfig) (raw : RawTouch) (ticks : Nat) (st : TouchState) :
    (EwBspTouchGetEvents cfg raw ticks st).2 =
      (returnedEvents (EwBspTouchGetEvents cfg raw ticks st)).length ∧
    returnedEvents (EwBspTouchGetEvents cfg raw ticks st) =
      (List.range NO_OF_FINGERS).filterMap
        (eventOf (beforeSample cfg raw ticks st NO_OF_FINGERS).2
          (beforeSample cfg raw ticks st NO_OF_FINGERS).1) ∧
    (EwBspTouchGetEvents cfg raw ticks st).2 ≤ 10 ∧
    (returnedEvents (EwBspTouchGetEvents cfg raw ticks st)).Pairwise
      (fun a b => a.Finger < b.Finger) ∧
    ∀ e, e ∈ returnedEvents (EwBspTouchGetEvents cfg raw ticks st) →
      (0 ≤ e.Finger ∧ e.Finger ≤ 9) ∧
      (e.State = EW_BSP_TOUCH_DOWN ∨ e.State = EW_BSP_TOUCH_MOVE ∨
        e.State = EW_BSP_TOUCH_UP) := by
  have hlen : (EwBspTouchGetEvents cfg raw ticks st).2 =
      (returnedEvents (EwBspTouchGetEvents cfg raw ticks st)).length := by
    simp [returnedEvents]
  refine ⟨hlen, poll_events cfg raw ticks st, ?_, ?_, ?_⟩
  · rw [hlen, poll_events]
    have := List.length_filterMap_le
      (eventOf (beforeSample cfg raw ticks st NO_OF_FINGERS).2
        (beforeSample cfg raw ticks st NO_OF_FINGERS).1) (List.range NO_OF_FINGERS)
    simpa using this
  · rw [poll_events, List.pairwise_filterMap]
    apply List.Pairwise.imp _ (List.pairwise_lt_range NO_OF_FINGERS)
    intro a b hab ea hea eb heb
    rw [eventOf_finger _ _ a ea (by simpa using hea),
      eventOf_finger _ _ b eb (by simpa using heb)]
    exact_mod_cast hab
  · intro e he
    rw [poll_events, List.mem_filterMap] at he
    obtain ⟨g, hg, hge⟩ := he
    have hg10 : g < 10 := List.mem_range.mp hg
    rw [eventOf_finger _ _ g e hge]
    exact ⟨⟨by omega, by omega⟩, eventOf_state _ _ g e hge⟩

/-! ## Touch cycles -/

theorem nextState_ne_idle (touch : XTouchData) (x y : Int) :
    nextState touch x y ≠ EW_BSP_TOUCH_IDLE := by
  unfold nextState
  split_ifs <;> decide

/-- During the sample loop an identified finger is non-Idle and carries the
touch id of a valid sample already processed. -/
theorem beforeSample_identified (cfg : TouchConfig) (raw : RawTouch) (ticks : Nat)
    (st : TouchState) (n g : Nat)
    (h : (beforeSample cfg raw ticks st n).2 g = true) :
    ((beforeSample cfg raw ticks st n).1 g).State ≠ EW_BSP_TOUCH_IDLE ∧
    ∃ t, t < n ∧ ¬ skipSample cfg raw t ∧
      ((beforeSample cfg raw ticks st n).1 g).TouchId = raw.TouchId t := by
  induction n with
  | zero => simp [beforeSample, sampleLoop] at h
  | succ n ih =>
    rw [beforeSample_succ] at h ⊢
    by_cases hf : fingerOf cfg raw ticks n (beforeSample cfg raw ticks st n) = (g : Int)
    · have hs := sampleBody_self cfg raw ticks n (beforeSample cfg raw ticks st n) g hf
      have hv : ¬ skipSample cfg raw n := by
        intro hskip
        unfold fingerOf at hf
        rw [if_pos hskip] at hf
        omega
      rw [hs.1]
      exact ⟨nextState_ne_idle _ _ _, n, by omega, hv, rfl⟩
    · have ho := sampleBody_other cfg raw ticks n (beforeSample cfg raw ticks st n) g hf
      rw [ho.2] at h
      rw [ho.1]
      obtain ⟨h1, t, ht1, ht2, ht3⟩ := ih h
      exact ⟨h1, t, by omega, ht2, ht3⟩

/-- A finger a sample below `n` was assigned to is identified after `n` iterations. -/
theorem beforeSample_assigned (cfg : TouchConfig) (raw : RawTouch) (ticks : Nat)
    (st : TouchState) (t g n : Nat) (htn : t < n)
    (h : assignedFinger cfg raw ticks st t = (g : Int)) :
    (beforeSample cfg raw ticks st n).2 g = true := by
  induction n with
  | zero => omega
  | succ n ih =>
    rw [beforeSample_succ]
    by_cases hnt : n = t
    · subst hnt
      exact (sampleBody_self cfg raw ticks n (beforeSample cfg raw ticks st n) g h).2
    · exact sampleBody_identified cfg raw ticks n _ g (ih (by omega))

/-- With distinct ids a sample is only assigned to a finger not yet identified. -/
theorem assigned_unidentified (cfg : TouchConfig) (raw : RawTouch) (ticks : Nat)
    (st : TouchState) (hd : distinctIds cfg raw) (n g : Nat) (hn : n < NO_OF_FINGERS)
    (h : assignedFinger cfg raw ticks st n = (g : Int)) :
    (beforeSample cfg raw ticks st n).2 g = false := by
  by_contra hc
  have hid : (beforeSample cfg raw ticks st n).2 g = true := by
    simpa using hc
  obtain ⟨h1, t, ht1, ht2, ht3⟩ := beforeSample_identified cfg raw ticks st n g hid
  unfold assignedFinger at h
  rcases fingerOf_cases cfg raw ticks n (beforeSample cfg raw ticks st n) with
    hm | ⟨k, _, hk2, hk3, hk4⟩
  · rw [h] at hm; omega
  · rw [h] at hk2
    have hgk : g = k := by omega
    subst hgk
    rcases hk4 with ha | hi
    · have := hd t (by omega) n hn ht2 hk3 (by rw [← ht3, ha.2])
      omega
    · exact h1 hi

/-- With distinct ids no finger is assigned two samples in one poll. -/
theorem assigned_unique (cfg : TouchConfig) (raw : RawTouch) (ticks : Nat)
    (st : TouchState) (hd : distinctIds cfg raw) (t1 t2 g : Nat)
    (h1 : t1 < NO_OF_FINGERS) (h2 : t2 < NO_OF_FINGERS)
    (ha1 : assignedFinger cfg raw ticks st t1 = (g : Int))
    (ha2 : assignedFinger cfg raw ticks st t2 = (g : Int)) : t1 = t2 := by
  have key : ∀ a b, a < b → b < NO_OF_FINGERS →
      assignedFinger cfg raw ticks st a = (g : Int) →
      assignedFinger cfg raw ticks st b = (g : Int) → False := by
    intro a b hab hb haa hbb
    have hx := beforeSample_assigned cfg raw ticks st a g b hab haa
    have hy := assigned_unidentified cfg raw ticks st hd b g hb hbb
    rw [hx] at hy
    exact Bool.noConfusion hy
  rcases Nat.lt_trichotomy t1 t2 with h | h | h
  · exact (key t1 t2 h h2 ha1 ha2).elim
  · exact h
  · exact (key t2 t1 h h1 ha2 ha1).elim

/-- With distinct ids, the events one poll returns for finger `f` continue
the touch cycles of `f`, and the slot is non-Idle afterwards exactly when `f`
is inside a cycle. -/
theorem poll_cycle_step (cfg : TouchConfig) (raw : RawTouch) (ticks : Nat) (st : TouchState)
    (f : Nat) (hd : distinctIds cfg raw) (hf : f < NO_OF_FINGERS) (rest : List Int) :
    touchCycles (inCycle st f)
      ((eventsOfFinger f (returnedEvents (EwBspTouchGetEvents cfg raw ticks st))).map
        (fun e => e.State) ++ rest) =
    touchCycles (inCycle (EwBspTouchGetEvents cfg raw ticks st).1 f) rest := by
  rw [poll_eventsOfFinger, if_pos hf]
  unfold inCycle
  rw [poll_data cfg raw ticks st f hf]
  unfold eventOf releaseOf
  by_cases hex : ∃ t0, t0 < NO_OF_FINGERS ∧ assignedFinger cfg raw ticks st t0 = (f : Int)
  · obtain ⟨t0, ht0, hass⟩ := hex
    have ho := beforeSample_once cfg raw ticks st f t0 NO_OF_FINGERS ht0 hass
      (fun t ht hne hat => hne (assigned_unique cfg raw ticks st hd t t0 f ht ht0 hat hass))
    rw [ho.1, ho.2]
    by_cases hidle : (st.TouchData f).State = EW_BSP_TOUCH_IDLE
    · simp [storedTouch, nextState, hidle, Option.toList, touchCycles, cycleStep]
    · by_cases hmove : (st.TouchData f).XPos ≠ uiX cfg raw t0 ∨
          (st.TouchData f).YPos ≠ uiY cfg raw t0
      · simp [storedTouch, nextState, hidle, hmove, Option.toList, touchCycles, cycleStep]
      · simp [storedTouch, nextState, hidle, hmove, Option.toList]
  · have hu := beforeSample_untouched cfg raw ticks st f NO_OF_FINGERS
      (fun t ht hat => hex ⟨t, ht, hat⟩)
    rw [hu.1, hu.2]
    by_cases hidle : (st.TouchData f).State = EW_BSP_TOUCH_IDLE
    · simp [hidle, Option.toList]
    · simp [hidle, Option.toList, touchCycles, cycleStep]

theorem fingerKinds_cons (cfg : TouchConfig) (p : RawTouch × Nat)
    (ps : List (RawTouch × Nat)) (st : TouchState) (f : Nat) :
    fingerKinds cfg (p :: ps) st f =
      (eventsOfFinger f (returnedEvents (EwBspTouchGetEvents cfg p.1 p.2 st))).map
        (fun e => e.State) ++
      fingerKinds cfg ps (EwBspTouchGetEvents cfg p.1 p.2 st).1 f := by
  simp [fingerKinds, runEvents, eventsOfFinger, List.filter_append]

/-- No event carries a finger index of 10 or more. -/
theorem fingerKinds_out_of_range (cfg : TouchConfig) (polls : List (RawTouch × Nat))
    (f : Nat) (hf : ¬ f < NO_OF_FINGERS) : ∀ st, fingerKinds cfg polls st f = [] := by
  induction polls with
  | nil => intro st; rfl
  | cons p ps ih =>
    intro st
    rw [fingerKinds_cons, ih, poll_eventsOfFinger, if_neg hf]
    rfl

/-- From any state, with distinct ids in every table, the events of finger
`f` continue its touch cycles. -/
theorem run_touchCycles (cfg : TouchConfig) (polls : List (RawTouch × Nat)) (f : Nat)
    (hf : f < NO_OF_FINGERS) (hd : ∀ p, p ∈ polls → distinctIds cfg p.1) :
    ∀ st, touchCycles (inCycle st f) (fingerKinds cfg polls st f) = true := by
  induction polls with
  | nil => intro st; rfl
  | cons p ps ih =>
    intro st
    rw [fingerKinds_cons, poll_cycle_step cfg p.1 p.2 st f (hd p (List.mem_cons_self p ps)) hf]
    exact ih (fun q hq => hd q (List.mem_cons_of_mem p hq)) _

/-- C1, as stated, fails: one poll from the initial state whose raw table
holds two valid samples with the same touch id returns, as the first event of
finger 0, a Move. -/
theorem touch_cycle_counterexample :
    fingerKinds cfg800 [(rawOfList [(5, 100, 100), (5, 120, 120)], 0)] initialState 0 =
      [(EW_BSP_TOUCH_MOVE : Int)] ∧
    touchCycles false
      (fingerKinds cfg800 [(rawOfList [(5, 100, 100), (5, 120, 120)], 0)] initialState 0) =
      false := by
  decide

/-- C1, amended (touch cycles): for every sequence of polls from the state
set by `EwBspTouchInit` in whose raw tables the valid samples carry pairwise
distinct touch ids, and for every finger index `f`, the events returned for
`f`, taken in order, form touch cycles Down, Move*, Up: the first is a Down, a
Move or Up comes only after a Down with no Up in between, and after an Up the
next is a Down. -/
theorem touch_cycles (cfg : TouchConfig) (polls : List (RawTouch × Nat)) (f : Nat)
    (hd : ∀ p, p ∈ polls → distinctIds cfg p.1) :
    touchCycles false (fingerKinds cfg polls initialState f) = true := by
  by_cases hf : f < NO_OF_FINGERS
  · exact run_touchCycles cfg polls f hf hd initialState
  · rw [fingerKinds_out_of_range cfg polls f hf]
    rfl

/-- C1 at a run of three polls with two fingers: finger 0 gets Down, Move, Up
and finger 1 gets Down, Up. -/
theorem touch_cycles_witness :
    (∀ p, p ∈ [(rawOfList [(5, 100, 100)], 0),
        (rawOfList [(5, 110, 100), (6, 300, 300)], 20),
        (rawOfList [], 40)] → distinctIds cfg800 p.1) ∧
    touchCycles false
      (fingerKinds cfg800
        [(rawOfList [(5, 100, 100)], 0),
         (rawOfList [(5, 110, 100), (6, 300, 300)], 20),
         (rawOfList [], 40)] initialState 0) = true :=
  ⟨by decide, touch_cycles cfg800 _ 0 (by decide)⟩

/-! ## Runs with a single finger -/

theorem beforeSample_skipped (cfg : TouchConfig) (raw : RawTouch) (ticks : Nat)
    (st : TouchState) (n : Nat) (h : ∀ t, t < n → skipSample cfg raw t) :
    beforeSample cfg raw ticks st n = (st.TouchData, fun _ => false) := by
  induction n with
  | zero => rfl
  | succ n ih =>
    rw [beforeSample_succ, sampleBody_skip cfg raw ticks n _ (h n (by omega))]
    exact ih (fun t ht => h t (by omega))

theorem assignedFinger_skip (cfg : TouchConfig) (raw : RawTouch) (ticks : Nat)
    (st : TouchState) (t : Nat) (h : skipSample cfg raw t) :
    assignedFinger cfg raw ticks st t = -1 := by
  unfold assignedFinger fingerOf
  rw [if_pos h]

/-- The finger of the only valid sample is found on the slots of the poll's start. -/
theorem assignedFinger_single (cfg : TouchConfig) (raw : RawTouch) (ticks : Nat)
    (st : TouchState) (a : Nat) (h : singleSample cfg raw a) :
    assignedFinger cfg raw ticks st a =
      findFinger st.TouchData (raw.TouchId a) ticks (uiX cfg raw a) (uiY cfg raw a) := by
  unfold assignedFinger fingerOf
  rw [if_neg h.2.1, beforeSample_skipped cfg raw ticks st a
    (fun t ht => h.2.2 t (by have := h.1; omega) (by omega))]

/-- The slots after a poll without valid sample. -/
theorem poll_noSample (cfg : TouchConfig) (raw : RawTouch) (ticks : Nat) (st : TouchState)
    (h : noSample cfg raw) (k : Nat) (hk : k < NO_OF_FINGERS) :
    (EwBspTouchGetEvents cfg raw ticks st).1.TouchData k =
      releaseOf (fun _ => false) st.TouchData k ∧
    eventsOfFinger k (returnedEvents (EwBspTouchGetEvents cfg raw ticks st)) =
      (eventOf (fun _ => false) st.TouchData k).toList := by
  have hb := beforeSample_skipped cfg raw ticks st NO_OF_FINGERS h
  rw [poll_data cfg raw ticks st k hk, poll_eventsOfFinger, if_pos hk, hb]
  exact ⟨rfl, rfl⟩

/-- The slots other than the assigned one after a poll with a single valid sample. -/
theorem poll_single_other (cfg : TouchConfig) (raw : RawTouch) (ticks : Nat) (st : TouchState)
    (a f : Nat) (h : singleSample cfg raw a)
    (hass : assignedFinger cfg raw ticks st a = (f : Int))
    (k : Nat) (hk : k < NO_OF_FINGERS) (hkf : k ≠ f) :
    (EwBspTouchGetEvents cfg raw ticks st).1.TouchData k =
      releaseOf (fun _ => false) st.TouchData k ∧
    eventsOfFinger k (returnedEvents (EwBspTouchGetEvents cfg raw ticks st)) =
      (eventOf (fun _ => false) st.TouchData k).toList := by
  have hu := beforeSample_untouched cfg raw ticks st k NO_OF_FINGERS (by
    intro t ht
    by_cases hta : t = a
    · subst hta; rw [hass]; omega
    · rw [assignedFinger_skip cfg raw ticks st t (h.2.2 t ht hta)]; omega)
  rw [poll_data cfg raw ticks st k hk, poll_eventsOfFinger, if_pos hk]
  unfold releaseOf eventOf
  rw [hu.1, hu.2]
  exact ⟨rfl, rfl⟩

/-- The assigned slot after a poll with a single valid sample. -/
theorem poll_single_self (cfg : TouchConfig) (raw : RawTouch) (ticks : Nat) (st : TouchState)
    (a f : Nat) (h : singleSample cfg raw a)
    (hass : assignedFinger cfg raw ticks st a = (f : Int)) :
    (EwBspTouchGetEvents cfg raw ticks st).1.TouchData f =
      storedTouch cfg raw ticks a (st.TouchData f) ∧
    eventsOfFinger f (returnedEvents (EwBspTouchGetEvents cfg raw ticks st)) =
      (eventOf (fun _ => true) (fun _ => storedTouch cfg raw ticks a (st.TouchData f)) f).toList := by
  have hf := (assignedFinger_lt cfg raw ticks st a f hass).1
  have ho := beforeSample_once cfg raw ticks st f a NO_OF_FINGERS h.1 hass (by
    intro t ht hta
    rw [assignedFinger_skip cfg raw ticks st t (h.2.2 t ht hta)]; omega)
  rw [poll_data cfg raw ticks st f hf, poll_eventsOfFinger, if_pos hf]
  unfold releaseOf eventOf
  rw [ho.1, ho.2]
  simp

theorem runState_append (cfg : TouchConfig) (ps qs : List (RawTouch × Nat)) :
    ∀ st, runState cfg (ps ++ qs) st = runState cfg qs (runState cfg ps st) := by
  induction ps with
  | nil => intro st; rfl
  | cons p ps ih => intro st; exact ih _

theorem fingerKinds_append (cfg : TouchConfig) (ps qs : List (RawTouch × Nat)) (f : Nat) :
    ∀ st, fingerKinds cfg (ps ++ qs) st f =
      fingerKinds cfg ps st f ++ fingerKinds cfg qs (runState cfg ps st) f := by
  induction ps with
  | nil => intro st; rfl
  | cons p ps ih =>
    intro st
    rw [List.cons_append, fingerKinds_cons, fingerKinds_cons, ih, List.append_assoc]
    rfl

theorem fingerKinds_nil (cfg : TouchConfig) (st : TouchState) (f : Nat) :
    fingerKinds cfg [] st f = [] := rfl

/-- A sample assigned to an Idle slot, alone in its poll, starts a touch
cycle there: the poll returns a Down event for that finger at the sample's UI
position, and the slot is Down afterwards. -/
theorem assigned_idle_down (cfg : TouchConfig) (raw : RawTouch) (ticks : Nat) (st : TouchState)
    (a f : Nat) (h : singleSample cfg raw a)
    (hass : assignedFinger cfg raw ticks st a = (f : Int))
    (hidle : (st.TouchData f).State = EW_BSP_TOUCH_IDLE) :
    eventsOfFinger f (returnedEvents (EwBspTouchGetEvents cfg raw ticks st)) =
      [{ XPos := uiX cfg raw a, YPos := uiY cfg raw a, Finger := f,
         State := EW_BSP_TOUCH_DOWN }] ∧
    (EwBspTouchGetEvents cfg raw ticks st).1.TouchData f =
      { XPos := uiX cfg raw a, YPos := uiY cfg raw a, Ticks := ticks,
        TouchId := raw.TouchId a, State := EW_BSP_TOUCH_DOWN } := by
  have hs := poll_single_self cfg raw ticks st a f h hass
  rw [hs.1, hs.2]
  simp [eventOf, storedTouch, nextState, hidle, Option.toList]

/-- The first touch: from a state without pressed finger, the only valid
sample presses the finger it is assigned to. -/
theorem touch_phase (cfg : TouchConfig) (raw : RawTouch) (ticks : Nat) (st : TouchState)
    (a f : Nat) (hst : allIdle st) (h : singleSample cfg raw a)
    (hass : assignedFinger cfg raw ticks st a = (f : Int)) :
    onlyFinger (EwBspTouchGetEvents cfg raw ticks st).1 f (raw.TouchId a) ∧
    (eventsOfFinger f (returnedEvents (EwBspTouchGetEvents cfg raw ticks st))).map
      (fun e => e.State) = [(EW_BSP_TOUCH_DOWN : Int)] := by
  have hf := (assignedFinger_lt cfg raw ticks st a f hass).1
  have hd := assigned_idle_down cfg raw ticks st a f h hass (hst f hf)
  refine ⟨⟨hf, ?_, ?_⟩, ?_⟩
  · rw [hd.2]; exact ⟨Nat.one_ne_zero, rfl⟩
  · intro k hk hkf
    rw [(poll_single_other cfg raw ticks st a f h hass k hk hkf).1]
    simp [releaseOf, hst k hk]
  · rw [hd.1]; rfl

/-- A further sample of the pressed finger: it stays the only pressed finger
and gets a Move event or none. -/
theorem move_phase (cfg : TouchConfig) (raw : RawTouch) (ticks : Nat) (st : TouchState)
    (c f : Nat) (id : Int) (hst : onlyFinger st f id) (h : singleSample cfg raw c)
    (hid : raw.TouchId c = id) :
    onlyFinger (EwBspTouchGetEvents cfg raw ticks st).1 f id ∧
    ∀ k, k ∈ (eventsOfFinger f (returnedEvents (EwBspTouchGetEvents cfg raw ticks st))).map
      (fun e => e.State) → k = (EW_BSP_TOUCH_MOVE : Int) := by
  obtain ⟨hf, hact, hothers⟩ := hst
  have hass : assignedFinger cfg raw ticks st c = (f : Int) := by
    rw [assignedFinger_single cfg raw ticks st c h]
    apply fingerLoop_active st.TouchData (raw.TouchId c) ticks (uiX cfg raw c) (uiY cfg raw c)
      NO_OF_FINGERS 0 (-1) f (Nat.zero_le _) (by omega)
    · rw [hid]; exact hact
    · intro k _ hk ha
      exact ha.1 (hothers k (by omega) (by omega))
  have hs := poll_single_self cfg raw ticks st c f h hass
  refine ⟨⟨hf, ?_, ?_⟩, ?_⟩
  · rw [hs.1]
    exact ⟨nextState_ne_idle _ _ _, hid⟩
  · intro k hk hkf
    rw [(poll_single_other cfg raw ticks st c f h hass k hk hkf).1]
    simp [releaseOf, hothers k hk hkf]
  · rw [hs.2]
    intro k hk
    have hne : (st.TouchData f).State ≠ EW_BSP_TOUCH_IDLE := hact.1
    by_cases hmove : (st.TouchData f).XPos ≠ uiX cfg raw c ∨
        (st.TouchData f).YPos ≠ uiY cfg raw c
    · simp [eventOf, storedTouch, nextState, hne, hmove, Option.toList] at hk
      exact hk
    · simp [eventOf, storedTouch, nextState, hne, hmove, Option.toList] at hk

/-- The release: a poll without valid sample returns Up for the pressed
finger and leaves no finger pressed. -/
theorem release_phase (cfg : TouchConfig) (raw : RawTouch) (ticks : Nat) (st : TouchState)
    (f : Nat) (id : Int) (hst : onlyFinger st f id) (h : noSample cfg raw) :
    allIdle (EwBspTouchGetEvents cfg raw ticks st).1 ∧
    (eventsOfFinger f (returnedEvents (EwBspTouchGetEvents cfg raw ticks st))).map
      (fun e => e.State) = [(EW_BSP_TOUCH_UP : Int)] := by
  obtain ⟨hf, hact, hothers⟩ := hst
  have hne : (st.TouchData f).State ≠ EW_BSP_TOUCH_IDLE := hact.1
  constructor
  · intro k hk
    rw [(poll_noSample cfg raw ticks st h k hk).1]
    by_cases hkf : k = f
    · subst hkf; simp [releaseOf, hne]
    · simp [releaseOf, hothers k hk hkf]
  · rw [(poll_noSample cfg raw ticks st h f hf).2]
    simp [eventOf, hne, Option.toList]

/-- With no finger pressed a poll without valid sample changes no slot and
returns no event. -/
theorem idle_phase (cfg : TouchConfig) (raw : RawTouch) (ticks : Nat) (st : TouchState)
    (hst : allIdle st) (h : noSample cfg raw) (k : Nat) (hk : k < NO_OF_FINGERS) :
    (EwBspTouchGetEvents cfg raw ticks st).1.TouchData k = st.TouchData k ∧
    eventsOfFinger k (returnedEvents (EwBspTouchGetEvents cfg raw ticks st)) = [] := by
  have hp := poll_noSample cfg raw ticks st h k hk
  rw [hp.1, hp.2]
  simp [releaseOf, eventOf, hst k hk, Option.toList]

theorem moves_run (cfg : TouchConfig) (moves : List (RawTouch × Nat)) (f : Nat) (id : Int)
    (hmoves : ∀ m, m ∈ moves → ∃ c, singleSample cfg m.1 c ∧ m.1.TouchId c = id) :
    ∀ st, onlyFinger st f id →
      onlyFinger (runState cfg moves st) f id ∧
      ∀ k, k ∈ fingerKinds cfg moves st f → k = (EW_BSP_TOUCH_MOVE : Int) := by
  induction moves with
  | nil =>
    intro st hst
    exact ⟨hst, fun k hk => by simp [fingerKinds_nil] at hk⟩
  | cons m ms ih =>
    intro st hst
    obtain ⟨c, hc1, hc2⟩ := hmoves m (List.mem_cons_self m ms)
    have hm := move_phase cfg m.1 m.2 st c f id hst hc1 hc2
    have hrest := ih (fun q hq => hmoves q (List.mem_cons_of_mem m hq)) _ hm.1
    refine ⟨hrest.1, ?_⟩
    intro k hk
    rw [fingerKinds_cons, List.mem_append] at hk
    rcases hk with hk | hk
    · exact hm.2 k hk
    · exact hrest.2 k hk

theorem idles_run (cfg : TouchConfig) (idles : List (RawTouch × Nat)) (f : Nat)
    (hf : f < NO_OF_FINGERS) (hidles : ∀ m, m ∈ idles → noSample cfg m.1) :
    ∀ st, allIdle st →
      allIdle (runState cfg idles st) ∧ fingerKinds cfg idles st f = [] := by
  induction idles with
  | nil => intro st hst; exact ⟨hst, rfl⟩
  | cons m ms ih =>
    intro st hst
    have hm := idle_phase cfg m.1 m.2 st hst (hidles m (List.mem_cons_self m ms))
    have hst' : allIdle (EwBspTouchGetEvents cfg m.1 m.2 st).1 := by
      intro k hk; rw [(hm k hk).1]; exact hst k hk
    have hrest := ih (fun q hq => hidles q (List.mem_cons_of_mem m hq)) _ hst'
    refine ⟨hrest.1, ?_⟩
    rw [fingerKinds_cons, (hm f hf).2, hrest.2]
    rfl

theorem allIdle_initialState : allIdle initialState := by
  intro k _; rfl

/-- A single finger pressed from the initial state on slot `f`, moved, and
released: afterwards no finger is pressed, and finger `f` got Down, Moves, Up. -/
theorem single_finger_run (cfg : TouchConfig) (touch release : RawTouch × Nat)
    (moves idles : List (RawTouch × Nat)) (a f : Nat)
    (htouch : singleSample cfg touch.1 a)
    (hf : assignedFinger cfg touch.1 touch.2 initialState a = (f : Int))
    (hmoves : ∀ m, m ∈ moves → ∃ c, singleSample cfg m.1 c ∧ m.1.TouchId c = touch.1.TouchId a)
    (hrelease : noSample cfg release.1)
    (hidles : ∀ m, m ∈ idles → noSample cfg m.1) :
    allIdle (runState cfg (touch :: (moves ++ release :: idles)) initialState) ∧
    ∃ mk : List Int,
      fingerKinds cfg (touch :: (moves ++ release :: idles)) initialState f =
        (EW_BSP_TOUCH_DOWN : Int) :: (mk ++ [(EW_BSP_TOUCH_UP : Int)]) ∧
      ∀ k, k ∈ mk → k = (EW_BSP_TOUCH_MOVE : Int) := by
  have hf10 := (assignedFinger_lt cfg touch.1 touch.2 initialState a f hf).1
  have h1 := touch_phase cfg touch.1 touch.2 initialState a f allIdle_initialState htouch hf
  have h2 := moves_run cfg moves f (touch.1.TouchId a) hmoves _ h1.1
  have h3 := release_phase cfg release.1 release.2 _ f (touch.1.TouchId a) h2.1 hrelease
  have h4 := idles_run cfg idles f hf10 hidles _ h3.1
  constructor
  · show allIdle (runState cfg (moves ++ release :: idles) _)
    rw [runState_append]
    exact h4.1
  · refine ⟨fingerKinds cfg moves (EwBspTouchGetEvents cfg touch.1 touch.2 initialState).1 f,
      ?_, h2.2⟩
    rw [fingerKinds_cons, h1.2, fingerKinds_append, fingerKinds_cons, h3.2, h4.2]
    simp

theorem filterMap_range_single {β : Type} (g : Nat → Option β) (f n : Nat) (hf : f < n)
    (h : ∀ k, k < n → k ≠ f → g k = none) :
    (List.range n).filterMap g = (g f).toList := by
  induction n with
  | zero => omega
  | succ n ih =>
    rw [List.range_succ, List.filterMap_append, filterMap_single]
    by_cases hfn : f = n
    · subst hfn
      have h0 : (List.range f).filterMap g = [] := by
        rw [List.filterMap_eq_nil_iff]
        intro k hk
        have := List.mem_range.mp hk
        exact h k (by omega) (by omega)
      rw [h0, List.nil_append]
    · rw [ih (by omega) (fun k hk hkf => h k (by omega) hkf), h n (by omega) (Ne.symm hfn)]
      simp [Option.toList]

/-- With no finger pressed, the only valid sample of a poll goes to the
highest slot that satisfies the debounce condition, and the poll returns the
event of that finger only. -/
theorem retouch_debounce (cfg : TouchConfig) (raw : RawTouch) (ticks : Nat) (st : TouchState)
    (b f : Nat) (hst : allIdle st) (h : singleSample cfg raw b) (hf : f < NO_OF_FINGERS)
    (hdeb : debounceMatch (st.TouchData f) ticks (uiX cfg raw b) (uiY cfg raw b))
    (hhigher : ∀ k, f < k → k < NO_OF_FINGERS →
      ¬ debounceMatch (st.TouchData k) ticks (uiX cfg raw b) (uiY cfg raw b)) :
    assignedFinger cfg raw ticks st b = (f : Int) ∧
    returnedEvents (EwBspTouchGetEvents cfg raw ticks st) =
      [{ XPos := uiX cfg raw b, YPos := uiY cfg raw b, Finger := f,
         State := EW_BSP_TOUCH_DOWN }] := by
  have hass : assignedFinger cfg raw ticks st b = (f : Int) := by
    rw [assignedFinger_single cfg raw ticks st b h]
    exact fingerLoop_debounce st.TouchData (raw.TouchId b) ticks (uiX cfg raw b)
      (uiY cfg raw b) NO_OF_FINGERS 0 (-1) f (Nat.zero_le _) (by omega)
      (fun k _ hk ha => ha.1 (hst k (by omega))) hdeb
      (fun k hk1 hk2 => hhigher k hk1 (by omega))
  refine ⟨hass, ?_⟩
  have hd := assigned_idle_down cfg raw ticks st b f h hass (hst f hf)
  have hfe := poll_eventsOfFinger cfg raw ticks st f
  rw [if_pos hf, hd.1] at hfe
  rw [poll_events, filterMap_range_single _ f NO_OF_FINGERS hf, ← hfe]
  intro k hk hkf
  have hu := beforeSample_untouched cfg raw ticks st k NO_OF_FINGERS (by
    intro t ht
    by_cases hta : t = b
    · subst hta; rw [hass]; omega
    · rw [assignedFinger_skip cfg raw ticks st t (h.2.2 t ht hta)]; omega)
  unfold eventOf
  rw [hu.1, hu.2]
  simp [hst k hk]

/-- C3, as stated, fails: a finger pressed at UI position (20, 20) at tick 0
gets finger 0 and is released at tick 50 (Up for finger 0, slot 0 keeps
position (20, 20) and tick 0); a valid sample at (10, 10) at tick 200, less
than 500 ms and less than 16 px from there, is assigned to finger 9, whose
never-used slot satisfies the debounce condition too. -/
theorem debounce_continuity_counterexample :
    assignedFinger cfg800 (rawOfList [(5, 20, 20)]) 0 initialState 0 = 0 ∧
    (afterRelease cfg800 (rawOfList [(5, 20, 20)], 0) (rawOfList [], 50) [] []).TouchData 0 =
      { XPos := 20, YPos := 20, Ticks := 0, TouchId := 5, State := EW_BSP_TOUCH_IDLE } ∧
    assignedFinger cfg800 (rawOfList [(6, 10, 10)]) 200
      (afterRelease cfg800 (rawOfList [(5, 20, 20)], 0) (rawOfList [], 50) [] []) 0 = 9 ∧
    runEvents cfg800
      [(rawOfList [(5, 20, 20)], 0), (rawOfList [], 50), (rawOfList [(6, 10, 10)], 200)]
      initialState =
      [{ XPos := 20, YPos := 20, Finger := 0, State := EW_BSP_TOUCH_DOWN },
       { XPos := 20, YPos := 20, Finger := 0, State := EW_BSP_TOUCH_UP },
       { XPos := 10, YPos := 10, Finger := 9, State := EW_BSP_TOUCH_DOWN }] := by
  decide

/-- C3, amended (debounce continuity): in every run from the initial state
in which a single finger is assigned to slot `f` (poll `touch`), keeps being
sampled (polls `moves`) and is released (poll `release`, followed by polls
`idles` without valid sample), a poll whose only valid sample has a tick value
below the slot's stored tick plus 500 (the sum taken in `unsigned long`
arithmetic) and a UI position less than 16 px from the slot's stored position
on each axis assigns that sample to the same slot `f`, and the returned event
carries `Finger = f`, provided no Idle slot of index higher than `f`
satisfies the debounce condition as well. -/
theorem debounce_continuity (cfg : TouchConfig) (touch release retouch : RawTouch × Nat)
    (moves idles : List (RawTouch × Nat)) (a b f : Nat)
    (htouch : singleSample cfg touch.1 a)
    (hf : assignedFinger cfg touch.1 touch.2 initialState a = (f : Int))
    (hmoves : ∀ m, m ∈ moves → ∃ c, singleSample cfg m.1 c ∧ m.1.TouchId c = touch.1.TouchId a)
    (hrelease : noSample cfg release.1)
    (hidles : ∀ m, m ∈ idles → noSample cfg m.1)
    (hretouch : singleSample cfg retouch.1 b)
    (htime : retouch.2 <
      (((afterRelease cfg touch release moves idles).TouchData f).Ticks + DELTA_TIME) %
        ULONG_MODULUS)
    (hx : uiX cfg retouch.1 b >
        ((afterRelease cfg touch release moves idles).TouchData f).XPos - DELTA_TOUCH ∧
      uiX cfg retouch.1 b <
        ((afterRelease cfg touch release moves idles).TouchData f).XPos + DELTA_TOUCH)
    (hy : uiY cfg retouch.1 b >
        ((afterRelease cfg touch release moves idles).TouchData f).YPos - DELTA_TOUCH ∧
      uiY cfg retouch.1 b <
        ((afterRelease cfg touch release moves idles).TouchData f).YPos + DELTA_TOUCH)
    (hhigher : ∀ k, k < NO_OF_FINGERS → f < k →
      ¬ debounceMatch ((afterRelease cfg touch release moves idles).TouchData k) retouch.2
        (uiX cfg retouch.1 b) (uiY cfg retouch.1 b)) :
    assignedFinger cfg retouch.1 retouch.2 (afterRelease cfg touch release moves idles) b =
      (f : Int) ∧
    (returnedEvents (EwBspTouchGetEvents cfg retouch.1 retouch.2
      (afterRelease cfg touch release moves idles))).map (fun e => e.Finger) = [(f : Int)] := by
  have hf10 := (assignedFinger_lt cfg touch.1 touch.2 initialState a f hf).1
  have hrun := single_finger_run cfg touch release moves idles a f htouch hf hmoves
    hrelease hidles
  have hidle : allIdle (afterRelease cfg touch release moves idles) := hrun.1
  have hr := retouch_debounce cfg retouch.1 retouch.2 _ b f hidle hretouch hf10
    ⟨hidle f hf10, htime, hx.1, hx.2, hy.1, hy.2⟩ (fun k hk1 hk2 => hhigher k hk2 hk1)
  refine ⟨hr.1, ?_⟩
  rw [hr.2]
  rfl

set_option maxRecDepth 4096 in
/-- C3 at the example of the specification, with one move added: touch at
(100, 100) at tick 0, move to (101, 100) at tick 20, release at tick 50,
re-touch at (105, 104) at tick 200: the re-touch goes to finger 0 again. -/
theorem debounce_continuity_witness :
    assignedFinger cfg800 (rawOfList [(5, 100, 100)]) 0 initialState 0 = 0 ∧
    assignedFinger cfg800 (rawOfList [(6, 105, 104)]) 200
      (afterRelease cfg800 (rawOfList [(5, 100, 100)], 0) (rawOfList [], 50)
        [(rawOfList [(5, 101, 100)], 20)] []) 0 = ((0 : Nat) : Int) ∧
    (returnedEvents (EwBspTouchGetEvents cfg800 (rawOfList [(6, 105, 104)]) 200
      (afterRelease cfg800 (rawOfList [(5, 100, 100)], 0) (rawOfList [], 50)
        [(rawOfList [(5, 101, 100)], 20)] []))).map (fun e => e.Finger) = [((0 : Nat) : Int)] :=
  ⟨by decide,
   debounce_continuity cfg800 (rawOfList [(5, 100, 100)], 0) (rawOfList [], 50)
    (rawOfList [(6, 105, 104)], 200) [(rawOfList [(5, 101, 100)], 20)] [] 0 0 0
    (by decide) (by decide)
    (fun m hm => List.mem_singleton.mp hm ▸ ⟨0, by decide, by decide⟩)
    (by decide) (fun m hm => absurd hm (List.not_mem_nil m)) (by decide)
    (by decide) (by decide) (by decide) (by decide)⟩

/-- C4, as stated, fails at its own example: touch at (100, 100) at tick 0,
release at tick 50, re-touch at (105, 104) at tick 200 reuses finger 0, and
the re-touch returns a second Down event for finger 0: Down, Up, Down. -/
theorem no_second_down_counterexample :
    runEvents cfg800
      [(rawOfList [(5, 100, 100)], 0), (rawOfList [], 50), (rawOfList [(6, 105, 104)], 200)]
      initialState =
      [{ XPos := 100, YPos := 100, Finger := 0, State := EW_BSP_TOUCH_DOWN },
       { XPos := 100, YPos := 100, Finger := 0, State := EW_BSP_TOUCH_UP },
       { XPos := 105, YPos := 104, Finger := 0, State := EW_BSP_TOUCH_DOWN }] ∧
    (fingerKinds cfg800
      [(rawOfList [(5, 100, 100)], 0), (rawOfList [], 50), (rawOfList [(6, 105, 104)], 200)]
      initialState 0).count (EW_BSP_TOUCH_DOWN : Int) = 2 := by
  decide

/-- C4, amended (a re-touch starts a new cycle): in every run from the
initial state in which a single finger is assigned to slot `f`, keeps being
sampled, is released, and a later poll's only valid sample is assigned to the
same slot `f`, the re-touch poll returns a Down event for `f` at the sample's
UI position; across both touches finger `f` gets Down, Moves, Up, Down: two
Down events. -/
theorem retouch_emits_down (cfg : TouchConfig) (touch release retouch : RawTouch × Nat)
    (moves idles : List (RawTouch × Nat)) (a b f : Nat)
    (htouch : singleSample cfg touch.1 a)
    (hf : assignedFinger cfg touch.1 touch.2 initialState a = (f : Int))
    (hmoves : ∀ m, m ∈ moves → ∃ c, singleSample cfg m.1 c ∧ m.1.TouchId c = touch.1.TouchId a)
    (hrelease : noSample cfg release.1)
    (hidles : ∀ m, m ∈ idles → noSample cfg m.1)
    (hretouch : singleSample cfg retouch.1 b)
    (hsame : assignedFinger cfg retouch.1 retouch.2
      (afterRelease cfg touch release moves idles) b = (f : Int)) :
    eventsOfFinger f (returnedEvents (EwBspTouchGetEvents cfg retouch.1 retouch.2
      (afterRelease cfg touch release moves idles))) =
      [{ XPos := uiX cfg retouch.1 b, YPos := uiY cfg retouch.1 b, Finger := f,
         State := EW_BSP_TOUCH_DOWN }] ∧
    (∃ mk : List Int,
      fingerKinds cfg ((touch :: (moves ++ release :: idles)) ++ [retouch]) initialState f =
        (EW_BSP_TOUCH_DOWN : Int) ::
          (mk ++ [(EW_BSP_TOUCH_UP : Int), (EW_BSP_TOUCH_DOWN : Int)]) ∧
      ∀ k, k ∈ mk → k = (EW_BSP_TOUCH_MOVE : Int)) ∧
    (fingerKinds cfg ((touch :: (moves ++ release :: idles)) ++ [retouch]) initialState
      f).count (EW_BSP_TOUCH_DOWN : Int) = 2 := by
  have hf10 := (assignedFinger_lt cfg touch.1 touch.2 initialState a f hf).1
  obtain ⟨hidle, mk, hmk1, hmk2⟩ := single_finger_run cfg touch release moves idles a f
    htouch hf hmoves hrelease hidles
  have hd := assigned_idle_down cfg retouch.1 retouch.2
    (afterRelease cfg touch release moves idles) b f hretouch hsame (hidle f hf10)
  have hkinds : fingerKinds cfg ((touch :: (moves ++ release :: idles)) ++ [retouch])
      initialState f =
      (EW_BSP_TOUCH_DOWN : Int) ::
        (mk ++ [(EW_BSP_TOUCH_UP : Int), (EW_BSP_TOUCH_DOWN : Int)]) := by
    rw [fingerKinds_append, hmk1, fingerKinds_cons, fingerKinds_nil]
    have hd1 := hd.1
    unfold afterRelease at hd1
    rw [hd1]
    simp
  refine ⟨hd.1, ⟨mk, hkinds, hmk2⟩, ?_⟩
  rw [hkinds]
  have hcount : mk.count (1 : Int) = 0 := by
    rw [List.count_eq_zero]
    intro hmem
    have := hmk2 _ hmem
    norm_num at this
  simp [List.count_cons, List.count_append, hcount]

/-- C4 at the example of the specification: touch at (100, 100) at tick 0,
release at tick 50, re-touch at (105, 104) at tick 200. -/
theorem retouch_emits_down_witness :
    eventsOfFinger 0 (returnedEvents (EwBspTouchGetEvents cfg800 (rawOfList [(6, 105, 104)]) 200
      (afterRelease cfg800 (rawOfList [(5, 100, 100)], 0) (rawOfList [], 50) [] []))) =
      [{ XPos := 105, YPos := 104, Finger := 0, State := EW_BSP_TOUCH_DOWN }] ∧
    (fingerKinds cfg800
      (((rawOfList [(5, 100, 100)], 0) :: ([] ++ (rawOfList [], 50) :: [])) ++
        [(rawOfList [(6, 105, 104)], 200)]) initialState 0).count (EW_BSP_TOUCH_DOWN : Int) = 2 :=
  have h := retouch_emits_down cfg800 (rawOfList [(5, 100, 100)], 0) (rawOfList [], 50)
    (rawOfList [(6, 105, 104)], 200) [] [] 0 0 0
    (by decide) (by decide) (fun m hm => absurd hm (List.not_mem_nil m))
    (by decide) (fun m hm => absurd hm (List.not_mem_nil m)) (by decide) (by decide)
  ⟨h.1, h.2.2⟩

/-! ## The claims at concrete inputs -/

/-- C2 at a state in which Idle slot 0 satisfies the debounce condition for
the sample and non-Idle slot 3 carries its touch id: the sample goes to slot 3. -/
theorem identity_continuity_witness :
    debounceMatch (stateIdleAndActive.TouchData 0) 200
      (uiX cfg800 (rawOfList [(7, 105, 104)]) 0) (uiY cfg800 (rawOfList [(7, 105, 104)]) 0) ∧
    findFinger stateIdleAndActive.TouchData 7 200 105 104 = 3 ∧
    ∃ g, g < NO_OF_FINGERS ∧
      activeMatch (stateIdleAndActive.TouchData g) ((rawOfList [(7, 105, 104)]).TouchId 0) ∧
      (∀ k, k < g →
        ¬ activeMatch (stateIdleAndActive.TouchData k) ((rawOfList [(7, 105, 104)]).TouchId 0)) ∧
      findFinger stateIdleAndActive.TouchData ((rawOfList [(7, 105, 104)]).TouchId 0) 200
        (uiX cfg800 (rawOfList [(7, 105, 104)]) 0) (uiY cfg800 (rawOfList [(7, 105, 104)]) 0) =
        (g : Int) ∧
      (sampleBody cfg800 (rawOfList [(7, 105, 104)]) 200 0
        (stateIdleAndActive.TouchData, fun _ => false)).1 g =
        storedTouch cfg800 (rawOfList [(7, 105, 104)]) 200 0 (stateIdleAndActive.TouchData g) ∧
      (sampleBody cfg800 (rawOfList [(7, 105, 104)]) 200 0
        (stateIdleAndActive.TouchData, fun _ => false)).2 g = true ∧
      ∀ k, k ≠ g →
        (sampleBody cfg800 (rawOfList [(7, 105, 104)]) 200 0
          (stateIdleAndActive.TouchData, fun _ => false)).1 k = stateIdleAndActive.TouchData k ∧
        (sampleBody cfg800 (rawOfList [(7, 105, 104)]) 200 0
          (stateIdleAndActive.TouchData, fun _ => false)).2 k = false :=
  ⟨by decide, by decide,
   identity_continuity cfg800 (rawOfList [(7, 105, 104)]) 200 0
    (stateIdleAndActive.TouchData, fun _ => false) (by decide) ⟨3, by decide, by decide⟩⟩

/-- C5 at a state with slot 0 Down and the other slots Idle and out of the
debounce window: a sample with a new touch id goes to slot 1, which becomes Down. -/
theorem first_free_assignment_witness :
    findFinger
      stateOneMoving.TouchData
      ((rawOfList [(1, 50, 50), (2, 200, 220)]).TouchId 1) 1000
      (uiX cfg800 (rawOfList [(1, 50, 50), (2, 200, 220)]) 1)
      (uiY cfg800 (rawOfList [(1, 50, 50), (2, 200, 220)]) 1) = ((1 : Nat) : Int) ∧
    (sampleBody cfg800 (rawOfList [(1, 50, 50), (2, 200, 220)]) 1000 1
      (stateOneMoving.TouchData, fun _ => false)).1 1 =
      { XPos := uiX cfg800 (rawOfList [(1, 50, 50), (2, 200, 220)]) 1,
        YPos := uiY cfg800 (rawOfList [(1, 50, 50), (2, 200, 220)]) 1,
        Ticks := 1000, TouchId := (rawOfList [(1, 50, 50), (2, 200, 220)]).TouchId 1,
        State := EW_BSP_TOUCH_DOWN } ∧
    (sampleBody cfg800 (rawOfList [(1, 50, 50), (2, 200, 220)]) 1000 1
      (stateOneMoving.TouchData, fun _ => false)).2 1 = true :=
  first_free_assignment cfg800 (rawOfList [(1, 50, 50), (2, 200, 220)]) 1000 1
    (stateOneMoving.TouchData, fun _ => false) 1
    (by decide) (by decide) (by decide) (by decide) (by decide) (by decide)

/-- C6 at the state with ten pressed fingers of touch ids 0..9 and a valid
sample of touch id 77: no finger is found, nothing changes, and the poll is
the poll on the table without that sample. -/
theorem capacity_exhaustion_witness :
    (∀ k, k < NO_OF_FINGERS →
      (stateFull.TouchData k).State ≠ EW_BSP_TOUCH_IDLE ∧
      (stateFull.TouchData k).TouchId ≠ (rawOfList [(77, 400, 400)]).TouchId 0) ∧
    findFinger stateFull.TouchData ((rawOfList [(77, 400, 400)]).TouchId 0) 5
      (uiX cfg800 (rawOfList [(77, 400, 400)]) 0) (uiY cfg800 (rawOfList [(77, 400, 400)]) 0) = -1 ∧
    sampleBody cfg800 (rawOfList [(77, 400, 400)]) 5 0 (stateFull.TouchData, fun _ => false) =
      (stateFull.TouchData, fun _ => false) ∧
    EwBspTouchGetEvents cfg800 (rawOfList [(77, 400, 400)]) 5 stateFull =
      EwBspTouchGetEvents cfg800 (clearSample (rawOfList [(77, 400, 400)]) 0) 5 stateFull :=
  have h := capacity_exhaustion cfg800 (rawOfList [(77, 400, 400)]) 5 0
    (stateFull.TouchData, fun _ => false) (by decide) (by decide)
  ⟨by decide, h.1, h.2.1, h.2.2 stateFull (by decide) rfl⟩

/-- C7 at two tables that differ in an invalid entry: touch id `-1` against
an `X` beyond the touch area. -/
theorem validity_filter_witness :
    ¬ validSample cfg800 (-1) 3 3 ∧ ¬ validSample cfg800 4 900 20 ∧
    EwBspTouchGetEvents cfg800 (rawOfList [(5, 100, 100), (-1, 3, 3)]) 10 initialState =
      EwBspTouchGetEvents cfg800 (rawOfList [(5, 100, 100), (4, 900, 20)]) 10 initialState ∧
    returnedEvents
      (EwBspTouchGetEvents cfg800 (rawOfList [(5, 100, 100), (-1, 3, 3)]) 10 initialState) =
    returnedEvents
      (EwBspTouchGetEvents cfg800 (rawOfList [(5, 100, 100), (4, 900, 20)]) 10 initialState) :=
  ⟨by decide, by decide,
   (validity_filter cfg800 (rawOfList [(5, 100, 100), (-1, 3, 3)])
    (rawOfList [(5, 100, 100), (4, 900, 20)]) 10 initialState (by decide)).2.2⟩

/-- C8 at a state with finger 3 pressed and a poll whose only valid sample
is a new finger far away: finger 3 gets Up at its stored position. -/
theorem release_emits_up_witness :
    eventsOfFinger 3
      (returnedEvents (EwBspTouchGetEvents cfg800 (rawOfList [(9, 600, 400)]) 1000
        stateIdleAndActive)) =
      [{ XPos := 300, YPos := 300, Finger := 3, State := EW_BSP_TOUCH_UP }] ∧
    (EwBspTouchGetEvents cfg800 (rawOfList [(9, 600, 400)]) 1000
      stateIdleAndActive).1.TouchData 3 =
      { XPos := 300, YPos := 300, Ticks := 150, TouchId := 7, State := EW_BSP_TOUCH_IDLE } :=
  release_emits_up cfg800 (rawOfList [(9, 600, 400)]) 1000 stateIdleAndActive 3
    (by decide) (by decide) (by decide)

/-- C10 at a state with finger 3 pressed at (300, 300) and a poll that
samples it there again: Hold, and no event for finger 3. -/
theorem hold_is_silent_witness :
    ((EwBspTouchGetEvents cfg800 (rawOfList [(-1, 0, 0), (7, 300, 300)]) 160
      stateIdleAndActive).1.TouchData 3).State = EW_BSP_TOUCH_HOLD ∧
    eventsOfFinger 3
      (returnedEvents (EwBspTouchGetEvents cfg800 (rawOfList [(-1, 0, 0), (7, 300, 300)]) 160
        stateIdleAndActive)) = [] :=
  hold_is_silent cfg800 (rawOfList [(-1, 0, 0), (7, 300, 300)]) 160 stateIdleAndActive 3 1
    (by decide) (by decide) (by decide) (by decide) (by decide) (by decide)

/-! ## Move, idle polls and the slot invariant -/

/-- C11 (move): a finger slot that is non-Idle before a poll and is assigned
exactly one sample in it, whose UI position differs from the slot's stored
position in x or y, ends the poll in state Move, and the poll returns exactly
one event for that finger, of kind Move, carrying the new UI position. -/
theorem move_emits_move (cfg : TouchConfig) (raw : RawTouch) (ticks : Nat) (st : TouchState)
    (f t0 : Nat) (ht0 : t0 < NO_OF_FINGERS)
    (hactive : (st.TouchData f).State ≠ EW_BSP_TOUCH_IDLE)
    (hassigned : assignedFinger cfg raw ticks st t0 = (f : Int))
    (honly : ∀ t, t < NO_OF_FINGERS → t ≠ t0 → assignedFinger cfg raw ticks st t ≠ (f : Int))
    (hmoved : uiX cfg raw t0 ≠ (st.TouchData f).XPos ∨ uiY cfg raw t0 ≠ (st.TouchData f).YPos) :
    ((EwBspTouchGetEvents cfg raw ticks st).1.TouchData f).State = EW_BSP_TOUCH_MOVE ∧
    eventsOfFinger f (returnedEvents (EwBspTouchGetEvents cfg raw ticks st)) =
      [{ XPos := uiX cfg raw t0, YPos := uiY cfg raw t0, Finger := f,
         State := EW_BSP_TOUCH_MOVE }] := by
  have hf : f < NO_OF_FINGERS := (assignedFinger_lt cfg raw ticks st t0 f hassigned).1
  have ho := beforeSample_once cfg raw ticks st f t0 NO_OF_FINGERS ht0 hassigned honly
  have hm : (st.TouchData f).XPos ≠ uiX cfg raw t0 ∨ (st.TouchData f).YPos ≠ uiY cfg raw t0 := by
    rcases hmoved with h | h
    · exact Or.inl (Ne.symm h)
    · exact Or.inr (Ne.symm h)
  have hst : (storedTouch cfg raw ticks t0 (st.TouchData f)).State = EW_BSP_TOUCH_MOVE := by
    simp [storedTouch, nextState, hactive, hm]
  constructor
  · rw [poll_data cfg raw ticks st f hf]
    unfold releaseOf
    rw [ho.1, ho.2]
    simp [hst]
  · rw [poll_eventsOfFinger, if_pos hf]
    unfold eventOf
    rw [ho.1, ho.2, hst]
    simp [Option.toList, storedTouch]

theorem nextState_cases (touch : XTouchData) (x y : Int) :
    nextState touch x y = EW_BSP_TOUCH_DOWN ∨ nextState touch x y = EW_BSP_TOUCH_MOVE ∨
    nextState touch x y = EW_BSP_TOUCH_HOLD := by
  unfold nextState
  split_ifs <;> simp

/-- During the sample loop an identified finger is in state Down, Move or Hold. -/
theorem beforeSample_identified_state (cfg : TouchConfig) (raw : RawTouch) (ticks : Nat)
    (st : TouchState) (n g : Nat)
    (h : (beforeSample cfg raw ticks st n).2 g = true) :
    ((beforeSample cfg raw ticks st n).1 g).State = EW_BSP_TOUCH_DOWN ∨
    ((beforeSample cfg raw ticks st n).1 g).State = EW_BSP_TOUCH_MOVE ∨
    ((beforeSample cfg raw ticks st n).1 g).State = EW_BSP_TOUCH_HOLD := by
  induction n with
  | zero => simp [beforeSample, sampleLoop] at h
  | succ n ih =>
    rw [beforeSample_succ] at h ⊢
    by_cases hf : fingerOf cfg raw ticks n (beforeSample cfg raw ticks st n) = (g : Int)
    · rw [(sampleBody_self cfg raw ticks n (beforeSample cfg raw ticks st n) g hf).1]
      exact nextState_cases _ _ _
    · have ho := sampleBody_other cfg raw ticks n (beforeSample cfg raw ticks st n) g hf
      rw [ho.2] at h
      rw [ho.1]
      exact ih h

/-- A finger is identified after `n` iterations of the sample loop exactly
when one of the first `n` samples was assigned to it. -/
theorem beforeSample_identified_iff (cfg : TouchConfig) (raw : RawTouch) (ticks : Nat)
    (st : TouchState) (n g : Nat) :
    (beforeSample cfg raw ticks st n).2 g = true ↔
      ∃ t, t < n ∧ assignedFinger cfg raw ticks st t = (g : Int) := by
  constructor
  · intro h
    by_contra hc
    have hu := beforeSample_untouched cfg raw ticks st g n
      (fun t ht hat => hc ⟨t, ht, hat⟩)
    rw [hu.2] at h
    exact Bool.noConfusion h
  · rintro ⟨t, ht, hat⟩
    exact beforeSample_assigned cfg raw ticks st t g n ht hat

/-- C17 (slot invariant): after every poll, from whatever state, a finger
slot is non-Idle if and only if at least one valid sample was assigned to it
during that poll; its stored state is Idle, Down, Move or Hold, never Up; and
a slot that was non-Idle before the poll and is Idle after it was assigned no
sample in that poll. -/
theorem slot_invariant (cfg : TouchConfig) (raw : RawTouch) (ticks : Nat) (st : TouchState)
    (f : Nat) (hf : f < NO_OF_FINGERS) :
    (((EwBspTouchGetEvents cfg raw ticks st).1.TouchData f).State ≠ EW_BSP_TOUCH_IDLE ↔
      ∃ t, t < NO_OF_FINGERS ∧ ¬ skipSample cfg raw t ∧
        assignedFinger cfg raw ticks st t = (f : Int)) ∧
    (((EwBspTouchGetEvents cfg raw ticks st).1.TouchData f).State = EW_BSP_TOUCH_IDLE ∨
      ((EwBspTouchGetEvents cfg raw ticks st).1.TouchData f).State = EW_BSP_TOUCH_DOWN ∨
      ((EwBspTouchGetEvents cfg raw ticks st).1.TouchData f).State = EW_BSP_TOUCH_MOVE ∨
      ((EwBspTouchGetEvents cfg raw ticks st).1.TouchData f).State = EW_BSP_TOUCH_HOLD) ∧
    ((EwBspTouchGetEvents cfg raw ticks st).1.TouchData f).State ≠ EW_BSP_TOUCH_UP ∧
    ((st.TouchData f).State ≠ EW_BSP_TOUCH_IDLE →
      ((EwBspTouchGetEvents cfg raw ticks st).1.TouchData f).State = EW_BSP_TOUCH_IDLE →
      ∀ t, t < NO_OF_FINGERS → assignedFinger cfg raw ticks st t ≠ (f : Int)) := by
  have hiff := beforeSample_identified_iff cfg raw ticks st NO_OF_FINGERS f
  rw [poll_data cfg raw ticks st f hf]
  by_cases hid : (beforeSample cfg raw ticks st NO_OF_FINGERS).2 f = true
  · have hstate := beforeSample_identified_state cfg raw ticks st NO_OF_FINGERS f hid
    have hrel : releaseOf (beforeSample cfg raw ticks st NO_OF_FINGERS).2
        (beforeSample cfg raw ticks st NO_OF_FINGERS).1 f =
        (beforeSample cfg raw ticks st NO_OF_FINGERS).1 f := by
      simp [releaseOf, hid]
    rw [hrel]
    obtain ⟨t, ht, hat⟩ := hiff.mp hid
    refine ⟨⟨fun _ => ⟨t, ht, (assignedFinger_lt cfg raw ticks st t f hat).2, hat⟩, ?_⟩, ?_, ?_, ?_⟩
    · intro _
      rcases hstate with h | h | h <;> rw [h] <;> decide
    · rcases hstate with h | h | h
      · exact Or.inr (Or.inl h)
      · exact Or.inr (Or.inr (Or.inl h))
      · exact Or.inr (Or.inr (Or.inr h))
    · rcases hstate with h | h | h <;> rw [h] <;> decide
    · intro _ hidle
      rcases hstate with h | h | h <;> rw [h] at hidle <;> exact absurd hidle (by decide)
  · have hnone : ∀ t, t < NO_OF_FINGERS → assignedFinger cfg raw ticks st t ≠ (f : Int) :=
      fun t ht hat => hid (hiff.mpr ⟨t, ht, hat⟩)
    have hidle : (releaseOf (beforeSample cfg raw ticks st NO_OF_FINGERS).2
        (beforeSample cfg raw ticks st NO_OF_FINGERS).1 f).State = EW_BSP_TOUCH_IDLE := by
      unfold releaseOf
      by_cases h0 : ((beforeSample cfg raw ticks st NO_OF_FINGERS).1 f).State = EW_BSP_TOUCH_IDLE
      · simp [h0]
      · simp [h0, hid]
    rw [hidle]
    refine ⟨⟨fun h => absurd rfl h, ?_⟩, Or.inl rfl, by decide, fun _ _ => hnone⟩
    rintro ⟨t, ht, _, hat⟩
    exact absurd hat (hnone t ht)

theorem emitLoop_idle (td : Nat → XTouchData) (ev : Nat → XTouchEvent) (c n : Nat)
    (h : ∀ k, k < n → (td k).State = EW_BSP_TOUCH_IDLE) :
    emitLoop (fun _ => false) (td, ev, c) n = (td, ev, c) := by
  induction n with
  | zero => rfl
  | succ n ih =>
    rw [emitLoop, ih (fun k hk => h k (by omega))]
    unfold emitBody
    simp [h n (by omega)]

/-- With no finger pressed a poll without valid sample returns the count 0
and leaves the static state as it is. -/
theorem poll_idle (cfg : TouchConfig) (raw : RawTouch) (ticks : Nat) (st : TouchState)
    (hst : allIdle st) (h : noSample cfg raw) :
    EwBspTouchGetEvents cfg raw ticks st = (st, 0) := by
  have hb := beforeSample_skipped cfg raw ticks st NO_OF_FINGERS h
  unfold beforeSample at hb
  unfold EwBspTouchGetEvents
  rw [hb]
  simp only []
  rw [emitLoop_idle st.TouchData st.TouchEvent 0 NO_OF_FINGERS hst]

theorem idle_run (cfg : TouchConfig) (polls : List (RawTouch × Nat))
    (h : ∀ q, q ∈ polls → noSample cfg q.1) :
    ∀ st, allIdle st → runEvents cfg polls st = [] ∧ runState cfg polls st = st := by
  induction polls with
  | nil => intro st _; exact ⟨rfl, rfl⟩
  | cons p ps ih =>
    intro st hst
    have hp := poll_idle cfg p.1 p.2 st hst (h p (List.mem_cons_self p ps))
    have hrest := ih (fun q hq => h q (List.mem_cons_of_mem p hq)) st hst
    unfold runEvents runState
    rw [hp]
    exact ⟨by rw [hrest.1]; rfl, hrest.2⟩

/-- C12 (idempotent Idle): a poll without valid sample on a state in which
every slot is Idle returns zero events and leaves the state unchanged, and so
does any sequence of such polls; hence for a pressed finger `f` followed by
one or more polls without valid sample, the events of `f` over the whole
sequence are a single Up at the stored position. -/
theorem idempotent_idle (cfg : TouchConfig) (p : RawTouch × Nat)
    (ps : List (RawTouch × Nat)) (st : TouchState) (f : Nat) (hf : f < NO_OF_FINGERS)
    (hpressed : (st.TouchData f).State ≠ EW_BSP_TOUCH_IDLE)
    (hno : ∀ q, q ∈ p :: ps → noSample cfg q.1) :
    (∀ raw ticks st', allIdle st' → noSample cfg raw →
      EwBspTouchGetEvents cfg raw ticks st' = (st', 0) ∧
      returnedEvents (EwBspTouchGetEvents cfg raw ticks st') = []) ∧
    (∀ polls st', allIdle st' → (∀ q, q ∈ polls → noSample cfg q.1) →
      runEvents cfg polls st' = [] ∧ runState cfg polls st' = st') ∧
    eventsOfFinger f (runEvents cfg (p :: ps) st) =
      [{ XPos := (st.TouchData f).XPos, YPos := (st.TouchData f).YPos, Finger := f,
         State := EW_BSP_TOUCH_UP }] := by
  refine ⟨?_, fun polls st' hst' hq => idle_run cfg polls hq st' hst', ?_⟩
  · intro raw ticks st' hst' hraw
    have hp := poll_idle cfg raw ticks st' hst' hraw
    refine ⟨hp, ?_⟩
    rw [hp]
    rfl
  · have hp := hno p (List.mem_cons_self p ps)
    have hidle : allIdle (EwBspTouchGetEvents cfg p.1 p.2 st).1 := by
      intro k hk
      rw [(poll_noSample cfg p.1 p.2 st hp k hk).1]
      unfold releaseOf
      by_cases h0 : (st.TouchData k).State = EW_BSP_TOUCH_IDLE
      · simp [h0]
      · simp [h0]
    have hrest := idle_run cfg ps (fun q hq => hno q (List.mem_cons_of_mem p hq)) _ hidle
    unfold runEvents
    rw [hrest.1, List.append_nil, (poll_noSample cfg p.1 p.2 st hp f hf).2]
    simp [eventOf, hpressed, Option.toList]

theorem noSample_zeroRawTouch (cfg : TouchConfig) : noSample cfg zeroRawTouch := by
  intro t _
  right; left
  exact le_refl _

/-- C16 (degrade to no touch input): with the raw table still zero in every
entry, every sequence of polls from the initial state, with whatever tick
values and configured sizes, returns no event and leaves the state as
`EwBspTouchInit` set it, every finger slot Idle. -/
theorem degrade_to_no_input (cfg : TouchConfig) (ticks : List Nat) :
    runEvents cfg (ticks.map (fun t => (zeroRawTouch, t))) initialState = [] ∧
    runState cfg (ticks.map (fun t => (zeroRawTouch, t))) initialState = initialState ∧
    allIdle (runState cfg (ticks.map (fun t => (zeroRawTouch, t))) initialState) ∧
    ∀ t, EwBspTouchGetEvents cfg zeroRawTouch t initialState = (initialState, 0) := by
  have h := idle_run cfg (ticks.map (fun t => (zeroRawTouch, t)))
    (fun q hq => by
      obtain ⟨t, _, rfl⟩ := List.mem_map.mp hq
      exact noSample_zeroRawTouch cfg) initialState allIdle_initialState
  refine ⟨h.1, h.2, ?_, ?_⟩
  · rw [h.2]; exact allIdle_initialState
  · intro t
    exact poll_idle cfg zeroRawTouch t initialState allIdle_initialState
      (noSample_zeroRawTouch cfg)

/-! ## Determinism and the coordinate transform -/

theorem poll_sameTable (cfg : TouchConfig) (raw raw' : RawTouch) (ticks : Nat)
    (st : TouchState) (h : sameTable raw raw') :
    EwBspTouchGetEvents cfg raw ticks st = EwBspTouchGetEvents cfg raw' ticks st := by
  apply poll_congr
  apply beforeSample_congr
  intro t ht
  exact sampleBody_congr cfg raw raw' ticks t _ (h t ht).1 (h t ht).2.1 (h t ht).2.2

theorem run_sameTables (cfg : TouchConfig) (ps qs : List (RawTouch × Nat))
    (h : List.Forall₂ (fun p q => sameTable p.1 q.1 ∧ p.2 = q.2) ps qs) :
    ∀ st, runEvents cfg ps st = runEvents cfg qs st ∧
      runState cfg ps st = runState cfg qs st := by
  induction h with
  | nil => intro st; exact ⟨rfl, rfl⟩
  | @cons p q ps' qs' hpq _ ih =>
    intro st
    have hp := poll_sameTable cfg p.1 q.1 p.2 st hpq.1
    unfold runEvents runState
    rw [← hpq.2, ← hp]
    exact ⟨by rw [(ih _).1], (ih _).2⟩

theorem activeMatch_alike (d d' : XTouchData) (id : Int) (h : sameSlot d d') :
    activeMatch d id ↔ activeMatch d' id := by
  unfold activeMatch
  rw [h.2.2.1, h.2.2.2]

theorem debounceMatch_alike (hist : List (Nat × Nat)) (c : Nat × Nat) (d d' : XTouchData)
    (x y : Int) (h : slotAlike hist c d d')
    (ht : ∀ p, p ∈ hist → (recentlyUsed c.1 p.1 ↔ recentlyUsed c.2 p.2)) :
    debounceMatch d c.1 x y ↔ debounceMatch d' c.2 x y := by
  obtain ⟨⟨h1, h2, _, h4⟩, h5⟩ := h
  unfold debounceMatch
  rw [h1, h2, h4]
  rcases h5 with hm | ⟨hn, _, _⟩
  · have hiff := ht (d.Ticks, d'.Ticks) hm
    unfold recentlyUsed at hiff
    constructor
    · rintro ⟨a, b, r⟩
      exact ⟨a, hiff.mp b, r⟩
    · rintro ⟨a, b, r⟩
      exact ⟨a, hiff.mpr b, r⟩
  · rw [h4] at hn
    constructor <;> (intro hh; exact absurd hh.1 hn)

/-- The finger loop gives the same finger on two tables whose slots pass the
same tests. -/
theorem fingerLoop_alike (td td' : Nat → XTouchData) (id : Int) (c c' : Nat) (x y : Int)
    (hA : ∀ f, activeMatch (td f) id ↔ activeMatch (td' f) id)
    (hD : ∀ f, debounceMatch (td f) c x y ↔ debounceMatch (td' f) c' x y)
    (hI : ∀ f, (td f).State = (td' f).State) :
    ∀ n f finger,
      fingerLoop td id c x y n f finger = fingerLoop td' id c' x y n f finger := by
  intro n
  induction n with
  | zero => intro f finger; rfl
  | succ n ih =>
    intro f finger
    simp only [fingerLoop, hA f, hD f, hI f, ih]

theorem nextState_alike (d d' : XTouchData) (x y : Int) (h : sameSlot d d') :
    nextState d x y = nextState d' x y := by
  unfold nextState
  rw [h.1, h.2.1, h.2.2.2]

/-- One sample keeps the slots of two runs alike. -/
theorem sampleBody_alike (cfg : TouchConfig) (raw : RawTouch) (hist : List (Nat × Nat))
    (c : Nat × Nat) (t : Nat) (s s' : (Nat → XTouchData) × (Nat → Bool))
    (ht : ∀ p, p ∈ hist → (recentlyUsed c.1 p.1 ↔ recentlyUsed c.2 p.2))
    (hid : s.2 = s'.2) (hs : ∀ f, slotAlike hist c (s.1 f) (s'.1 f)) :
    (sampleBody cfg raw c.1 t s).2 = (sampleBody cfg raw c.2 t s').2 ∧
    ∀ f, slotAlike hist c ((sampleBody cfg raw c.1 t s).1 f)
      ((sampleBody cfg raw c.2 t s').1 f) := by
  have hfind : findFinger s.1 (raw.TouchId t) c.1 (uiX cfg raw t) (uiY cfg raw t) =
      findFinger s'.1 (raw.TouchId t) c.2 (uiX cfg raw t) (uiY cfg raw t) :=
    fingerLoop_alike s.1 s'.1 (raw.TouchId t) c.1 c.2 (uiX cfg raw t) (uiY cfg raw t)
      (fun f => activeMatch_alike _ _ _ (hs f).1)
      (fun f => debounceMatch_alike hist c _ _ _ _ (hs f) ht)
      (fun f => (hs f).1.2.2.2) NO_OF_FINGERS 0 (-1)
  unfold sampleBody
  by_cases hskip : skipSample cfg raw t
  · rw [if_pos hskip, if_pos hskip]
    exact ⟨hid, hs⟩
  · rw [if_neg hskip, if_neg hskip, hfind]
    unfold assignFinger
    by_cases hg : findFinger s'.1 (raw.TouchId t) c.2 (uiX cfg raw t) (uiY cfg raw t) ≥ 0
    · rw [if_pos hg, if_pos hg]
      refine ⟨?_, ?_⟩
      · show Function.update s.2 _ true = Function.update s'.2 _ true
        rw [hid]
      · intro f
        show slotAlike hist c (Function.update s.1 _ _ f) (Function.update s'.1 _ _ f)
        by_cases hf : f =
            (findFinger s'.1 (raw.TouchId t) c.2 (uiX cfg raw t) (uiY cfg raw t)).toNat
        · rw [hf, Function.update_same, Function.update_same]
          refine ⟨⟨rfl, rfl, rfl, nextState_alike _ _ _ _ (hs _).1⟩, Or.inr ⟨?_, rfl, rfl⟩⟩
          exact nextState_ne_idle _ _ _
        · rw [Function.update_noteq hf, Function.update_noteq hf]
          exact hs f
    · rw [if_neg hg, if_neg hg]
      exact ⟨hid, hs⟩

theorem sampleLoop_alike (cfg : TouchConfig) (raw : RawTouch) (hist : List (Nat × Nat))
    (c : Nat × Nat) (s s' : (Nat → XTouchData) × (Nat → Bool))
    (ht : ∀ p, p ∈ hist → (recentlyUsed c.1 p.1 ↔ recentlyUsed c.2 p.2))
    (hid : s.2 = s'.2) (hs : ∀ f, slotAlike hist c (s.1 f) (s'.1 f)) (n : Nat) :
    (sampleLoop cfg raw c.1 s n).2 = (sampleLoop cfg raw c.2 s' n).2 ∧
    ∀ f, slotAlike hist c ((sampleLoop cfg raw c.1 s n).1 f)
      ((sampleLoop cfg raw c.2 s' n).1 f) := by
  induction n with
  | zero => exact ⟨hid, hs⟩
  | succ n ih =>
    exact sampleBody_alike cfg raw hist c n _ _ ht ih.1 ih.2

theorem eventOf_alike (identified : Nat → Bool) (td td' : Nat → XTouchData) (f : Nat)
    (h : sameSlot (td f) (td' f)) : eventOf identified td f = eventOf identified td' f := by
  unfold eventOf
  rw [h.1, h.2.1, h.2.2.2]

/-- The slots after a poll, also those past the finger slots. -/
theorem poll_data_all (cfg : TouchConfig) (raw : RawTouch) (ticks : Nat) (st : TouchState)
    (g : Nat) :
    (EwBspTouchGetEvents cfg raw ticks st).1.TouchData g =
      if g < NO_OF_FINGERS then
        releaseOf (beforeSample cfg raw ticks st NO_OF_FINGERS).2
          (beforeSample cfg raw ticks st NO_OF_FINGERS).1 g
      else (beforeSample cfg raw ticks st NO_OF_FINGERS).1 g := by
  have h := emitLoop_data (beforeSample cfg raw ticks st NO_OF_FINGERS).2
    ((beforeSample cfg raw ticks st NO_OF_FINGERS).1, st.TouchEvent, 0) NO_OF_FINGERS g
  exact h

/-- One poll on two states that are alike but for tick values, with tick
values that pass the same time tests: the same events are returned, and the
states are alike again. -/
theorem poll_alike (cfg : TouchConfig) (raw : RawTouch) (hist : List (Nat × Nat))
    (c : Nat × Nat) (st st' : TouchState)
    (ht : ∀ p, p ∈ hist → (recentlyUsed c.1 p.1 ↔ recentlyUsed c.2 p.2))
    (hs : ∀ f, sameSlot (st.TouchData f) (st'.TouchData f) ∧
      ((st.TouchData f).Ticks, (st'.TouchData f).Ticks) ∈ hist) :
    returnedEvents (EwBspTouchGetEvents cfg raw c.1 st) =
      returnedEvents (EwBspTouchGetEvents cfg raw c.2 st') ∧
    ∀ f, sameSlot ((EwBspTouchGetEvents cfg raw c.1 st).1.TouchData f)
        ((EwBspTouchGetEvents cfg raw c.2 st').1.TouchData f) ∧
      (((EwBspTouchGetEvents cfg raw c.1 st).1.TouchData f).Ticks,
        ((EwBspTouchGetEvents cfg raw c.2 st').1.TouchData f).Ticks) ∈ c :: hist := by
  have hl := sampleLoop_alike cfg raw hist c (st.TouchData, fun _ => false)
    (st'.TouchData, fun _ => false) ht rfl (fun f => ⟨(hs f).1, Or.inl (hs f).2⟩) NO_OF_FINGERS
  have hl2 : (beforeSample cfg raw c.1 st NO_OF_FINGERS).2 =
      (beforeSample cfg raw c.2 st' NO_OF_FINGERS).2 := by
    unfold beforeSample
    exact hl.1
  have hl1 : ∀ f, slotAlike hist c ((beforeSample cfg raw c.1 st NO_OF_FINGERS).1 f)
      ((beforeSample cfg raw c.2 st' NO_OF_FINGERS).1 f) := by
    unfold beforeSample
    exact hl.2
  refine ⟨?_, ?_⟩
  · have hfun : eventOf (beforeSample cfg raw c.2 st' NO_OF_FINGERS).2
        (beforeSample cfg raw c.1 st NO_OF_FINGERS).1 =
        eventOf (beforeSample cfg raw c.2 st' NO_OF_FINGERS).2
          (beforeSample cfg raw c.2 st' NO_OF_FINGERS).1 :=
      funext fun f => eventOf_alike _ _ _ f (hl1 f).1
    rw [poll_events, poll_events, hl2, hfun]
  · intro f
    have hd := poll_data_all cfg raw c.1 st f
    have hd' := poll_data_all cfg raw c.2 st' f
    rw [hd, hd', hl2]
    obtain ⟨⟨h1, h2, h3, h4⟩, h5⟩ := hl1 f
    have hmem : (((beforeSample cfg raw c.1 st NO_OF_FINGERS).1 f).Ticks,
        ((beforeSample cfg raw c.2 st' NO_OF_FINGERS).1 f).Ticks) ∈ c :: hist := by
      rcases h5 with hm | ⟨_, ha, hb⟩
      · exact List.mem_cons_of_mem _ hm
      · rw [ha, hb]
        exact List.mem_cons_self _ _
    unfold releaseOf
    rw [h4]
    split_ifs
    · exact ⟨⟨h1, h2, h3, rfl⟩, hmem⟩
    · exact ⟨⟨h1, h2, h3, h4⟩, hmem⟩
    · exact ⟨⟨h1, h2, h3, h4⟩, hmem⟩

/-- Two runs fed the same tables whose tick values pass the same time tests
return the same events, from states that are alike but for tick values. -/
theorem run_alike (cfg : TouchConfig) (ps qs : List (RawTouch × Nat))
    (htab : List.Forall₂ (fun p q => sameTable p.1 q.1) ps qs) :
    ∀ (hist : List (Nat × Nat)) (st st' : TouchState),
      sameTimeTests hist (List.zip (ps.map Prod.snd) (qs.map Prod.snd)) →
      (∀ f, sameSlot (st.TouchData f) (st'.TouchData f) ∧
        ((st.TouchData f).Ticks, (st'.TouchData f).Ticks) ∈ hist) →
      runEvents cfg ps st = runEvents cfg qs st' := by
  induction htab with
  | nil => intro hist st st' _ _; rfl
  | @cons p q ps' qs' hpq _ ih =>
    intro hist st st' htime hs
    have htime' : (∀ r, r ∈ hist → (recentlyUsed p.2 r.1 ↔ recentlyUsed q.2 r.2)) ∧
        sameTimeTests ((p.2, q.2) :: hist)
          (List.zip (ps'.map Prod.snd) (qs'.map Prod.snd)) := htime
    have hq : EwBspTouchGetEvents cfg q.1 q.2 st' = EwBspTouchGetEvents cfg p.1 q.2 st' :=
      (poll_sameTable cfg p.1 q.1 q.2 st' hpq).symm
    have hp := poll_alike cfg p.1 hist (p.2, q.2) st st' htime'.1 hs
    unfold runEvents
    rw [hq]
    rw [ih ((p.2, q.2) :: hist) _ (EwBspTouchGetEvents cfg p.1 q.2 st').1 htime'.2 hp.2]
    rw [show returnedEvents (EwBspTouchGetEvents cfg p.1 p.2 st) =
      returnedEvents (EwBspTouchGetEvents cfg p.1 q.2 st') from hp.1]

theorem forall2_sameTicks (ps qs : List (RawTouch × Nat))
    (htab : List.Forall₂ (fun p q => sameTable p.1 q.1) ps qs) :
    ps.map Prod.snd = qs.map Prod.snd →
    List.Forall₂ (fun p q => sameTable p.1 q.1 ∧ p.2 = q.2) ps qs := by
  induction htab with
  | nil => intro _; exact List.Forall₂.nil
  | @cons p q ps' qs' hpq _ ih =>
    intro h
    simp only [List.map_cons, List.cons.injEq] at h
    exact List.Forall₂.cons ⟨hpq, h.1⟩ (ih h.2)

/-- C13, as stated, fails: two runs from the initial state are fed the same
three raw tables (two fingers pressed at (100, 100) and (300, 300), both
released, one finger pressed at (305, 300)); with the third poll at tick 1200,
within the debounce time of the release, the last sample goes to finger 1,
with the third poll at tick 2000 it goes to finger 0. -/
theorem determinism_counterexample :
    runEvents cfg800
      [(rawOfList [(5, 100, 100), (6, 300, 300)], 1000), (rawOfList [], 1050),
       (rawOfList [(7, 305, 300)], 1200)] initialState =
      [{ XPos := 100, YPos := 100, Finger := 0, State := EW_BSP_TOUCH_DOWN },
       { XPos := 300, YPos := 300, Finger := 1, State := EW_BSP_TOUCH_DOWN },
       { XPos := 100, YPos := 100, Finger := 0, State := EW_BSP_TOUCH_UP },
       { XPos := 300, YPos := 300, Finger := 1, State := EW_BSP_TOUCH_UP },
       { XPos := 305, YPos := 300, Finger := 1, State := EW_BSP_TOUCH_DOWN }] ∧
    runEvents cfg800
      [(rawOfList [(5, 100, 100), (6, 300, 300)], 1000), (rawOfList [], 1050),
       (rawOfList [(7, 305, 300)], 2000)] initialState =
      [{ XPos := 100, YPos := 100, Finger := 0, State := EW_BSP_TOUCH_DOWN },
       { XPos := 300, YPos := 300, Finger := 1, State := EW_BSP_TOUCH_DOWN },
       { XPos := 100, YPos := 100, Finger := 0, State := EW_BSP_TOUCH_UP },
       { XPos := 300, YPos := 300, Finger := 1, State := EW_BSP_TOUCH_UP },
       { XPos := 305, YPos := 300, Finger := 0, State := EW_BSP_TOUCH_DOWN }] := by
  decide

/-- C13, amended (determinism): the sequence of returned events is a function
of the sequence of raw-sample tables and of the tick values read at the
polls, and the tick values enter through the time test of the debounce
condition only.  Two runs from the initial state that are fed the same ten
samples at every poll return the same sequence of events whenever their tick
values, which may differ, give every time test the same outcome, each poll
against the start and against every poll before it; in particular when the
tick values are the same at every poll, and then the runs end in the same
state as well. -/
theorem determinism (cfg : TouchConfig) (ps qs : List (RawTouch × Nat))
    (htab : List.Forall₂ (fun p q => sameTable p.1 q.1) ps qs) :
    (sameTimeTests [(0, 0)] (List.zip (ps.map Prod.snd) (qs.map Prod.snd)) →
      runEvents cfg ps initialState = runEvents cfg qs initialState) ∧
    (ps.map Prod.snd = qs.map Prod.snd →
      runEvents cfg ps initialState = runEvents cfg qs initialState ∧
      runState cfg ps initialState = runState cfg qs initialState) := by
  refine ⟨?_, ?_⟩
  · intro htime
    exact run_alike cfg ps qs htab [(0, 0)] initialState initialState htime
      (fun _ => ⟨⟨rfl, rfl, rfl, rfl⟩, List.mem_singleton.mpr rfl⟩)
  · intro hticks
    exact run_sameTables cfg ps qs (forall2_sameTicks ps qs htab hticks) initialState

/-- C13, amended, at the tables of the counterexample polled at the ticks
1000, 1050, 1200 and at the ticks 1010, 1070, 1300: the third poll lies
within the debounce time of the release in both runs, and both return the
same events. -/
theorem determinism_witness :
    sameTimeTests [(0, 0)] [(1000, 1010), (1050, 1070), (1200, 1300)] ∧
    runEvents cfg800
      [(rawOfList [(5, 100, 100), (6, 300, 300)], 1000), (rawOfList [], 1050),
       (rawOfList [(7, 305, 300)], 1200)] initialState =
    runEvents cfg800
      [(rawOfList [(5, 100, 100), (6, 300, 300)], 1010), (rawOfList [], 1070),
       (rawOfList [(7, 305, 300)], 1300)] initialState :=
  ⟨by decide,
   (determinism cfg800
      [(rawOfList [(5, 100, 100), (6, 300, 300)], 1000), (rawOfList [], 1050),
       (rawOfList [(7, 305, 300)], 1200)]
      [(rawOfList [(5, 100, 100), (6, 300, 300)], 1010), (rawOfList [], 1070),
       (rawOfList [(7, 305, 300)], 1300)]
      (List.Forall₂.cons (by decide)
        (List.Forall₂.cons (by decide)
          (List.Forall₂.cons (by decide) List.Forall₂.nil)))).1 (by decide)⟩

theorem wrapInt_of_inIntRange (z : Int) (h : inIntRange z) : wrapInt z = z := by
  unfold wrapInt
  unfold inIntRange at h
  omega

/-- Without overflow the computed position is the exact quotient of the
branch taken. -/
theorem ui_exact (cfg : TouchConfig) (raw : RawTouch) (t : Nat) (hfit : noOverflow cfg raw t) :
    uiX cfg raw t =
      (if cfg.EW_ROTATION = 90 then
        (raw.TouchY t * cfg.GuiSizeWidth).tdiv cfg.TouchAreaHeight
      else if cfg.EW_ROTATION = 270 then
        ((cfg.TouchAreaHeight - raw.TouchY t) * cfg.GuiSizeWidth).tdiv cfg.TouchAreaHeight
      else if cfg.EW_ROTATION = 180 then
        ((cfg.TouchAreaWidth - raw.TouchX t) * cfg.GuiSizeWidth).tdiv cfg.TouchAreaWidth
      else (raw.TouchX t * cfg.GuiSizeWidth).tdiv cfg.TouchAreaWidth) ∧
    uiY cfg raw t =
      (if cfg.EW_ROTATION = 90 then
        ((cfg.TouchAreaWidth - raw.TouchX t) * cfg.GuiSizeHeight).tdiv cfg.TouchAreaWidth
      else if cfg.EW_ROTATION = 270 then
        (raw.TouchX t * cfg.GuiSizeHeight).tdiv cfg.TouchAreaWidth
      else if cfg.EW_ROTATION = 180 then
        ((cfg.TouchAreaHeight - raw.TouchY t) * cfg.GuiSizeHeight).tdiv cfg.TouchAreaHeight
      else (raw.TouchY t * cfg.GuiSizeHeight).tdiv cfg.TouchAreaHeight) := by
  unfold noOverflow at hfit
  unfold uiX uiY
  split_ifs at hfit ⊢ <;>
    rw [wrapInt_of_inIntRange _ hfit.1, wrapInt_of_inIntRange _ hfit.2] <;> exact ⟨rfl, rfl⟩

/-- C15, as stated, fails where a product of the transform leaves the range
of `int`: on a touch area 4000000 wide with the 800 x 480 UI the valid raw
sample (3000000, 60) has the position (600, 60) by the formula, and the poll
computes, stores and reports (-473, 60); with equal UI and touch sizes
50000 x 50000 the valid raw sample (50000, 50000) is not left unchanged but
becomes (-35899, -35899). -/
theorem coordinate_transform_counterexample :
    ¬ skipSample cfgWide (rawOfList [(1, 3000000, 60)]) 0 ∧
    specTransform 0 800 480 4000000 480 3000000 60 = (600, 60) ∧
    (uiX cfgWide (rawOfList [(1, 3000000, 60)]) 0,
      uiY cfgWide (rawOfList [(1, 3000000, 60)]) 0) = (-473, 60) ∧
    returnedEvents (EwBspTouchGetEvents cfgWide (rawOfList [(1, 3000000, 60)]) 1000
      initialState) =
      [{ XPos := -473, YPos := 60, Finger := 0, State := EW_BSP_TOUCH_DOWN }] ∧
    ¬ skipSample cfgSquare (rawOfList [(1, 50000, 50000)]) 0 ∧
    (uiX cfgSquare (rawOfList [(1, 50000, 50000)]) 0,
      uiY cfgSquare (rawOfList [(1, 50000, 50000)]) 0) = (-35899, -35899) := by
  decide

/-- C15, amended (coordinate transform): for rotation 0, 90, 180 and 270 and
a valid raw sample for which the two products of the transform lie in the
range of `int`, the UI position computed is the one of the specification's
formulas, it is the position stored in the slot the sample is assigned to,
and with equal UI and touch sizes rotation 0 leaves the coordinates unchanged. -/
theorem coordinate_transform (cfg : TouchConfig) (raw : RawTouch) (ticks : Nat) (t : Nat)
    (s : (Nat → XTouchData) × (Nat → Bool))
    (hv : ¬ skipSample cfg raw t)
    (hrot : cfg.EW_ROTATION = 0 ∨ cfg.EW_ROTATION = 90 ∨ cfg.EW_ROTATION = 180 ∨
      cfg.EW_ROTATION = 270)
    (hfit : noOverflow cfg raw t) :
    (uiX cfg raw t, uiY cfg raw t) =
      specTransform cfg.EW_ROTATION cfg.GuiSizeWidth cfg.GuiSizeHeight cfg.TouchAreaWidth
        cfg.TouchAreaHeight (raw.TouchX t) (raw.TouchY t) ∧
    (∀ g : Nat, findFinger s.1 (raw.TouchId t) ticks (uiX cfg raw t) (uiY cfg raw t) = (g : Int) →
      (((sampleBody cfg raw ticks t s).1 g).XPos, ((sampleBody cfg raw ticks t s).1 g).YPos) =
        specTransform cfg.EW_ROTATION cfg.GuiSizeWidth cfg.GuiSizeHeight cfg.TouchAreaWidth
          cfg.TouchAreaHeight (raw.TouchX t) (raw.TouchY t)) ∧
    (cfg.EW_ROTATION = 0 → cfg.GuiSizeWidth = cfg.TouchAreaWidth →
      cfg.GuiSizeHeight = cfg.TouchAreaHeight →
      uiX cfg raw t = raw.TouchX t ∧ uiY cfg raw t = raw.TouchY t) := by
  have hex := ui_exact cfg raw t hfit
  have hspec : (uiX cfg raw t, uiY cfg raw t) =
      specTransform cfg.EW_ROTATION cfg.GuiSizeWidth cfg.GuiSizeHeight cfg.TouchAreaWidth
        cfg.TouchAreaHeight (raw.TouchX t) (raw.TouchY t) := by
    rw [hex.1, hex.2]
    unfold specTransform
    rcases hrot with h | h | h | h <;> simp [h]
  refine ⟨hspec, ?_, ?_⟩
  · intro g hg
    have hfo : fingerOf cfg raw ticks t s = (g : Int) := by
      unfold fingerOf; rw [if_neg hv]; exact hg
    rw [(sampleBody_self cfg raw ticks t s g hfo).1, ← hspec]
    rfl
  · intro h0 hw hh
    have hval := (skipSample_iff cfg raw t).mp hv
    obtain ⟨_, ⟨hx1, hx2⟩, ⟨hy1, hy2⟩⟩ := hval
    have hw0 : cfg.TouchAreaWidth ≠ 0 := by omega
    have hh0 : cfg.TouchAreaHeight ≠ 0 := by omega
    rw [hex.1, hex.2]
    simp only [h0, hw, hh]
    exact ⟨Int.mul_tdiv_cancel _ hw0, Int.mul_tdiv_cancel _ hh0⟩

/-- C15 at the raw sample (100, 60) on the 800 x 480 configuration, rotation 0. -/
theorem coordinate_transform_witness :
    (uiX cfg800 (rawOfList [(3, 100, 60)]) 0, uiY cfg800 (rawOfList [(3, 100, 60)]) 0) =
      specTransform 0 800 480 800 480 100 60 ∧
    uiX cfg800 (rawOfList [(3, 100, 60)]) 0 = 100 ∧
    uiY cfg800 (rawOfList [(3, 100, 60)]) 0 = 60 :=
  have h := coordinate_transform cfg800 (rawOfList [(3, 100, 60)]) 0 0
    (initialState.TouchData, fun _ => false) (by decide) (Or.inl rfl) (by decide)
  ⟨h.1, h.2.2 rfl rfl rfl⟩

/-- With no finger pressed, a poll with a single valid sample returns one
event only: the Down of the finger the sample is assigned to. -/
theorem idle_single_events (cfg : TouchConfig) (raw : RawTouch) (ticks : Nat) (st : TouchState)
    (b f : Nat) (hst : allIdle st) (h : singleSample cfg raw b)
    (hass : assignedFinger cfg raw ticks st b = (f : Int)) :
    returnedEvents (EwBspTouchGetEvents cfg raw ticks st) =
      [{ XPos := uiX cfg raw b, YPos := uiY cfg raw b, Finger := f,
         State := EW_BSP_TOUCH_DOWN }] := by
  have hf := (assignedFinger_lt cfg raw ticks st b f hass).1
  have hd := assigned_idle_down cfg raw ticks st b f h hass (hst f hf)
  have hfe := poll_eventsOfFinger cfg raw ticks st f
  rw [if_pos hf, hd.1] at hfe
  rw [poll_events, filterMap_range_single _ f NO_OF_FINGERS hf, ← hfe]
  intro k hk hkf
  have hu := beforeSample_untouched cfg raw ticks st k NO_OF_FINGERS (by
    intro t ht
    by_cases hta : t = b
    · subst hta; rw [hass]; omega
    · rw [assignedFinger_skip cfg raw ticks st t (h.2.2 t ht hta)]; omega)
  unfold eventOf
  rw [hu.1, hu.2]
  simp [hst k hk]

/-- C14, as stated, fails: with touchable area 480 x 800, UI size 800 x 480
and rotation 90, a poll from the initial state whose raw table holds the point
(0, 0) with a valid touch id returns no event: the sample is skipped, although
the transform would map it to (0, 480). -/
theorem rotation_example_counterexample :
    skipSample cfgRot90 (rawOfList [(1, 0, 0)]) 0 ∧
    (uiX cfgRot90 (rawOfList [(1, 0, 0)]) 0, uiY cfgRot90 (rawOfList [(1, 0, 0)]) 0) = (0, 480) ∧
    returnedEvents (EwBspTouchGetEvents cfgRot90 (rawOfList [(1, 0, 0)]) 0 initialState) = [] := by
  decide

/-- C14, amended (rotation example): with touchable area 480 x 800, UI size
800 x 480 and rotation 90, a poll from the initial state whose only sample is
the raw point (480, 800) with a valid touch id returns one event, a Down at
the UI corner (800, 0); the raw point (0, 0), which the transform maps to the
corner (0, 480), is rejected by the validity filter and gives no event. -/
theorem rotation_example (id : Int) (ticks : Nat) (hid : id ≥ 0) :
    returnedEvents
      (EwBspTouchGetEvents cfgRot90 (rawOfList [(id, 480, 800)]) ticks initialState) =
      [{ XPos := 800, YPos := 0, Finger := 0, State := EW_BSP_TOUCH_DOWN }] ∧
    (uiX cfgRot90 (rawOfList [(id, 0, 0)]) 0, uiY cfgRot90 (rawOfList [(id, 0, 0)]) 0) =
      (0, 480) ∧
    returnedEvents
      (EwBspTouchGetEvents cfgRot90 (rawOfList [(id, 0, 0)]) ticks initialState) = [] := by
  have hsingle : singleSample cfgRot90 (rawOfList [(id, 480, 800)]) 0 := by
    refine ⟨by decide, ?_, ?_⟩
    · intro hs
      rcases hs with h | h | h | h | h
      · have : id < 0 := h
        omega
      · have : (480 : Int) ≤ 0 := h
        omega
      · have : (480 : Int) > 480 := h
        omega
      · have : (800 : Int) ≤ 0 := h
        omega
      · have : (800 : Int) > 800 := h
        omega
    · intro t _ ht
      left
      obtain ⟨u, rfl⟩ : ∃ u, t = u + 1 := ⟨t - 1, by omega⟩
      show (-1 : Int) < 0
      decide
  have hx : uiX cfgRot90 (rawOfList [(id, 480, 800)]) 0 = 800 := rfl
  have hy : uiY cfgRot90 (rawOfList [(id, 480, 800)]) 0 = 0 := rfl
  have hass : assignedFinger cfgRot90 (rawOfList [(id, 480, 800)]) ticks initialState 0 =
      ((0 : Nat) : Int) := by
    rw [assignedFinger_single _ _ _ _ _ hsingle, hx, hy]
    apply fingerLoop_firstFree initialState.TouchData _ ticks 800 0 NO_OF_FINGERS 0 0
      (le_refl 0) (by decide)
    · intro k _ _
      constructor
      · intro ha; exact ha.1 rfl
      · intro hd
        have : (800 : Int) < 0 + 16 := hd.2.2.2.1
        omega
    · rfl
    · intro k _ hk; omega
  have hnone : noSample cfgRot90 (rawOfList [(id, 0, 0)]) := by
    intro t _
    rcases t with _ | u
    · right; left
      show (0 : Int) ≤ 0
      exact le_refl 0
    · left
      show (-1 : Int) < 0
      decide
  refine ⟨?_, rfl, ?_⟩
  · rw [idle_single_events cfgRot90 _ ticks initialState 0 0 allIdle_initialState hsingle hass,
      hx, hy]
    rfl
  · rw [poll_idle cfgRot90 _ ticks initialState allIdle_initialState hnone]
    rfl

/-- C14 at touch id 1 and tick 0. -/
theorem rotation_example_witness :
    returnedEvents
      (EwBspTouchGetEvents cfgRot90 (rawOfList [(1, 480, 800)]) 0 initialState) =
      [{ XPos := 800, YPos := 0, Finger := 0, State := EW_BSP_TOUCH_DOWN }] ∧
    returnedEvents
      (EwBspTouchGetEvents cfgRot90 (rawOfList [(1, 0, 0)]) 0 initialState) = [] :=
  have h := rotation_example 1 0 (by decide)
  ⟨h.1, h.2.2⟩

/-! ## The presentation pipeline -/

/-- The function `DrmGetFb` leaves `GbmBuffer` and the locked buffers as they
are and releases nothing. -/
theorem DrmGetFb_frame (addRet : Int) (addFbId : Nat) (bo : Nat) (s : DrmState) :
    (DrmGetFb addRet addFbId bo s).2.GbmBuffer = s.GbmBuffer ∧
    (DrmGetFb addRet addFbId bo s).2.locked = s.locked ∧
    ∃ cs, (DrmGetFb addRet addFbId bo s).2.calls = s.calls ++ cs ∧
      (∀ b, DrmCall.releaseBuffer b ∉ cs) ∧ (∀ d, DrmCall.handleEvent d ∉ cs) := by
  unfold DrmGetFb
  by_cases h1 : s.userData bo ≠ 0
  · rw [if_pos h1]
    exact ⟨rfl, rfl, [], by simp, by simp, by simp⟩
  · rw [if_neg h1]
    by_cases h2 : addRet ≠ 0
    · rw [if_pos h2]
      exact ⟨rfl, rfl, [DrmCall.addFB2 bo addRet addFbId], rfl, by simp, by simp⟩
    · rw [if_neg h2]
      exact ⟨rfl, rfl, [DrmCall.addFB2 bo addRet addFbId], rfl, by simp, by simp⟩

/-- The state in which the wait loop is entered. -/
theorem submitted_frame (env : SwapEnv) (s : DrmState) :
    (submitted env s).GbmBuffer = s.GbmBuffer ∧
    (submitted env s).locked = env.next_bo :: s.locked ∧
    ∃ cs, (submitted env s).calls = s.calls ++ cs ∧
      (∀ b, DrmCall.releaseBuffer b ∉ cs) ∧ (∀ d, DrmCall.handleEvent d ∉ cs) := by
  obtain ⟨h1, h2, cs, h3, h4, h5⟩ :=
    DrmGetFb_frame env.addRet env.addFbId env.next_bo (afterLock env s)
  refine ⟨h1, h2, [DrmCall.lockFrontBuffer env.next_bo] ++ cs ++
    [DrmCall.pageFlip (swapHandle env s) env.flipRet], ?_, ?_, ?_⟩
  · show (DrmGetFb env.addRet env.addFbId env.next_bo (afterLock env s)).2.calls ++ _ = _
    rw [h3]
    simp [afterLock]
  · intro b hb
    simp at hb
    exact h4 b hb
  · intro d hd
    simp at hd
    exact h5 d hd

/-- After handle acquisition and submission succeeded, `DrmEglSwapBuffers`
returns when the wait loop is left, and then releases and pins. -/
theorem swap_after_wait (env : SwapEnv) (s : DrmState) (w : Int × List DrmCall)
    (hfb : swapHandle env s ≠ 0) (hflip : env.flipRet = 0)
    (hw : waitLoop env.selects 1 (submitted env s).calls = some w) :
    DrmEglSwapBuffers env s =
      some (releaseAndPin env.next_bo { submitted env s with calls := w.2 }) := by
  unfold DrmEglSwapBuffers
  have h1 : ¬ (DrmGetFb env.addRet env.addFbId env.next_bo (afterLock env s)).1 = 0 := hfb
  have h2 : ¬ env.flipRet ≠ 0 := by simp [hflip]
  simp only [h1, if_false, h2]
  have hw' : waitLoop env.selects 1
      ((DrmGetFb env.addRet env.addFbId env.next_bo (afterLock env s)).2.calls ++
        [DrmCall.pageFlip (DrmGetFb env.addRet env.addFbId env.next_bo (afterLock env s)).1
          env.flipRet]) = some w := hw
  rw [hw']
  rfl

/-- A wait loop that sees the confirmation is left with `waiting_for_flip`
cleared, after a dispatched page-flip event and without releasing a buffer. -/
theorem waitLoop_confirmed (sel : List SelectResult) (h : flipConfirmed sel = true) :
    ∀ calls, ∃ cs, waitLoop sel 1 calls = some (0, calls ++ cs) ∧
      DrmCall.handleEvent true ∈ cs ∧ (∀ b, DrmCall.releaseBuffer b ∉ cs) ∧
      (∀ r, DrmCall.select r ∈ cs → 0 < r) := by
  induction sel with
  | nil => simp [flipConfirmed] at h
  | cons r rs ih =>
    intro calls
    unfold flipConfirmed at h
    by_cases h1 : r.ret ≤ 0
    · simp [h1] at h
    · rw [if_neg h1] at h
      by_cases h2 : r.drmReadable = true ∧ r.flipHandled = true
      · refine ⟨[DrmCall.select r.ret, DrmCall.handleEvent r.flipHandled], ?_, ?_, ?_, ?_⟩
        · unfold waitLoop
          simp only [one_ne_zero, if_false, h1, h2.1, h2.2, if_true]
          cases rs <;> simp [waitLoop]
        · simp [h2.2]
        · simp
        · intro q hq
          simp at hq
          omega
      · rw [if_neg h2] at h
        by_cases h3 : r.drmReadable = true
        · have h4 : r.flipHandled = false := by
            cases hfh : r.flipHandled
            · rfl
            · exact absurd ⟨h3, hfh⟩ h2
          obtain ⟨cs, hc1, hc2, hc3, hc4⟩ :=
            ih h (calls ++ [DrmCall.select r.ret, DrmCall.handleEvent r.flipHandled])
          refine ⟨[DrmCall.select r.ret, DrmCall.handleEvent r.flipHandled] ++ cs,
            ?_, ?_, ?_, ?_⟩
          · unfold waitLoop
            simp only [one_ne_zero, if_false, h1, h3, if_true, h4]
            rw [h4] at hc1
            simp only [Bool.false_eq_true, if_false]
            rw [hc1, List.append_assoc]
          · exact List.mem_append_right _ hc2
          · intro b hb
            simp at hb
            exact hc3 b hb
          · intro q hq
            simp at hq
            rcases hq with hq | hq
            · omega
            · exact hc4 q hq
        · obtain ⟨cs, hc1, hc2, hc3, hc4⟩ := ih h (calls ++ [DrmCall.select r.ret])
          refine ⟨[DrmCall.select r.ret] ++ cs, ?_, ?_, ?_, ?_⟩
          · unfold waitLoop
            simp only [one_ne_zero, if_false, h1, h3]
            rw [hc1, List.append_assoc]
            simp
          · exact List.mem_append_right _ hc2
          · intro b hb
            simp at hb
            exact hc3 b hb
          · intro q hq
            simp at hq
            rcases hq with hq | hq
            · omega
            · exact hc4 q hq

/-- A wait loop that is interrupted is left with `waiting_for_flip` still
set, without a dispatched page-flip event and without releasing a buffer. -/
theorem waitLoop_interrupted (sel : List SelectResult) (h : waitInterrupted sel = true) :
    ∀ calls, ∃ cs, waitLoop sel 1 calls = some (1, calls ++ cs) ∧
      DrmCall.handleEvent true ∉ cs ∧ (∀ b, DrmCall.releaseBuffer b ∉ cs) := by
  induction sel with
  | nil => simp [waitInterrupted] at h
  | cons r rs ih =>
    intro calls
    unfold waitInterrupted at h
    by_cases h1 : r.ret ≤ 0
    · refine ⟨[DrmCall.select r.ret], ?_, by simp, by simp⟩
      unfold waitLoop
      simp [h1]
    · rw [if_neg h1] at h
      by_cases h2 : r.drmReadable = true ∧ r.flipHandled = true
      · simp [h2] at h
      · rw [if_neg h2] at h
        by_cases h3 : r.drmReadable = true
        · have h4 : r.flipHandled = false := by
            cases hfh : r.flipHandled
            · rfl
            · exact absurd ⟨h3, hfh⟩ h2
          obtain ⟨cs, hc1, hc2, hc3⟩ :=
            ih h (calls ++ [DrmCall.select r.ret, DrmCall.handleEvent r.flipHandled])
          refine ⟨[DrmCall.select r.ret, DrmCall.handleEvent r.flipHandled] ++ cs,
            ?_, ?_, ?_⟩
          · unfold waitLoop
            simp only [one_ne_zero, if_false, h1, h3, if_true]
            rw [h4] at hc1
            simp only [h4, Bool.false_eq_true, if_false]
            rw [hc1, List.append_assoc]
          · intro hm
            simp [h4] at hm
            exact hc2 hm
          · intro b hb
            simp at hb
            exact hc3 b hb
        · obtain ⟨cs, hc1, hc2, hc3⟩ := ih h (calls ++ [DrmCall.select r.ret])
          refine ⟨[DrmCall.select r.ret] ++ cs, ?_, ?_, ?_⟩
          · unfold waitLoop
            simp only [one_ne_zero, if_false, h1, h3]
            rw [hc1, List.append_assoc]
            simp
          · intro hm
            simp at hm
            exact hc2 hm
          · intro b hb
            simp at hb
            exact hc3 b hb

theorem releaseAndPin_some (next_bo old : Nat) (s : DrmState) (h : s.GbmBuffer = some old) :
    (releaseAndPin next_bo s).GbmBuffer = some next_bo ∧
    (releaseAndPin next_bo s).locked = s.locked.erase old ∧
    (releaseAndPin next_bo s).calls = s.calls ++ [DrmCall.releaseBuffer old] ∧
    (releaseAndPin next_bo s).userData = s.userData := by
  unfold releaseAndPin
  rw [h]
  exact ⟨rfl, rfl, rfl, rfl⟩

/-- What `DrmEglSwapBuffers` does once the wait loop is left, however it is left. -/
theorem swap_bookkeeping (env : SwapEnv) (s : DrmState) (old : Nat) (w : Int)
    (ws : List DrmCall)
    (hpinned : s.GbmBuffer = some old)
    (hfb : swapHandle env s ≠ 0) (hflip : env.flipRet = 0)
    (hw : waitLoop env.selects 1 (submitted env s).calls =
      some (w, (submitted env s).calls ++ ws))
    (hws : ∀ b, DrmCall.releaseBuffer b ∉ ws) :
    ∃ s' pre, DrmEglSwapBuffers env s = some s' ∧
      s'.GbmBuffer = some env.next_bo ∧
      s'.locked = (env.next_bo :: s.locked).erase old ∧
      s'.calls = s.calls ++ (pre ++ [DrmCall.releaseBuffer old]) ∧
      (∀ b, DrmCall.releaseBuffer b ∉ pre) ∧
      (∀ c, c ∈ ws → c ∈ pre) ∧
      (∀ d, DrmCall.handleEvent d ∈ pre → DrmCall.handleEvent d ∈ ws) ∧
      (pre ++ [DrmCall.releaseBuffer old]).count (DrmCall.releaseBuffer old) = 1 := by
  obtain ⟨hg, hl, cs, hc, hrel, hev⟩ := submitted_frame env s
  have hres := swap_after_wait env s _ hfb hflip hw
  have hrp := releaseAndPin_some env.next_bo old
    { submitted env s with calls := (submitted env s).calls ++ ws } (by rw [← hpinned, ← hg])
  have hpre : ∀ b, DrmCall.releaseBuffer b ∉ cs ++ ws := by
    intro b hb
    rcases List.mem_append.mp hb with h | h
    · exact hrel b h
    · exact hws b h
  refine ⟨_, cs ++ ws, hres, hrp.1, ?_, ?_, hpre, ?_, ?_, ?_⟩
  · rw [hrp.2.1]
    show (submitted env s).locked.erase old = _
    rw [hl]
  · rw [hrp.2.2.1]
    show ((submitted env s).calls ++ ws) ++ _ = _
    rw [hc]
    simp
  · intro c hcm
    exact List.mem_append_right _ hcm
  · intro d hd
    rcases List.mem_append.mp hd with h | h
    · exact absurd h (hev d)
    · exact h
  · rw [List.count_append, List.count_eq_zero.mpr (hpre old)]
    simp

/-- C18 (confirmed swap): when `DrmEglSwapBuffers` obtains a non-zero handle
for the newly locked front buffer, the page-flip submission succeeds and the
confirmation event is dispatched, the call returns; on return the newly locked
buffer is the pinned one, and the previously pinned buffer has been released
to the surface exactly once, as the last action and after the confirmation; no
other buffer has been released. -/
theorem confirmed_swap (env : SwapEnv) (s : DrmState) (old : Nat)
    (hpinned : s.GbmBuffer = some old)
    (hfb : swapHandle env s ≠ 0) (hflip : env.flipRet = 0)
    (hconf : flipConfirmed env.selects = true) :
    ∃ s' pre, DrmEglSwapBuffers env s = some s' ∧
      s'.GbmBuffer = some env.next_bo ∧
      s'.locked = (env.next_bo :: s.locked).erase old ∧
      s'.calls = s.calls ++ (pre ++ [DrmCall.releaseBuffer old]) ∧
      (∀ b, DrmCall.releaseBuffer b ∉ pre) ∧
      DrmCall.handleEvent true ∈ pre ∧
      (pre ++ [DrmCall.releaseBuffer old]).count (DrmCall.releaseBuffer old) = 1 := by
  obtain ⟨ws, hw, hev, hrel, _⟩ := waitLoop_confirmed env.selects hconf (submitted env s).calls
  obtain ⟨s', pre, h1, h2, h3, h4, h5, h6, _, h8⟩ :=
    swap_bookkeeping env s old 0 ws hpinned hfb hflip hw hrel
  exact ⟨s', pre, h1, h2, h3, h4, h5, h6 _ hev, h8⟩

/-- C18 at a state with buffer 1 pinned and the environment `envConfirmed`. -/
theorem confirmed_swap_witness :
    (DrmEglSwapBuffers envConfirmed drmPinnedOne).map
      (fun s => (s.GbmBuffer, s.locked)) = some (some 2, [2]) ∧
    ∃ s' pre, DrmEglSwapBuffers envConfirmed drmPinnedOne = some s' ∧
      s'.GbmBuffer = some envConfirmed.next_bo ∧
      s'.locked = (envConfirmed.next_bo :: drmPinnedOne.locked).erase 1 ∧
      s'.calls = drmPinnedOne.calls ++ (pre ++ [DrmCall.releaseBuffer 1]) ∧
      (∀ b, DrmCall.releaseBuffer b ∉ pre) ∧
      DrmCall.handleEvent true ∈ pre ∧
      (pre ++ [DrmCall.releaseBuffer 1]).count (DrmCall.releaseBuffer 1) = 1 :=
  ⟨by decide,
   confirmed_swap envConfirmed drmPinnedOne 1 rfl (by decide) rfl (by decide)⟩

/-- When handle acquisition or the page-flip submission fails,
`DrmEglSwapBuffers` returns with `GbmBuffer` as it was and without a release:
the newly locked buffer stays locked. -/
theorem swap_failure (env : SwapEnv) (s : DrmState)
    (h : swapHandle env s = 0 ∨ env.flipRet ≠ 0) :
    ∃ s' cs, DrmEglSwapBuffers env s = some s' ∧
      s'.GbmBuffer = s.GbmBuffer ∧
      s'.locked = env.next_bo :: s.locked ∧
      s'.calls = s.calls ++ cs ∧ (∀ b, DrmCall.releaseBuffer b ∉ cs) := by
  by_cases h0 : swapHandle env s = 0
  · obtain ⟨h1, h2, cs, h3, h4, _⟩ :=
      DrmGetFb_frame env.addRet env.addFbId env.next_bo (afterLock env s)
    refine ⟨_, [DrmCall.lockFrontBuffer env.next_bo] ++ cs, ?_, h1, h2, ?_, ?_⟩
    · unfold DrmEglSwapBuffers
      have : (DrmGetFb env.addRet env.addFbId env.next_bo (afterLock env s)).1 = 0 := h0
      simp only [this, if_true]
    · rw [h3]; simp [afterLock]
    · intro b hb
      simp at hb
      exact h4 b hb
  · have hf : env.flipRet ≠ 0 := by
      rcases h with h | h
      · exact absurd h h0
      · exact h
    obtain ⟨h1, h2, cs, h3, h4, _⟩ := submitted_frame env s
    refine ⟨submitted env s, cs, ?_, h1, h2, h3, h4⟩
    unfold DrmEglSwapBuffers
    have : ¬ (DrmGetFb env.addRet env.addFbId env.next_bo (afterLock env s)).1 = 0 := h0
    simp only [this, if_false, hf, ne_eq, not_false_eq_true, if_true]
    rfl

/-- C19 at its failing inputs: with buffer 1 pinned and locked, a call in
which `drmModeAddFB2` fails, and a call in which `drmModePageFlip` fails, both
return with buffer 1 still pinned and nothing released, but with the newly
locked buffer 2 added to the buffers locked and not released. -/
theorem atomic_failure_leaks_buffer :
    drmPinnedOne.locked = [1] ∧
    (DrmEglSwapBuffers envAddFails drmPinnedOne).map
      (fun s => (s.GbmBuffer, s.locked, s.calls)) =
      some (some 1, [2, 1],
        [DrmCall.lockFrontBuffer 2, DrmCall.addFB2 2 (-1) 0]) ∧
    (DrmEglSwapBuffers envFlipFails drmPinnedOne).map
      (fun s => (s.GbmBuffer, s.locked, s.calls)) =
      some (some 1, [2, 1],
        [DrmCall.lockFrontBuffer 2, DrmCall.addFB2 2 0 42, DrmCall.pageFlip 42 (-16)]) := by
  decide

/-- C20, as stated, fails: with buffer 1 pinned, a call whose page flip is
submitted and whose first `select` returns `-1` returns with buffer 2 pinned
and buffer 1 released. -/
theorem interrupted_wait_counterexample :
    waitInterrupted envInterrupted.selects = true ∧
    (DrmEglSwapBuffers envInterrupted drmPinnedOne).map
      (fun s => (s.GbmBuffer, s.locked, s.calls)) =
      some (some 2, [2],
        [DrmCall.lockFrontBuffer 2, DrmCall.addFB2 2 0 42, DrmCall.pageFlip 42 0,
         DrmCall.select (-1), DrmCall.releaseBuffer 1]) := by
  decide

/-- C20, amended (interrupted wait): if the wait for the flip confirmation
ends without the confirmation having been received (`select` returns a value
`<= 0`), `DrmEglSwapBuffers` abandons the wait and returns after the same
bookkeeping as for a confirmed flip: the previously pinned buffer is released
once, the submitted buffer becomes `GbmBuffer`, and no confirmation event was
dispatched before the release. -/
theorem interrupted_wait_still_swaps (env : SwapEnv) (s : DrmState) (old : Nat)
    (hpinned : s.GbmBuffer = some old)
    (hfb : swapHandle env s ≠ 0) (hflip : env.flipRet = 0)
    (hint : waitInterrupted env.selects = true) :
    ∃ s' pre, DrmEglSwapBuffers env s = some s' ∧
      s'.GbmBuffer = some env.next_bo ∧
      s'.locked = (env.next_bo :: s.locked).erase old ∧
      s'.calls = s.calls ++ (pre ++ [DrmCall.releaseBuffer old]) ∧
      (∀ b, DrmCall.releaseBuffer b ∉ pre) ∧
      DrmCall.handleEvent true ∉ pre ∧
      (pre ++ [DrmCall.releaseBuffer old]).count (DrmCall.releaseBuffer old) = 1 := by
  obtain ⟨ws, hw, hev, hrel⟩ := waitLoop_interrupted env.selects hint (submitted env s).calls
  obtain ⟨s', pre, h1, h2, h3, h4, h5, _, h7, h8⟩ :=
    swap_bookkeeping env s old 1 ws hpinned hfb hflip hw hrel
  exact ⟨s', pre, h1, h2, h3, h4, h5, fun hm => hev (h7 true hm), h8⟩

/-- C20 at a state with buffer 1 pinned and the environment `envInterrupted`. -/
theorem interrupted_wait_still_swaps_witness :
    ∃ s' pre, DrmEglSwapBuffers envInterrupted drmPinnedOne = some s' ∧
      s'.GbmBuffer = some envInterrupted.next_bo ∧
      s'.locked = (envInterrupted.next_bo :: drmPinnedOne.locked).erase 1 ∧
      s'.calls = drmPinnedOne.calls ++ (pre ++ [DrmCall.releaseBuffer 1]) ∧
      (∀ b, DrmCall.releaseBuffer b ∉ pre) ∧
      DrmCall.handleEvent true ∉ pre ∧
      (pre ++ [DrmCall.releaseBuffer 1]).count (DrmCall.releaseBuffer 1) = 1 :=
  interrupted_wait_still_swaps envInterrupted drmPinnedOne 1 rfl (by decide) rfl (by decide)

/-! ## Further claims at concrete inputs -/

/-- C11 at a state with finger 3 pressed at (300, 300) and a poll that
samples it at (310, 300): state Move and one Move event at the new position. -/
theorem move_emits_move_witness :
    ((EwBspTouchGetEvents cfg800 (rawOfList [(-1, 0, 0), (7, 310, 300)]) 160
      stateIdleAndActive).1.TouchData 3).State = EW_BSP_TOUCH_MOVE ∧
    eventsOfFinger 3
      (returnedEvents (EwBspTouchGetEvents cfg800 (rawOfList [(-1, 0, 0), (7, 310, 300)]) 160
        stateIdleAndActive)) =
      [{ XPos := uiX cfg800 (rawOfList [(-1, 0, 0), (7, 310, 300)]) 1,
         YPos := uiY cfg800 (rawOfList [(-1, 0, 0), (7, 310, 300)]) 1,
         Finger := ((3 : Nat) : Int), State := EW_BSP_TOUCH_MOVE }] :=
  move_emits_move cfg800 (rawOfList [(-1, 0, 0), (7, 310, 300)]) 160 stateIdleAndActive 3 1
    (by decide) (by decide) (by decide) (by decide) (by decide)

/-- C12 at a state with finger 3 pressed, followed by three polls without
valid sample: finger 3 gets one Up. -/
theorem idempotent_idle_witness :
    eventsOfFinger 3
      (runEvents cfg800 [(rawOfList [], 10), (rawOfList [], 20), (zeroRawTouch, 30)]
        stateIdleAndActive) =
      [{ XPos := 300, YPos := 300, Finger := 3, State := EW_BSP_TOUCH_UP }] :=
  (idempotent_idle cfg800 (rawOfList [], 10) [(rawOfList [], 20), (zeroRawTouch, 30)]
    stateIdleAndActive 3 (by decide) (by decide) (by decide)).2.2

/-- C17 at a state with finger 3 pressed and a poll whose only valid sample
is a new finger: slot 3 is Idle afterwards and was assigned no sample. -/
theorem slot_invariant_witness :
    ((EwBspTouchGetEvents cfg800 (rawOfList [(9, 600, 400)]) 1000
      stateIdleAndActive).1.TouchData 3).State = EW_BSP_TOUCH_IDLE ∧
    ¬ ∃ t, t < NO_OF_FINGERS ∧ ¬ skipSample cfg800 (rawOfList [(9, 600, 400)]) t ∧
      assignedFinger cfg800 (rawOfList [(9, 600, 400)]) 1000 stateIdleAndActive t =
        ((3 : Nat) : Int) :=
  have h := slot_invariant cfg800 (rawOfList [(9, 600, 400)]) 1000 stateIdleAndActive 3
    (by decide)
  have hidle : ((EwBspTouchGetEvents cfg800 (rawOfList [(9, 600, 400)]) 1000
      stateIdleAndActive).1.TouchData 3).State = EW_BSP_TOUCH_IDLE := by decide
  ⟨hidle, fun hex => h.1.mpr hex hidle⟩

/-! ## Distinct identities -/

/-- When the finger loop ends on an Idle slot, no non-Idle slot carries the id. -/
theorem findFinger_idle_no_active (td : Nat → XTouchData) (id : Int) (ticks : Nat) (x y : Int)
    (g : Nat) (hg : findFinger td id ticks x y = (g : Int))
    (hidle : (td g).State = EW_BSP_TOUCH_IDLE) :
    ∀ k, k < NO_OF_FINGERS → ¬ activeMatch (td k) id := by
  classical
  intro k hk hak
  have hex : ∃ m, m < NO_OF_FINGERS ∧ activeMatch (td m) id := ⟨k, hk, hak⟩
  have hspec := Nat.find_spec hex
  have hfind : findFinger td id ticks x y = ((Nat.find hex : Nat) : Int) :=
    fingerLoop_active td id ticks x y NO_OF_FINGERS 0 (-1) (Nat.find hex) (Nat.zero_le _)
      (by have := hspec.1; omega) hspec.2
      (fun m _ hm ham => Nat.find_min hex hm ⟨by have := hspec.1; omega, ham⟩)
  rw [hg] at hfind
  have hgm : g = Nat.find hex := by omega
  rw [← hgm] at hspec
  exact hspec.2.1 hidle

/-- One iteration of the sample loop keeps the touch ids of the non-Idle slots distinct. -/
theorem sampleBody_distinct (cfg : TouchConfig) (raw : RawTouch) (ticks : Nat) (t : Nat)
    (s : (Nat → XTouchData) × (Nat → Bool)) (h : distinctSlots s.1) :
    distinctSlots (sampleBody cfg raw ticks t s).1 := by
  rcases fingerOf_cases cfg raw ticks t s with hm | ⟨g, hg1, hg2, hg3, hg4⟩
  · intro a ha b hb hab hsa hsb
    have hoa := (sampleBody_other cfg raw ticks t s a (by rw [hm]; omega)).1
    have hob := (sampleBody_other cfg raw ticks t s b (by rw [hm]; omega)).1
    rw [hoa] at hsa ⊢
    rw [hob] at hsb ⊢
    exact h a ha b hb hab hsa hsb
  · have hself := (sampleBody_self cfg raw ticks t s g hg2).1
    have hfind : findFinger s.1 (raw.TouchId t) ticks (uiX cfg raw t) (uiY cfg raw t) =
        (g : Int) := by
      unfold fingerOf at hg2; rw [if_neg hg3] at hg2; exact hg2
    have key : ∀ c, c < NO_OF_FINGERS → c ≠ g → (s.1 c).State ≠ EW_BSP_TOUCH_IDLE →
        (s.1 c).TouchId ≠ raw.TouchId t := by
      intro c hc hcg hsc
      rcases hg4 with hact | hidle
      · have := h c hc g hg1 hcg hsc hact.1
        rw [hact.2] at this
        exact this
      · intro heq
        exact findFinger_idle_no_active s.1 _ ticks _ _ g hfind hidle c hc ⟨hsc, heq⟩
    intro a ha b hb hab hsa hsb
    by_cases hag : a = g
    · subst hag
      have hob := (sampleBody_other cfg raw ticks t s b (by rw [hg2]; omega)).1
      rw [hob] at hsb ⊢
      rw [hself]
      exact Ne.symm (key b hb (Ne.symm hab) hsb)
    · have hoa := (sampleBody_other cfg raw ticks t s a (by rw [hg2]; omega)).1
      rw [hoa] at hsa ⊢
      by_cases hbg : b = g
      · subst hbg
        rw [hself]
        exact key a ha hag hsa
      · have hob := (sampleBody_other cfg raw ticks t s b (by rw [hg2]; omega)).1
        rw [hob] at hsb ⊢
        exact h a ha b hb hab hsa hsb

theorem beforeSample_distinct (cfg : TouchConfig) (raw : RawTouch) (ticks : Nat)
    (st : TouchState) (h : distinctSlots st.TouchData) (n : Nat) :
    distinctSlots (beforeSample cfg raw ticks st n).1 := by
  induction n with
  | zero => exact h
  | succ n ih =>
    rw [beforeSample_succ]
    exact sampleBody_distinct cfg raw ticks n _ ih

/-- A poll keeps the touch ids of the non-Idle slots distinct. -/
theorem poll_distinct (cfg : TouchConfig) (raw : RawTouch) (ticks : Nat) (st : TouchState)
    (h : distinctSlots st.TouchData) :
    distinctSlots (EwBspTouchGetEvents cfg raw ticks st).1.TouchData := by
  have hb := beforeSample_distinct cfg raw ticks st h NO_OF_FINGERS
  have hrel : ∀ k,
      (releaseOf (beforeSample cfg raw ticks st NO_OF_FINGERS).2
        (beforeSample cfg raw ticks st NO_OF_FINGERS).1 k).State ≠ EW_BSP_TOUCH_IDLE →
      releaseOf (beforeSample cfg raw ticks st NO_OF_FINGERS).2
        (beforeSample cfg raw ticks st NO_OF_FINGERS).1 k =
        (beforeSample cfg raw ticks st NO_OF_FINGERS).1 k := by
    intro k hk
    unfold releaseOf at hk ⊢
    split_ifs at hk ⊢ with hc
    · exact absurd rfl hk
    · rfl
  intro a ha b hb' hab hsa hsb
  rw [poll_data cfg raw ticks st a ha] at hsa ⊢
  rw [poll_data cfg raw ticks st b hb'] at hsb ⊢
  have ea := hrel a hsa
  have eb := hrel b hsb
  rw [ea] at hsa ⊢
  rw [eb] at hsb ⊢
  exact hb a ha b hb' hab hsa hsb

theorem run_distinct (cfg : TouchConfig) (polls : List (RawTouch × Nat)) :
    ∀ st, distinctSlots st.TouchData → distinctSlots (runState cfg polls st).TouchData := by
  induction polls with
  | nil => intro st h; exact h
  | cons p ps ih =>
    intro st h
    exact ih _ (poll_distinct cfg p.1 p.2 st h)

/-- C25 (distinct identities): in every state reached from the state set by
`EwBspTouchInit` by any sequence of polls, with whatever raw tables and tick
values, no two non-Idle finger slots carry the same `TouchId`. -/
theorem distinct_identities (cfg : TouchConfig) (polls : List (RawTouch × Nat)) :
    distinctSlots (runState cfg polls initialState).TouchData := by
  apply run_distinct
  intro a _ b _ _ hsa _
  exact absurd rfl hsa

/-! ## Coordinates: range and divisions -/

theorem tdiv_range (a g c : Int) (ha : 0 ≤ a) (hac : a ≤ c) (hc : 0 < c) (hg : 0 ≤ g) :
    0 ≤ (a * g).tdiv c ∧ (a * g).tdiv c ≤ g := by
  have hag : 0 ≤ a * g := Int.mul_nonneg ha hg
  rw [Int.tdiv_eq_ediv hag (le_of_lt hc)]
  constructor
  · exact Int.ediv_nonneg hag (le_of_lt hc)
  · apply Int.ediv_le_of_le_mul hc
    rw [Int.mul_comm g c]
    exact Int.mul_le_mul_of_nonneg_right hac hg

/-- For a valid raw sample, UI sizes that are not negative and products in
the range of `int` the computed UI position lies in
`[0, GuiSizeWidth] x [0, GuiSizeHeight]`, whatever the value of `EW_ROTATION`. -/
theorem ui_range (cfg : TouchConfig) (raw : RawTouch) (t : Nat)
    (hv : ¬ skipSample cfg raw t)
    (hw : 0 ≤ cfg.GuiSizeWidth) (hh : 0 ≤ cfg.GuiSizeHeight)
    (hfit : noOverflow cfg raw t) :
    (0 ≤ uiX cfg raw t ∧ uiX cfg raw t ≤ cfg.GuiSizeWidth) ∧
    (0 ≤ uiY cfg raw t ∧ uiY cfg raw t ≤ cfg.GuiSizeHeight) := by
  obtain ⟨_, ⟨hx1, hx2⟩, ⟨hy1, hy2⟩⟩ := (skipSample_iff cfg raw t).mp hv
  have hTW : 0 < cfg.TouchAreaWidth := by omega
  have hTH : 0 < cfg.TouchAreaHeight := by omega
  have hX := tdiv_range (raw.TouchX t) cfg.GuiSizeWidth cfg.TouchAreaWidth
    (by omega) hx2 hTW hw
  have hX' := tdiv_range (cfg.TouchAreaWidth - raw.TouchX t) cfg.GuiSizeWidth
    cfg.TouchAreaWidth (by omega) (by omega) hTW hw
  have hY := tdiv_range (raw.TouchY t) cfg.GuiSizeHeight cfg.TouchAreaHeight
    (by omega) hy2 hTH hh
  have hY' := tdiv_range (cfg.TouchAreaHeight - raw.TouchY t) cfg.GuiSizeHeight
    cfg.TouchAreaHeight (by omega) (by omega) hTH hh
  have hXh := tdiv_range (raw.TouchX t) cfg.GuiSizeHeight cfg.TouchAreaWidth
    (by omega) hx2 hTW hh
  have hXh' := tdiv_range (cfg.TouchAreaWidth - raw.TouchX t) cfg.GuiSizeHeight
    cfg.TouchAreaWidth (by omega) (by omega) hTW hh
  have hYw := tdiv_range (raw.TouchY t) cfg.GuiSizeWidth cfg.TouchAreaHeight
    (by omega) hy2 hTH hw
  have hYw' := tdiv_range (cfg.TouchAreaHeight - raw.TouchY t) cfg.GuiSizeWidth
    cfg.TouchAreaHeight (by omega) (by omega) hTH hw
  rw [(ui_exact cfg raw t hfit).1, (ui_exact cfg raw t hfit).2]
  split_ifs <;> exact ⟨by assumption, by assumption⟩

/-- C28 (coordinate range): for every valid raw sample, positive UI sizes
and products of the transform that lie in the range of `int`, where the
program computes as over unbounded integers, the computed UI position
satisfies `0 <= x <= GuiSizeWidth` and `0 <= y <= GuiSizeHeight`; this holds
in each of the four rotation branches, so for every value of `EW_ROTATION`,
and the touch-area sizes are positive for every valid sample. -/
theorem coordinate_range (cfg : TouchConfig) (raw : RawTouch) (t : Nat)
    (hv : ¬ skipSample cfg raw t)
    (hgw : 0 < cfg.GuiSizeWidth) (hgh : 0 < cfg.GuiSizeHeight)
    (hfit : noOverflow cfg raw t) :
    (0 ≤ uiX cfg raw t ∧ uiX cfg raw t ≤ cfg.GuiSizeWidth) ∧
    (0 ≤ uiY cfg raw t ∧ uiY cfg raw t ≤ cfg.GuiSizeHeight) ∧
    (0 < cfg.TouchAreaWidth ∧ 0 < cfg.TouchAreaHeight) := by
  obtain ⟨_, ⟨hx1, hx2⟩, ⟨hy1, hy2⟩⟩ := (skipSample_iff cfg raw t).mp hv
  have h := ui_range cfg raw t hv (le_of_lt hgw) (le_of_lt hgh) hfit
  exact ⟨h.1, h.2, by omega, by omega⟩

/-- C28 at the raw corner (480, 800) of the rotated configuration. -/
theorem coordinate_range_witness :
    (0 ≤ uiX cfgRot90 (rawOfList [(1, 480, 800)]) 0 ∧
      uiX cfgRot90 (rawOfList [(1, 480, 800)]) 0 ≤ cfgRot90.GuiSizeWidth) ∧
    (0 ≤ uiY cfgRot90 (rawOfList [(1, 480, 800)]) 0 ∧
      uiY cfgRot90 (rawOfList [(1, 480, 800)]) 0 ≤ cfgRot90.GuiSizeHeight) ∧
    (0 < cfgRot90.TouchAreaWidth ∧ 0 < cfgRot90.TouchAreaHeight) :=
  coordinate_range cfgRot90 (rawOfList [(1, 480, 800)]) 0 (by decide) (by decide) (by decide)
    (by decide)

theorem cdiv_ne_zero (a b : Int) (h : b ≠ 0) : cdiv a b = some (a.tdiv b) := by
  unfold cdiv; rw [if_neg h]

/-- Past the validity filter no division divides by zero, and the checked
position is the computed one. -/
theorem uiPosChecked_valid (cfg : TouchConfig) (raw : RawTouch) (t : Nat)
    (hv : ¬ skipSample cfg raw t) :
    uiPosChecked cfg raw t = some (uiX cfg raw t, uiY cfg raw t) := by
  obtain ⟨_, ⟨hx1, hx2⟩, ⟨hy1, hy2⟩⟩ := (skipSample_iff cfg raw t).mp hv
  have hTW : cfg.TouchAreaWidth ≠ 0 := by omega
  have hTH : cfg.TouchAreaHeight ≠ 0 := by omega
  unfold uiPosChecked uiX uiY
  split_ifs <;> simp [cdiv_ne_zero, hTW, hTH]

theorem sampleBodyChecked_eq (cfg : TouchConfig) (raw : RawTouch) (ticks : Nat) (t : Nat)
    (s : (Nat → XTouchData) × (Nat → Bool)) :
    sampleBodyChecked cfg raw ticks t s = some (sampleBody cfg raw ticks t s) := by
  unfold sampleBodyChecked sampleBody
  by_cases hv : skipSample cfg raw t
  · rw [if_pos hv, if_pos hv]
  · rw [if_neg hv, if_neg hv, uiPosChecked_valid cfg raw t hv]
    rfl

theorem sampleLoopChecked_eq (cfg : TouchConfig) (raw : RawTouch) (ticks : Nat)
    (s : (Nat → XTouchData) × (Nat → Bool)) (n : Nat) :
    sampleLoopChecked cfg raw ticks s n = some (sampleLoop cfg raw ticks s n) := by
  induction n with
  | zero => rfl
  | succ n ih =>
    rw [sampleLoopChecked, ih, sampleLoop]
    exact sampleBodyChecked_eq cfg raw ticks n _

/-- C29 (no division by zero): a sample that passes the validity filter
implies `TouchAreaWidth >= 1` and `TouchAreaHeight >= 1`; the sample loop
with every division checked for a zero divisor never fails and computes what
the sample loop computes; and with a touch area of width or height 0 or
negative every sample is skipped, so that no position is computed. -/
theorem no_division_by_zero (cfg : TouchConfig) (raw : RawTouch) (ticks : Nat) :
    (∀ t, ¬ skipSample cfg raw t → 1 ≤ cfg.TouchAreaWidth ∧ 1 ≤ cfg.TouchAreaHeight) ∧
    (∀ t s, sampleBodyChecked cfg raw ticks t s = some (sampleBody cfg raw ticks t s)) ∧
    (∀ s n, sampleLoopChecked cfg raw ticks s n = some (sampleLoop cfg raw ticks s n)) ∧
    (cfg.TouchAreaWidth ≤ 0 ∨ cfg.TouchAreaHeight ≤ 0 →
      (∀ t, skipSample cfg raw t) ∧
      ∀ s n, sampleLoopChecked cfg raw ticks s n = some s) := by
  refine ⟨?_, sampleBodyChecked_eq cfg raw ticks, sampleLoopChecked_eq cfg raw ticks, ?_⟩
  · intro t hv
    obtain ⟨_, ⟨hx1, hx2⟩, ⟨hy1, hy2⟩⟩ := (skipSample_iff cfg raw t).mp hv
    exact ⟨by omega, by omega⟩
  · intro hz
    have hskip : ∀ t, skipSample cfg raw t := by
      intro t
      by_contra hv
      obtain ⟨_, ⟨hx1, hx2⟩, ⟨hy1, hy2⟩⟩ := (skipSample_iff cfg raw t).mp hv
      omega
    refine ⟨hskip, ?_⟩
    intro s n
    induction n with
    | zero => rfl
    | succ n ih =>
      rw [sampleLoopChecked, ih]
      show sampleBodyChecked cfg raw ticks n s = some s
      unfold sampleBodyChecked
      rw [if_pos (hskip n)]

/-! ## Startup debounce and the debounce tie-break -/

/-- C27 (debounce tie-break): when a valid sample is processed whose touch
id is carried by no non-Idle slot and `g` is the highest index among the Idle
slots that satisfy the debounce condition, the sample is assigned to slot `g`,
whatever lower-index Idle slots there are.  The condition is strict: a
position exactly 16 px away on an axis, or a tick value exactly the slot's
tick plus 500, does not satisfy it; and when the slot's tick plus 500 does not
exceed the range of `unsigned long`, the condition is: Idle, tick below the
slot's tick plus 500, and x and y each less than 16 px from the stored
position. -/
theorem debounce_tie_break (cfg : TouchConfig) (raw : RawTouch) (ticks : Nat) (t : Nat)
    (s : (Nat → XTouchData) × (Nat → Bool)) (g : Nat)
    (hv : ¬ skipSample cfg raw t)
    (hno : ∀ k, k < NO_OF_FINGERS → ¬ activeMatch (s.1 k) (raw.TouchId t))
    (hg : g < NO_OF_FINGERS)
    (hdeb : debounceMatch (s.1 g) ticks (uiX cfg raw t) (uiY cfg raw t))
    (hhighest : ∀ k, k < NO_OF_FINGERS → g < k →
      ¬ debounceMatch (s.1 k) ticks (uiX cfg raw t) (uiY cfg raw t)) :
    findFinger s.1 (raw.TouchId t) ticks (uiX cfg raw t) (uiY cfg raw t) = (g : Int) ∧
    (sampleBody cfg raw ticks t s).1 g =
      { XPos := uiX cfg raw t, YPos := uiY cfg raw t, Ticks := ticks,
        TouchId := raw.TouchId t, State := EW_BSP_TOUCH_DOWN } ∧
    (sampleBody cfg raw ticks t s).2 g = true ∧
    (∀ (touch : XTouchData) (tk : Nat) (x y : Int),
      (x = touch.XPos + 16 ∨ x = touch.XPos - 16 ∨ y = touch.YPos + 16 ∨
        y = touch.YPos - 16 ∨ tk = touch.Ticks + 500) →
      ¬ debounceMatch touch tk x y) ∧
    (∀ (touch : XTouchData) (tk : Nat) (x y : Int), touch.Ticks + 500 < ULONG_MODULUS →
      (debounceMatch touch tk x y ↔
        touch.State = EW_BSP_TOUCH_IDLE ∧ tk < touch.Ticks + 500 ∧
        |x - touch.XPos| < 16 ∧ |y - touch.YPos| < 16)) := by
  have hfind : findFinger s.1 (raw.TouchId t) ticks (uiX cfg raw t) (uiY cfg raw t) = (g : Int) :=
    fingerLoop_debounce s.1 (raw.TouchId t) ticks (uiX cfg raw t) (uiY cfg raw t)
      NO_OF_FINGERS 0 (-1) g (Nat.zero_le _) (by omega)
      (fun k _ hk => hno k (by omega)) hdeb
      (fun k hk1 hk2 => hhighest k (by omega) hk1)
  have hfo : fingerOf cfg raw ticks t s = (g : Int) := by
    unfold fingerOf; rw [if_neg hv]; exact hfind
  have hs := sampleBody_self cfg raw ticks t s g hfo
  refine ⟨hfind, ?_, hs.2, ?_, ?_⟩
  · rw [hs.1]
    simp [storedTouch, nextState, hdeb.1]
  · intro touch tk x y hcase hd
    obtain ⟨_, h2, h3, h4, h5, h6⟩ := hd
    have hmod : (touch.Ticks + DELTA_TIME) % ULONG_MODULUS ≤ touch.Ticks + 500 :=
      Nat.mod_le _ _
    have h3' : x > touch.XPos - 16 := h3
    have h4' : x < touch.XPos + 16 := h4
    have h5' : y > touch.YPos - 16 := h5
    have h6' : y < touch.YPos + 16 := h6
    rcases hcase with h | h | h | h | h <;> omega
  · intro touch tk x y hnowrap
    have hmod : (touch.Ticks + DELTA_TIME) % ULONG_MODULUS = touch.Ticks + 500 :=
      Nat.mod_eq_of_lt hnowrap
    unfold debounceMatch
    rw [hmod, abs_lt, abs_lt]
    constructor
    · rintro ⟨h1, h2, h3, h4, h5, h6⟩
      have h3' : x > touch.XPos - 16 := h3
      have h4' : x < touch.XPos + 16 := h4
      have h5' : y > touch.YPos - 16 := h5
      have h6' : y < touch.YPos + 16 := h6
      exact ⟨h1, h2, ⟨by omega, by omega⟩, ⟨by omega, by omega⟩⟩
    · rintro ⟨h1, h2, ⟨h3, h4⟩, ⟨h5, h6⟩⟩
      refine ⟨h1, h2, ?_, ?_, ?_, ?_⟩
      · show x > touch.XPos - 16
        omega
      · show x < touch.XPos + 16
        omega
      · show y > touch.YPos - 16
        omega
      · show y < touch.YPos + 16
        omega

/-- C27 at a sample at UI position (105, 104) at tick 200, near the Idle
slots 0 and 2 both: it goes to slot 2. -/
theorem debounce_tie_break_witness :
    debounceMatch (stateTwoIdle.TouchData 0) 200 105 104 ∧
    findFinger stateTwoIdle.TouchData 6 200 105 104 = 2 :=
  ⟨by decide,
   (debounce_tie_break cfg800 (rawOfList [(6, 105, 104)]) 200 0
      (stateTwoIdle.TouchData, fun _ => false) 2 (by decide) (by decide) (by decide)
      (by decide) (by decide)).1⟩

/-! ## Handle create-or-reuse -/

theorem DrmGetFb_cached (addRet : Int) (addFbId : Nat) (bo : Nat) (s : DrmState)
    (h : s.userData bo ≠ 0) : DrmGetFb addRet addFbId bo s = (s.userData bo, s) := by
  unfold DrmGetFb
  rw [if_pos h]

theorem createdFor_append (bo : Nat) (a b : List DrmCall) :
    createdFor bo (a ++ b) = createdFor bo a ++ createdFor bo b := by
  induction a with
  | nil => rfl
  | cons c cs ih =>
    cases c <;> simp [createdFor, ih]
    split_ifs <;> simp

/-- A created handle is cached: the invariant of `DrmGetFb` for buffer `bo`. -/
theorem DrmGetFb_created (bo : Nat) (addRet : Int) (addFbId : Nat) (b : Nat) (s : DrmState)
    (h : (createdFor bo s.calls).length ≤ 1 ∧ (createdFor bo s.calls ≠ [] → s.userData bo ≠ 0)) :
    (createdFor bo (DrmGetFb addRet addFbId b s).2.calls).length ≤ 1 ∧
    (createdFor bo (DrmGetFb addRet addFbId b s).2.calls ≠ [] →
      (DrmGetFb addRet addFbId b s).2.userData bo ≠ 0) := by
  unfold DrmGetFb
  by_cases h1 : s.userData b ≠ 0
  · rw [if_pos h1]; exact h
  · rw [if_neg h1]
    have h1' : s.userData b = 0 := by simpa using h1
    by_cases h2 : addRet ≠ 0
    · rw [if_pos h2]
      have hr : ¬ (b = bo ∧ addRet = 0 ∧ addFbId ≠ 0) := fun hc => h2 hc.2.1
      simp only [createdFor_append, createdFor, hr, if_false, List.append_nil]
      exact h
    · rw [if_neg h2]
      simp only [createdFor_append, createdFor]
      by_cases hb : b = bo
      · subst hb
        have hnil : createdFor b s.calls = [] := by
          by_contra hne
          exact h.2 hne h1'
        by_cases hf : addFbId ≠ 0
        · have hc : b = b ∧ addRet = 0 ∧ addFbId ≠ 0 := ⟨rfl, by simpa using h2, hf⟩
          simp [hc, hnil, Function.update, hf]
        · have hf0 : addFbId = 0 := by simpa using hf
          simp [hnil, hf0]
      · have hc : ¬ (b = bo ∧ addRet = 0 ∧ addFbId ≠ 0) := fun hc => hb hc.1
        have hbo : bo ≠ b := Ne.symm hb
        simp [hc, Function.update, hbo]
        exact h

theorem runGetFb_created (bo : Nat) (cs : List (Nat × Int × Nat)) :
    ∀ s, ((createdFor bo s.calls).length ≤ 1 ∧
        (createdFor bo s.calls ≠ [] → s.userData bo ≠ 0)) →
      (createdFor bo (runGetFb cs s).calls).length ≤ 1 := by
  induction cs with
  | nil => intro s h; exact h.1
  | cons c cs ih =>
    intro s h
    exact ih _ (DrmGetFb_created bo c.2.1 c.2.2 c.1 s h)

/-- C23 (handle create-or-reuse): for a buffer that carries a non-zero
cached handle `DrmGetFb` returns that handle and does nothing else; a second
call on the same buffer after a first call that returned a non-zero handle
returns the same handle and changes nothing; if creation fails it returns 0
and leaves the user data of every buffer as it was; and over every sequence
of calls, for every buffer object, at most one handle is created. -/
theorem handle_create_or_reuse (bo : Nat) (s : DrmState) :
    (∀ addRet addFbId, s.userData bo ≠ 0 →
      DrmGetFb addRet addFbId bo s = (s.userData bo, s)) ∧
    (∀ addRet addFbId addRet2 addFbId2, (DrmGetFb addRet addFbId bo s).1 ≠ 0 →
      DrmGetFb addRet2 addFbId2 bo (DrmGetFb addRet addFbId bo s).2 =
        ((DrmGetFb addRet addFbId bo s).1, (DrmGetFb addRet addFbId bo s).2)) ∧
    (∀ addRet addFbId, s.userData bo = 0 → addRet ≠ 0 →
      (DrmGetFb addRet addFbId bo s).1 = 0 ∧
      (DrmGetFb addRet addFbId bo s).2.userData = s.userData) ∧
    (∀ cs : List (Nat × Int × Nat), s.calls = [] →
      (createdFor bo (runGetFb cs s).calls).length ≤ 1) := by
  refine ⟨?_, ?_, ?_, ?_⟩
  · intro addRet addFbId h
    exact DrmGetFb_cached addRet addFbId bo s h
  · intro addRet addFbId addRet2 addFbId2 h
    have hcached : (DrmGetFb addRet addFbId bo s).2.userData bo =
        (DrmGetFb addRet addFbId bo s).1 := by
      unfold DrmGetFb at h ⊢
      by_cases h1 : s.userData bo ≠ 0
      · rw [if_pos h1]
      · rw [if_neg h1] at h ⊢
        by_cases h2 : addRet ≠ 0
        · rw [if_pos h2] at h
          exact absurd rfl h
        · rw [if_neg h2]
          simp [Function.update]
    have hne : (DrmGetFb addRet addFbId bo s).2.userData bo ≠ 0 := by
      rw [hcached]; exact h
    rw [DrmGetFb_cached addRet2 addFbId2 bo _ hne, hcached]
  · intro addRet addFbId h0 hret
    unfold DrmGetFb
    have h1 : ¬ s.userData bo ≠ 0 := by simp [h0]
    rw [if_neg h1, if_pos hret]
    exact ⟨rfl, rfl⟩
  · intro cs hs
    apply runGetFb_created
    rw [hs]
    exact ⟨by simp [createdFor], fun hne => absurd rfl hne⟩

/-! ## Traces of swaps -/

theorem runCheck_append {σ : Type} (step : σ → DrmCall → Option σ) (a b : List DrmCall) :
    ∀ p, runCheck step p (a ++ b) = (runCheck step p a).bind fun q => runCheck step q b := by
  induction a with
  | nil => intro p; rfl
  | cons c cs ih =>
    intro p
    show (step p c).bind _ = ((step p c).bind _).bind _
    cases h : step p c with
    | none => rfl
    | some q => simp [ih]

theorem runCheck_quiet {σ : Type} (step : σ → DrmCall → Option σ)
    (hstep : ∀ p c, quietCall c = true → step p c = some p) (l : List DrmCall)
    (hl : ∀ c, c ∈ l → quietCall c = true) (p : σ) : runCheck step p l = some p := by
  induction l with
  | nil => rfl
  | cons c cs ih =>
    show (step p c).bind _ = _
    rw [hstep p c (hl c (List.mem_cons_self c cs))]
    exact ih (fun d hd => hl d (List.mem_cons_of_mem c hd))

theorem flipStep_quiet (p : Bool) (c : DrmCall) (h : quietCall c = true) :
    flipStep p c = some p := by
  cases c with
  | handleEvent d => cases d <;> simp_all [quietCall, flipStep]
  | _ => simp_all [quietCall, flipStep]

theorem releaseStep_quiet (p : FlipPhase) (c : DrmCall) (h : quietCall c = true) :
    releaseStep p c = some p := by
  cases c with
  | handleEvent d => cases d <;> simp_all [quietCall, releaseStep]
  | _ => simp_all [quietCall, releaseStep]

theorem releasedBuffers_append (a b : List DrmCall) :
    releasedBuffers (a ++ b) = releasedBuffers a ++ releasedBuffers b := by
  induction a with
  | nil => rfl
  | cons c cs ih => cases c <;> simp [releasedBuffers, ih]

theorem releasedBuffers_quiet (l : List DrmCall) (hl : ∀ c, c ∈ l → quietCall c = true) :
    releasedBuffers l = [] := by
  induction l with
  | nil => rfl
  | cons c cs ih =>
    have hc := hl c (List.mem_cons_self c cs)
    have hcs := ih (fun d hd => hl d (List.mem_cons_of_mem c hd))
    cases c <;> simp_all [releasedBuffers, quietCall]

/-- The calls `DrmGetFb` adds to the trace are quiet. -/
theorem DrmGetFb_quiet (addRet : Int) (addFbId : Nat) (bo : Nat) (s : DrmState) :
    ∃ g, (DrmGetFb addRet addFbId bo s).2.calls = s.calls ++ g ∧
      ∀ c, c ∈ g → quietCall c = true := by
  unfold DrmGetFb
  by_cases h1 : s.userData bo ≠ 0
  · rw [if_pos h1]
    exact ⟨[], by simp, by simp⟩
  · rw [if_neg h1]
    by_cases h2 : addRet ≠ 0
    · rw [if_pos h2]
      exact ⟨[DrmCall.addFB2 bo addRet addFbId], rfl, by simp [quietCall]⟩
    · rw [if_neg h2]
      exact ⟨[DrmCall.addFB2 bo addRet addFbId], rfl, by simp [quietCall]⟩

theorem waitLoop_zero (sel : List SelectResult) (calls : List DrmCall) :
    waitLoop sel 0 calls = some (0, calls) := by
  cases sel <;> simp [waitLoop]

/-- How the wait loop is left: after quiet calls, either by a dispatched
page-flip event with `waiting_for_flip` cleared, or by a `select` that
returns a value `<= 0` with `waiting_for_flip` still set. -/
theorem waitLoop_shape (sel : List SelectResult) :
    ∀ calls w cs, waitLoop sel 1 calls = some (w, cs) →
      ∃ ws0, (∀ c, c ∈ ws0 → quietCall c = true) ∧
        ((w = 0 ∧ flipConfirmed sel = true ∧
            cs = calls ++ (ws0 ++ [DrmCall.handleEvent true])) ∨
         (w = 1 ∧ waitInterrupted sel = true ∧
            ∃ r, cs = calls ++ (ws0 ++ [DrmCall.select r]))) := by
  induction sel with
  | nil =>
    intro calls w cs h
    simp [waitLoop] at h
  | cons r rs ih =>
    intro calls w cs h
    unfold waitLoop at h
    simp only [one_ne_zero, if_false] at h
    by_cases h1 : r.ret ≤ 0
    · rw [if_pos h1] at h
      simp only [Option.some.injEq, Prod.mk.injEq] at h
      refine ⟨[], by simp, Or.inr ⟨h.1.symm, by simp [waitInterrupted, h1], r.ret, ?_⟩⟩
      rw [← h.2]; rfl
    · rw [if_neg h1] at h
      by_cases h3 : r.drmReadable = true
      · rw [if_pos h3] at h
        by_cases h4 : r.flipHandled = true
        · rw [if_pos h4, waitLoop_zero] at h
          simp only [Option.some.injEq, Prod.mk.injEq] at h
          refine ⟨[DrmCall.select r.ret], by simp [quietCall],
            Or.inl ⟨h.1.symm, by simp [flipConfirmed, h1, h3, h4], ?_⟩⟩
          rw [← h.2, h4]
          simp
        · rw [if_neg h4] at h
          have h4' : r.flipHandled = false := by simpa using h4
          obtain ⟨ws0, hq, hcase⟩ := ih _ w cs h
          refine ⟨[DrmCall.select r.ret, DrmCall.handleEvent r.flipHandled] ++ ws0, ?_, ?_⟩
          · intro c hc
            simp at hc
            rcases hc with hc | hc | hc
            · rw [hc]; rfl
            · rw [hc, h4']; rfl
            · exact hq c hc
          · rcases hcase with ⟨hw, hf, hcs⟩ | ⟨hw, hf, q, hcs⟩
            · refine Or.inl ⟨hw, ?_, ?_⟩
              · simp [flipConfirmed, h1, h4', hf]
              · rw [hcs]; simp
            · refine Or.inr ⟨hw, ?_, q, ?_⟩
              · simp [waitInterrupted, h1, h4', hf]
              · rw [hcs]; simp
      · rw [if_neg h3] at h
        have h3' : r.drmReadable = false := by simpa using h3
        obtain ⟨ws0, hq, hcase⟩ := ih _ w cs h
        refine ⟨[DrmCall.select r.ret] ++ ws0, ?_, ?_⟩
        · intro c hc
          simp at hc
          rcases hc with hc | hc
          · rw [hc]; rfl
          · exact hq c hc
        · rcases hcase with ⟨hw, hf, hcs⟩ | ⟨hw, hf, q, hcs⟩
          · refine Or.inl ⟨hw, ?_, ?_⟩
            · simp [flipConfirmed, h1, h3', hf]
            · rw [hcs]; simp
          · refine Or.inr ⟨hw, ?_, q, ?_⟩
            · simp [waitInterrupted, h1, h3', hf]
            · rw [hcs]; simp

/-- The trace up to the submission of the page flip. -/
theorem submitted_calls (env : SwapEnv) (s : DrmState) :
    ∃ g, (∀ c, c ∈ g → quietCall c = true) ∧
      (DrmGetFb env.addRet env.addFbId env.next_bo (afterLock env s)).2.calls = s.calls ++ g ∧
      (submitted env s).calls =
        s.calls ++ (g ++ [DrmCall.pageFlip (swapHandle env s) env.flipRet]) := by
  obtain ⟨g0, hg0, hq0⟩ := DrmGetFb_quiet env.addRet env.addFbId env.next_bo (afterLock env s)
  refine ⟨DrmCall.lockFrontBuffer env.next_bo :: g0, ?_, ?_, ?_⟩
  · intro c hc
    rcases List.mem_cons.mp hc with hc | hc
    · rw [hc]; rfl
    · exact hq0 c hc
  · rw [hg0]; simp [afterLock]
  · show (DrmGetFb env.addRet env.addFbId env.next_bo (afterLock env s)).2.calls ++ _ = _
    rw [hg0]; simp [afterLock]

/-- The three ways in which `DrmEglSwapBuffers` returns. -/
theorem swap_cases (env : SwapEnv) (s s' : DrmState) (h : DrmEglSwapBuffers env s = some s') :
    ∃ g, (∀ c, c ∈ g → quietCall c = true) ∧
      ((swapHandle env s = 0 ∧ s'.calls = s.calls ++ g) ∨
       (swapHandle env s ≠ 0 ∧ env.flipRet ≠ 0 ∧
          s'.calls = s.calls ++ (g ++ [DrmCall.pageFlip (swapHandle env s) env.flipRet])) ∨
       (swapHandle env s ≠ 0 ∧ env.flipRet = 0 ∧
          (submitted env s).calls =
            s.calls ++ (g ++ [DrmCall.pageFlip (swapHandle env s) 0]) ∧
          ∃ w cs, waitLoop env.selects 1 (submitted env s).calls = some (w, cs) ∧
            s' = releaseAndPin env.next_bo { submitted env s with calls := cs })) := by
  obtain ⟨g, hq, hg1, hg2⟩ := submitted_calls env s
  refine ⟨g, hq, ?_⟩
  by_cases h0 : swapHandle env s = 0
  · left
    refine ⟨h0, ?_⟩
    unfold DrmEglSwapBuffers at h
    have h0' : (DrmGetFb env.addRet env.addFbId env.next_bo (afterLock env s)).1 = 0 := h0
    simp only [h0', if_true, Option.some.injEq] at h
    rw [← h, hg1]
  · right
    by_cases hf : env.flipRet ≠ 0
    · left
      refine ⟨h0, hf, ?_⟩
      unfold DrmEglSwapBuffers at h
      have h0' : ¬ (DrmGetFb env.addRet env.addFbId env.next_bo (afterLock env s)).1 = 0 := h0
      simp only [h0', if_false, hf, ne_eq, not_false_eq_true, if_true,
        Option.some.injEq] at h
      rw [← h]
      exact hg2
    · right
      have hf0 : env.flipRet = 0 := by simpa using hf
      refine ⟨h0, hf0, by rw [← hf0]; exact hg2, ?_⟩
      cases hw : waitLoop env.selects 1 (submitted env s).calls with
      | none =>
        unfold DrmEglSwapBuffers at h
        have h0' : ¬ (DrmGetFb env.addRet env.addFbId env.next_bo (afterLock env s)).1 = 0 := h0
        have hw' : waitLoop env.selects 1
            ((DrmGetFb env.addRet env.addFbId env.next_bo (afterLock env s)).2.calls ++
              [DrmCall.pageFlip
                (DrmGetFb env.addRet env.addFbId env.next_bo (afterLock env s)).1
                env.flipRet]) = none := hw
        simp only [h0', if_false, hf, hw'] at h
        exact absurd h (by simp)
      | some w =>
        have hres := swap_after_wait env s w h0 hf0 hw
        rw [hres] at h
        exact ⟨w.1, w.2, rfl, (Option.some.inj h).symm⟩

theorem releaseAndPin_calls (next_bo : Nat) (s : DrmState) :
    ∃ rel, (releaseAndPin next_bo s).calls = s.calls ++ rel ∧
      (rel = [] ∨ ∃ old, rel = [DrmCall.releaseBuffer old]) := by
  unfold releaseAndPin
  cases s.GbmBuffer with
  | none => exact ⟨[], by simp, Or.inl rfl⟩
  | some old => exact ⟨[DrmCall.releaseBuffer old], rfl, Or.inr ⟨old, rfl⟩⟩

theorem flipStep_release (p : Bool) (b : Nat) :
    flipStep p (DrmCall.releaseBuffer b) = some p := rfl

/-- A call whose wait is not interrupted leaves no flip pending, if none was
pending before, and submits its flip in order. -/
theorem swap_flipsOrdered (env : SwapEnv) (s s' : DrmState)
    (hni : waitInterrupted env.selects = false)
    (h : DrmEglSwapBuffers env s = some s')
    (hs : flipsOrdered false s.calls = some false) :
    flipsOrdered false s'.calls = some false := by
  unfold flipsOrdered at hs ⊢
  obtain ⟨g, hq, hcase⟩ := swap_cases env s s' h
  have hgq : ∀ p, runCheck flipStep p g = some p :=
    fun p => runCheck_quiet flipStep flipStep_quiet g hq p
  rcases hcase with ⟨_, hc⟩ | ⟨_, hf, hc⟩ | ⟨_, _, hsub, w, cs, hw, hs'⟩
  · rw [hc, runCheck_append, hs]
    exact hgq false
  · rw [hc]
    simp [runCheck_append, hs, hgq, runCheck, flipStep, hf]
  · obtain ⟨ws0, hwq, hshape⟩ := waitLoop_shape env.selects _ w cs hw
    have hwsq : ∀ p, runCheck flipStep p ws0 = some p :=
      fun p => runCheck_quiet flipStep flipStep_quiet ws0 hwq p
    rcases hshape with ⟨_, _, hcs⟩ | ⟨_, hint, _⟩
    · obtain ⟨rel, hrel, hrcase⟩ := releaseAndPin_calls env.next_bo
        { submitted env s with calls := cs }
      rw [hs', hrel]
      show runCheck flipStep false (cs ++ rel) = _
      rw [hcs, hsub]
      rcases hrcase with hr | ⟨old, hr⟩ <;> rw [hr] <;>
        simp [runCheck_append, hs, hgq, hwsq, runCheck, flipStep]
    · rw [hni] at hint
      exact absurd hint (by simp)

/-- C21, as stated, fails: after a call whose wait is interrupted by a
`select` returning `-1`, the next call submits its page flip although the
confirmation of the first flip was never dispatched. -/
theorem swap_ordering_counterexample :
    (runSwaps [envInterrupted, envSecond] drmPinnedOne).map (fun s => s.calls) =
      some [DrmCall.lockFrontBuffer 2, DrmCall.addFB2 2 0 42, DrmCall.pageFlip 42 0,
        DrmCall.select (-1), DrmCall.releaseBuffer 1,
        DrmCall.lockFrontBuffer 3, DrmCall.addFB2 3 0 43, DrmCall.pageFlip 43 0,
        DrmCall.select 1, DrmCall.handleEvent true, DrmCall.releaseBuffer 2] ∧
    (runSwaps [envInterrupted, envSecond] drmPinnedOne).map
      (fun s => flipsOrdered false s.calls) = some none := by
  decide

/-- C21, amended (swap ordering): in every sequence of `DrmEglSwapBuffers`
calls that all return and in none of which the wait is interrupted by a
`select` returning a value `<= 0`, a page flip is submitted only after the
confirmation event of every page flip submitted before has been dispatched,
and no flip is pending when the sequence ends. -/
theorem swap_ordering (envs : List SwapEnv) (s s' : DrmState)
    (hni : ∀ env, env ∈ envs → waitInterrupted env.selects = false)
    (hs : flipsOrdered false s.calls = some false)
    (hrun : runSwaps envs s = some s') :
    flipsOrdered false s'.calls = some false := by
  induction envs generalizing s with
  | nil =>
    simp only [runSwaps, Option.some.injEq] at hrun
    rw [← hrun]; exact hs
  | cons env envs ih =>
    unfold runSwaps at hrun
    cases h1 : DrmEglSwapBuffers env s with
    | none => rw [h1] at hrun; exact absurd hrun (by simp)
    | some s1 =>
      rw [h1] at hrun
      exact ih s1 (fun e he => hni e (List.mem_cons_of_mem env he))
        (swap_flipsOrdered env s s1 (hni env (List.mem_cons_self env envs)) h1 hs) hrun

/-- C21, amended, at two swaps whose waits both see their confirmation. -/
theorem swap_ordering_witness :
    ∃ s', runSwaps [envConfirmed, envSecond] drmPinnedOne = some s' ∧
      flipsOrdered false s'.calls = some false := by
  have hsome : (runSwaps [envConfirmed, envSecond] drmPinnedOne).isSome = true := by decide
  obtain ⟨s', hs'⟩ := Option.isSome_iff_exists.mp hsome
  exact ⟨s', hs', swap_ordering [envConfirmed, envSecond] drmPinnedOne s'
    (by
      intro env he
      simp only [List.mem_cons, List.mem_singleton, List.not_mem_nil, or_false] at he
      rcases he with rfl | rfl <;> decide)
    (by decide) hs'⟩

theorem swapHandle_confirmedEnv (env : SwapEnv) (s : DrmState) (h : confirmedEnv env) :
    swapHandle env s ≠ 0 := by
  unfold swapHandle DrmGetFb
  by_cases h1 : (afterLock env s).userData env.next_bo ≠ 0
  · rw [if_pos h1]; exact h1
  · rw [if_neg h1]
    have h2 : ¬ env.addRet ≠ 0 := by simp [h.1]
    rw [if_neg h2]
    exact h.2.1

/-- One confirmed swap on a state with exactly the pinned buffer locked. -/
theorem confirmed_step (env : SwapEnv) (s : DrmState) (b : Nat) (hc : confirmedEnv env)
    (hG : s.GbmBuffer = some b) (hl : s.locked = [b])
    (hph : releasesConfirmed FlipPhase.idle s.calls = some FlipPhase.idle) :
    ∃ s', DrmEglSwapBuffers env s = some s' ∧
      s'.GbmBuffer = some env.next_bo ∧ s'.locked = [env.next_bo] ∧
      releasesConfirmed FlipPhase.idle s'.calls = some FlipPhase.idle ∧
      releasedBuffers s'.calls = releasedBuffers s.calls ++ [b] := by
  have hfb := swapHandle_confirmedEnv env s hc
  obtain ⟨ws, hw, _, _, _⟩ := waitLoop_confirmed env.selects hc.2.2.2 (submitted env s).calls
  obtain ⟨ws0, hwq, hshape⟩ := waitLoop_shape env.selects _ _ _ hw
  obtain ⟨g, hq, _, hsub⟩ := submitted_calls env s
  obtain ⟨hsg, hsl, _⟩ := submitted_frame env s
  have hres := swap_after_wait env s _ hfb hc.2.2.1 hw
  have hrp := releaseAndPin_some env.next_bo b
    { submitted env s with calls := (submitted env s).calls ++ ws } (by rw [← hG, ← hsg])
  have hws : (submitted env s).calls ++ ws =
      (submitted env s).calls ++ (ws0 ++ [DrmCall.handleEvent true]) := by
    rcases hshape with ⟨_, _, hcs⟩ | ⟨h1, _, _⟩
    · exact hcs
    · exact absurd h1 (by decide)
  have hcalls : (releaseAndPin env.next_bo
      { submitted env s with calls := (submitted env s).calls ++ ws }).calls =
      s.calls ++ (g ++ [DrmCall.pageFlip (swapHandle env s) 0]) ++
        (ws0 ++ [DrmCall.handleEvent true]) ++ [DrmCall.releaseBuffer b] := by
    rw [hrp.2.2.1]
    show ((submitted env s).calls ++ ws) ++ _ = _
    rw [hws, hsub, hc.2.2.1]
  refine ⟨_, hres, hrp.1, ?_, ?_, ?_⟩
  · rw [hrp.2.1]
    show (submitted env s).locked.erase b = _
    rw [hsl, hl]
    by_cases hnb : env.next_bo = b
    · simp [hnb]
    · simp [List.erase_cons, hnb]
  · rw [hcalls]
    unfold releasesConfirmed at hph ⊢
    have hgq : ∀ p, runCheck releaseStep p g = some p :=
      fun p => runCheck_quiet releaseStep releaseStep_quiet g hq p
    have hwsq : ∀ p, runCheck releaseStep p ws0 = some p :=
      fun p => runCheck_quiet releaseStep releaseStep_quiet ws0 hwq p
    simp [runCheck_append, hph, hgq, hwsq, runCheck, releaseStep]
  · rw [hcalls]
    simp [releasedBuffers_append, releasedBuffers_quiet g hq, releasedBuffers_quiet ws0 hwq,
      releasedBuffers]

/-- Confirmed swaps from a state with exactly the pinned buffer locked. -/
theorem confirmed_run (envs : List SwapEnv) :
    ∀ (s : DrmState) (b : Nat), (∀ env, env ∈ envs → confirmedEnv env) →
      s.GbmBuffer = some b → s.locked = [b] →
      releasesConfirmed FlipPhase.idle s.calls = some FlipPhase.idle →
      ∃ s', runSwaps envs s = some s' ∧
        s'.GbmBuffer = some ((envs.map fun e => e.next_bo).getLastD b) ∧
        s'.locked = [(envs.map fun e => e.next_bo).getLastD b] ∧
        releasesConfirmed FlipPhase.idle s'.calls = some FlipPhase.idle ∧
        releasedBuffers s'.calls =
          releasedBuffers s.calls ++ (b :: envs.map fun e => e.next_bo).dropLast := by
  induction envs with
  | nil =>
    intro s b _ hG hl hph
    exact ⟨s, rfl, hG, hl, hph, by simp⟩
  | cons env envs ih =>
    intro s b hc hG hl hph
    obtain ⟨s1, h1, hG1, hl1, hph1, hr1⟩ :=
      confirmed_step env s b (hc env (List.mem_cons_self env envs)) hG hl hph
    obtain ⟨s', h2, hG2, hl2, hph2, hr2⟩ :=
      ih s1 env.next_bo (fun e he => hc e (List.mem_cons_of_mem env he)) hG1 hl1 hph1
    refine ⟨s', ?_, ?_, ?_, hph2, ?_⟩
    · unfold runSwaps
      rw [h1]
      exact h2
    · rw [hG2, List.map_cons, List.getLastD_cons]
    · rw [hl2, List.map_cons, List.getLastD_cons]
    · rw [hr2, hr1, List.map_cons, List.dropLast_cons₂, List.append_assoc]
      rfl

/-- The state left by `DrmEglInit` once it has locked the front buffer: one
buffer, locked and pinned, and nothing released. -/
theorem DrmEglInit_state (ienv : InitEnv) :
    (DrmEglInit ienv drmInitial).2.GbmBuffer = some ienv.first_bo ∧
    (DrmEglInit ienv drmInitial).2.locked = [ienv.first_bo] ∧
    releasesConfirmed FlipPhase.idle (DrmEglInit ienv drmInitial).2.calls =
      some FlipPhase.idle ∧
    releasedBuffers (DrmEglInit ienv drmInitial).2.calls = [] := by
  have hfr := DrmGetFb_frame ienv.addRet ienv.addFbId ienv.first_bo
    { drmInitial with
      GbmBuffer := some ienv.first_bo
      locked := ienv.first_bo :: drmInitial.locked
      calls := drmInitial.calls ++ [DrmCall.lockFrontBuffer ienv.first_bo] }
  obtain ⟨g, hg, hq⟩ := DrmGetFb_quiet ienv.addRet ienv.addFbId ienv.first_bo
    { drmInitial with
      GbmBuffer := some ienv.first_bo
      locked := ienv.first_bo :: drmInitial.locked
      calls := drmInitial.calls ++ [DrmCall.lockFrontBuffer ienv.first_bo] }
  have h2 : (DrmEglInit ienv drmInitial).2 =
      (DrmGetFb ienv.addRet ienv.addFbId ienv.first_bo
        { drmInitial with
          GbmBuffer := some ienv.first_bo
          locked := ienv.first_bo :: drmInitial.locked
          calls := drmInitial.calls ++ [DrmCall.lockFrontBuffer ienv.first_bo] }).2 := by
    unfold DrmEglInit
    simp only []
    split_ifs <;> rfl
  rw [h2, hfr.1, hfr.2.1, hg]
  have hall : ∀ c, c ∈ [DrmCall.lockFrontBuffer ienv.first_bo] ++ g → quietCall c = true := by
    intro c hc
    rcases List.mem_append.mp hc with hc | hc
    · simp at hc; rw [hc]; rfl
    · exact hq c hc
  refine ⟨rfl, rfl, ?_, ?_⟩
  · exact runCheck_quiet releaseStep releaseStep_quiet _ hall FlipPhase.idle
  · exact releasedBuffers_quiet _ hall

/-- C22 (no leak over confirmed swaps): from the state left by a successful
`DrmEglInit`, any number of `DrmEglSwapBuffers` calls that each succeed and
are confirmed all return, and afterwards exactly one buffer is locked and not
released, the pinned one, which is the one submitted last; the buffers
released are the earlier pinned buffers, each once and in the order they were
pinned; and every release comes after the confirmation of the page flip
submitted in the same call. -/
theorem no_leak_over_confirmed_swaps (ienv : InitEnv) (envs : List SwapEnv)
    (_hinit : (DrmEglInit ienv drmInitial).1 = 1)
    (hconf : ∀ env, env ∈ envs → confirmedEnv env) :
    ∃ s', runSwaps envs (DrmEglInit ienv drmInitial).2 = some s' ∧
      s'.GbmBuffer = some ((envs.map fun e => e.next_bo).getLastD ienv.first_bo) ∧
      s'.locked = [(envs.map fun e => e.next_bo).getLastD ienv.first_bo] ∧
      releasedBuffers s'.calls = (ienv.first_bo :: envs.map fun e => e.next_bo).dropLast ∧
      releasesConfirmed FlipPhase.idle s'.calls = some FlipPhase.idle := by
  obtain ⟨hG, hl, hph, hr⟩ := DrmEglInit_state ienv
  obtain ⟨s', h1, h2, h3, h4, h5⟩ :=
    confirmed_run envs (DrmEglInit ienv drmInitial).2 ienv.first_bo hconf hG hl hph
  refine ⟨s', h1, h2, h3, ?_, h4⟩
  rw [h5, hr]
  rfl

/-- C22 at a successful initialisation with buffer 1 followed by three
confirmed swaps to the buffers 2, 3 and 1: buffer 1 alone stays locked, and
the releases are those of 1, 2 and 3, in this order. -/
theorem no_leak_over_confirmed_swaps_witness :
    (DrmEglInit initEnvOk drmInitial).1 = 1 ∧
    ∃ s', runSwaps [envConfirmed, envSecond, envBackToOne]
        (DrmEglInit initEnvOk drmInitial).2 = some s' ∧
      s'.GbmBuffer = some 1 ∧ s'.locked = [1] ∧
      releasedBuffers s'.calls = [1, 2, 3] ∧
      releasesConfirmed FlipPhase.idle s'.calls = some FlipPhase.idle :=
  ⟨by decide,
   no_leak_over_confirmed_swaps initEnvOk [envConfirmed, envSecond, envBackToOne] (by decide)
    (by
      intro env he
      simp only [List.mem_cons, List.mem_singleton, List.not_mem_nil, or_false] at he
      rcases he with rfl | rfl | rfl <;> decide)⟩

/-! ## Display setup -/

theorem connectorLoop_second_diverges (fuel : Nat) :
    ∀ st : GfxState, connectorLoop resSecondConnected fuel 1 st = none := by
  induction fuel with
  | zero => intro st; rfl
  | succ fuel ih =>
    intro st
    unfold connectorLoop
    have hlt : 1 < resSecondConnected.connectors.length := by decide
    rw [if_pos hlt]
    have hi : (connectorBody resSecondConnected 1 st).1 + 1 = 1 := by
      simp [connectorBody, resSecondConnected, modeLoop, encoderLoop]
    rw [hi]
    exact ih _

/-- C24 (setup failure is reported), evaluated where it fails: for a single
connected connector with a preferred mode whose encoder has `crtc_id = 0`,
and for one whose encoder is not in the encoder list, `GfxSystemInit`
returns 1 although no connector was selected: `DrmConnector` is still `NULL`
and `DrmCrtcId` is still 0. -/
theorem setup_failure_not_reported :
    GfxSystemInit 3 (some resNoCrtc) 2 =
      some (1, { DrmMode := some (0, 0), DrmConnector := none, DrmCrtcId := 0,
                 drmCrtcId := 0, examined := [0] }) ∧
    GfxSystemInit 3 (some resNoEncoder) 2 =
      some (1, { DrmMode := some (0, 1), DrmConnector := none, DrmCrtcId := 0,
                 drmCrtcId := 0, examined := [0] }) := by
  decide

/-- C30 (connector scan terminates), evaluated where it fails: with a first
connector that is not connected and a connected second one whose preferred
mode and encoder both have index 0, the connector loop of `GfxSystemInit`
does not end, whatever the bound on its steps, and examines connector index
1 again and again: the inner loops leave the shared counter at 0, and `i++`
makes it 1. -/
theorem connector_scan_diverges :
    (∀ fuel, GfxSystemInit 3 (some resSecondConnected) fuel = none) ∧
    (connectorRun resSecondConnected 4 0 gfxInitial).1 = 1 ∧
    (connectorRun resSecondConnected 4 0 gfxInitial).2.examined = [0, 1, 1, 1] := by
  refine ⟨?_, by decide, by decide⟩
  intro fuel
  have h : connectorLoop resSecondConnected fuel 0 gfxInitial = none := by
    cases fuel with
    | zero => rfl
    | succ fuel =>
      unfold connectorLoop
      have hlt : 0 < resSecondConnected.connectors.length := by decide
      rw [if_pos hlt]
      have hi : (connectorBody resSecondConnected 0 gfxInitial).1 + 1 = 1 := by decide
      rw [hi]
      exact connectorLoop_second_diverges fuel _
  unfold GfxSystemInit
  rw [if_neg (by decide)]
  simp only [h, Option.map_none']

end HeadUnit
